import Mathlib

/-!
# classias: maximum entropy training and evaluation

A shallow embedding of `linear_multi_classifier` and `trainer_maxent`
(`include/classias/maxent.h`), of `accuracy` and `precall`
(`include/classias/evaluation.h`), and of the front end: the readers of
`frontend/train/binary.cpp` and `frontend/train/multi.cpp`, `read_data`,
`split_data` and `read_dataset` (`frontend/util.h`), and the option handler
and usage text of `frontend/main.cpp`.

Conventions of the embedding.

* `value_type` (a C++ `double`) is an arbitrary linearly ordered field `α`;
  `std::exp` and `std::log` are parameters `exp log : α → α` of the functions
  that call them.  The theorems instantiate `α := ℝ`, `exp := Real.exp`,
  `log := Real.log`, or hold for every `α`.
* `std::vector` members are lists; `v[i] = e` is `List.set`, `v[i]` is
  `List.getD _ i 0`.
* raw buffers (`value_type*`: the weights `x`, the gradient `g`, `m_mexps`,
  `m_oexps`) are functions `Nat → α`; `v[k] = e` is `Function.update`.
* `m_traits.forward` is a parameter `forward : Nat → Nat → Int` (negative when
  the feature was not generated).
* `int` counters and indices are integers or naturals without overflow, except
  the counters of `accuracy`, which wrap around as 32-bit `int`s (`int_wrap`).
* where the rounding of `double` matters (the scores of `precall`), the
  functions named `..._rounded` carry the rounding function of each operation,
  and `round_binary64` is the rounding of IEEE 754 binary64.
-/

namespace classias

/-- A candidate of an instance: the sparse attribute vector iterated by
`begin()`/`end()` as `(first, second)` pairs, `get_label()`, `get_truth()`. -/
structure Candidate (α : Type) where
  attrs : List (Nat × α)
  label : Nat
  truth : Bool

/-- An instance: the candidates iterated by `begin()`/`end()`, `get_group()`. -/
structure Instance (α : Type) where
  candidates : List (Candidate α)
  group : Int

/-- The mutable members of `linear_multi_classifier`; `m_model` and `m_traits`
are references and are passed to the member functions that read them. -/
structure linear_multi_classifier (α : Type) where
  m_scores : List α
  m_probs : List α
  m_labels : List Nat
  m_argmax : Int
  m_norm : α

/-- The library call `std::vector::resize(n)`: truncates, or pads with value-initialised
elements. -/
def vector_resize {β : Type} [Zero β] (v : List β) (n : Nat) : List β :=
  v.take n ++ List.replicate (n - v.length) 0

section classifier

variable {α : Type} [LinearOrderedField α]

/-- Member `size()`. -/
def linear_multi_classifier.size (c : linear_multi_classifier α) : Nat :=
  c.m_scores.length

/-- Member `clear()`. -/
def linear_multi_classifier.clear (c : linear_multi_classifier α) :
    linear_multi_classifier α :=
  (List.range c.size).foldl
    (fun s i => { s with m_scores := s.m_scores.set i 0, m_probs := s.m_probs.set i 0 })
    { c with m_norm := 0 }

/-- The constructor: empty vectors, then `clear()`.  The source initialises
neither `m_argmax` nor (before `clear()`) `m_norm`; `a0` is whatever `m_argmax`
holds. -/
def linear_multi_classifier.ctor (a0 : Int) : linear_multi_classifier α :=
  linear_multi_classifier.clear
    { m_scores := [], m_probs := [], m_labels := [], m_argmax := a0, m_norm := 0 }

/-- Member `resize(n)`. -/
def linear_multi_classifier.resize (c : linear_multi_classifier α) (n : Nat) :
    linear_multi_classifier α :=
  { c with
    m_scores := vector_resize c.m_scores n
    m_probs := vector_resize c.m_probs n
    m_labels := vector_resize c.m_labels n }

/-- Member `argmax()`. -/
def linear_multi_classifier.argmax (c : linear_multi_classifier α) : Int :=
  c.m_argmax

/-- Member `score(i)`. -/
def linear_multi_classifier.score (c : linear_multi_classifier α) (i : Nat) : α :=
  c.m_scores.getD i 0

/-- Member `prob(i)`; the index is a C++ `int`, and a read outside the vector
(undefined in the source) yields `0` here. -/
def linear_multi_classifier.prob (c : linear_multi_classifier α) (i : Int) : α :=
  if 0 ≤ i then c.m_probs.getD i.toNat 0 else 0

/-- Member `label(i)`. -/
def linear_multi_classifier.label (c : linear_multi_classifier α) (i : Nat) : Nat :=
  c.m_labels.getD i 0

/-- Member `operator()(i, key, label, value)`. -/
def linear_multi_classifier.call (forward : Nat → Nat → Int) (m_model : Nat → α)
    (c : linear_multi_classifier α) (i key label : Nat) (value : α) :
    linear_multi_classifier α :=
  let fid := forward key label
  if 0 ≤ fid then
    { c with m_scores := c.m_scores.set i (c.m_scores.getD i 0 + m_model fid.toNat * value) }
  else c

/-- Member `accumulate(i, first, last, label)`. -/
def linear_multi_classifier.accumulate (forward : Nat → Nat → Int) (m_model : Nat → α)
    (c : linear_multi_classifier α) (i : Nat) (attrs : List (Nat × α)) (label : Nat) :
    linear_multi_classifier α :=
  attrs.foldl (fun s it => s.call forward m_model i it.1 label it.2)
    { c with m_scores := c.m_scores.set i 0, m_labels := c.m_labels.set i label }

/-- Member `add_to(v, first, last, label, value)`. -/
def linear_multi_classifier.add_to (forward : Nat → Nat → Int) (v : Nat → α)
    (attrs : List (Nat × α)) (label : Nat) (value : α) : Nat → α :=
  attrs.foldl
    (fun w it =>
      let fid := forward it.1 label
      if 0 ≤ fid then Function.update w fid.toNat (w fid.toNat + value * it.2) else w)
    v

/-- The first loop of `finalize`: the pair `(m_argmax, vmax)` after the sweep. -/
def finalize_argmax (scores : List α) : Nat × α :=
  (List.range scores.length).foldl
    (fun st i => if st.2 < scores.getD i 0 then (i, scores.getD i 0) else st)
    (0, scores.getD 0 0)

/-- The loop `m_probs[i] = std::exp(m_scores[i])`. -/
def finalize_exps (exp : α → α) (scores probs : List α) : List α :=
  (List.range scores.length).foldl (fun p i => p.set i (exp (scores.getD i 0))) probs

/-- The partition factor: `m_norm = m_probs[m_argmax]`, then every other slot
is added. -/
def finalize_norm (size : Nat) (probs : List α) (am : Nat) : α :=
  (List.range size).foldl (fun nrm i => if i ≠ am then nrm + probs.getD i 0 else nrm)
    (probs.getD am 0)

/-- The loop `m_probs[i] /= m_norm`. -/
def finalize_normalize (size : Nat) (probs : List α) (nrm : α) : List α :=
  (List.range size).foldl (fun p i => p.set i (p.getD i 0 / nrm)) probs

/-- Member `finalize(prob)`: the returned flag and the classifier afterwards. -/
def linear_multi_classifier.finalize (exp : α → α) (c : linear_multi_classifier α)
    (prob : Bool) : Bool × linear_multi_classifier α :=
  if c.m_scores.length = 0 then (false, c)
  else
    let am := (finalize_argmax c.m_scores).1
    if prob then
      let p1 := finalize_exps exp c.m_scores c.m_probs
      let nrm := finalize_norm c.size p1 am
      (true, { c with m_argmax := (am : Int), m_norm := nrm,
                      m_probs := finalize_normalize c.size p1 nrm })
    else (true, { c with m_argmax := (am : Int) })

/-- The vectors of a classifier have one common size (only `resize` changes
their sizes, and it gives all three the same one). -/
def linear_multi_classifier.wf (c : linear_multi_classifier α) : Prop :=
  c.m_probs.length = c.m_scores.length ∧ c.m_labels.length = c.m_scores.length

end classifier

/-- The parts of the training data (`data_type`) that the trainer reads: the
instances, `traits.forward`, `traits.num_features()` and
`get_user_feature_start()`. -/
structure data_type (α : Type) where
  instances : List (Instance α)
  forward : Nat → Nat → Int
  num_features : Nat
  user_feature_start : Nat

/-- The members of `trainer_maxent` (the log stream, the clock, the unused
`m_scores` buffer are left out; `m_data` is passed to the member functions
as the data set it points to). -/
structure trainer_maxent (α : Type) where
  m_oexps : Nat → α
  m_mexps : Nat → α
  m_weights : Nat → α
  m_num_labels : Nat
  m_holdout : Int
  m_regularization : String
  m_regularization_sigma : α
  m_regularization_start : Nat
  m_lbfgs_num_memories : Int
  m_lbfgs_epsilon : α
  m_lbfgs_stop : Int
  m_lbfgs_delta : α
  m_lbfgs_maxiter : Int
  m_lbfgs_linesearch : String
  m_lbfgs_max_linesearch : Int
  m_c1 : α
  m_c2 : α

section trainer

variable {α : Type} [LinearOrderedField α]

/-- The loop "Compute score[i] for each candidate #i" of `lbfgs_evaluate`,
from candidate index `i` on; the state is the classifier and `itrue`. -/
def lbfgs_evaluate_scores (forward : Nat → Nat → Int) (x : Nat → α) :
    Nat → List (Candidate α) → linear_multi_classifier α × Int →
      linear_multi_classifier α × Int
  | _, [], st => st
  | i, itc :: rest, st =>
      lbfgs_evaluate_scores forward x (i + 1) rest
        (st.1.accumulate forward x i itc.attrs itc.label,
         if itc.truth then (i : Int) else st.2)

/-- The loop "Accumulate the model expectations of features" of
`lbfgs_evaluate`, from candidate index `i` on: the coefficient handed to
`add_to` is the loop counter `i` itself. -/
def lbfgs_evaluate_mexps (forward : Nat → Nat → Int) :
    Nat → List (Candidate α) → (Nat → α) → (Nat → α)
  | _, [], m => m
  | i, itc :: rest, m =>
      lbfgs_evaluate_mexps forward (i + 1) rest
        (linear_multi_classifier.add_to forward m itc.attrs itc.label (i : α))

/-- The body of the loop over instances of `lbfgs_evaluate`; the state is the
classifier, `m_mexps` and `loss`. -/
def lbfgs_evaluate_instance (exp log : α → α) (forward : Nat → Nat → Int) (x : Nat → α)
    (m_holdout : Int) (st : linear_multi_classifier α × (Nat → α) × α)
    (iti : Instance α) : linear_multi_classifier α × (Nat → α) × α :=
  if iti.group = m_holdout then st
  else
    let sc := lbfgs_evaluate_scores forward x 0 iti.candidates (st.1, -1)
    let cls := (sc.1.finalize exp true).2
    let mexps := lbfgs_evaluate_mexps forward 0 iti.candidates st.2.1
    (cls, mexps, st.2.2 - log (cls.prob sc.2))

/-- The loop "Compute the gradients". -/
def lbfgs_evaluate_gradient (m_oexps m_mexps g : Nat → α) (n : Nat) : Nat → α :=
  (List.range n).foldl (fun h i => Function.update h i (-(m_oexps i - m_mexps i))) g

/-- The loop of the L2 branch; the state is `g` and `norm`. -/
def lbfgs_evaluate_l2 (m_c2 : α) (x : Nat → α) (start n : Nat) (g : Nat → α) :
    (Nat → α) × α :=
  (List.range' start (n - start)).foldl
    (fun st i => (Function.update st.1 i (st.1 i + m_c2 * x i), st.2 + x i * x i))
    (g, 0)

/-- Member `lbfgs_evaluate(x, g, n, step)` on the data set `data` that `m_data` points
to: the returned loss, the gradient buffer and the trainer afterwards.  The
local classifier is built by the constructor, whose uninitialised `m_argmax`
is never read here. -/
def trainer_maxent.lbfgs_evaluate (exp log : α → α) (t : trainer_maxent α)
    (data : data_type α) (x g : Nat → α) (n : Nat) (_step : α) :
    α × (Nat → α) × trainer_maxent α :=
  let cls : linear_multi_classifier α := linear_multi_classifier.ctor 0
  let mexps0 := (List.range n).foldl (fun m i => Function.update m i 0) t.m_mexps
  let cls := cls.resize t.m_num_labels
  let st := data.instances.foldl
    (lbfgs_evaluate_instance exp log data.forward x t.m_holdout) (cls, mexps0, 0)
  let g1 := lbfgs_evaluate_gradient t.m_oexps st.2.1 g n
  if t.m_c2 ≠ 0 then
    let r := lbfgs_evaluate_l2 t.m_c2 x t.m_regularization_start n g1
    (st.2.2 + t.m_c2 * r.2 * (1 / 2), r.1, { t with m_mexps := st.2.1 })
  else (st.2.2, g1, { t with m_mexps := st.2.1 })

end trainer

section specification

variable {α : Type} [LinearOrderedField α]

/-- The score of a candidate as the specification words it: the sum over its
attributes of `weight[feature(attr, label)] * value`, `0` for an attribute
without feature. -/
def spec_score (forward : Nat → Nat → Int) (x : Nat → α) (c : Candidate α) : α :=
  (c.attrs.map (fun it =>
    if 0 ≤ forward it.1 c.label then x (forward it.1 c.label).toNat * it.2 else 0)).sum

/-- The softmax probability of slot `i` of a score vector. -/
def spec_softmax (exp : α → α) (scores : List α) (i : Nat) : α :=
  exp (scores.getD i 0) / (scores.map exp).sum

/-- The total value of the attributes of a candidate that are mapped to
feature `k`. -/
def spec_feature_value (forward : Nat → Nat → Int) (c : Candidate α) (k : Nat) : α :=
  (c.attrs.map (fun it =>
    if 0 ≤ forward it.1 c.label ∧ (forward it.1 c.label).toNat = k then it.2 else 0)).sum

/-- The model expectation of feature `k` as the specification words it: the
sum over the non-holdout instances and their candidates `i` of `prob(i)` times
the value of the attributes mapped to `k`, `prob` being the softmax over the
candidates of the instance. -/
def spec_model_expectation (exp : α → α) (forward : Nat → Nat → Int) (x : Nat → α)
    (m_holdout : Int) (instances : List (Instance α)) (k : Nat) : α :=
  ((instances.filter (fun iti => iti.group ≠ m_holdout)).map (fun iti =>
    ((List.range iti.candidates.length).map (fun i =>
      spec_softmax exp (iti.candidates.map (spec_score forward x)) i *
        (match iti.candidates.get? i with
         | some c => spec_feature_value forward c k
         | none => 0))).sum)).sum

/-- The index of the true candidate of an instance (the last one marked), or
`-1`. -/
def spec_true_index (cands : List (Candidate α)) : Int :=
  (List.range cands.length).foldl
    (fun r i => match cands.get? i with
      | some c => if c.truth then (i : Int) else r
      | none => r) (-1)

/-- The negative log-likelihood as the specification words it: the sum over
the non-holdout instances of `-log(prob[trueIndex])`, `prob` being the softmax
over exactly the candidates of the instance. -/
def spec_loss (exp log : α → α) (forward : Nat → Nat → Int) (x : Nat → α)
    (m_holdout : Int) (instances : List (Instance α)) : α :=
  ((instances.filter (fun iti => iti.group ≠ m_holdout)).map (fun iti =>
    -log (spec_softmax exp (iti.candidates.map (spec_score forward x))
      (spec_true_index iti.candidates).toNat))).sum

end specification

/-! ## `trainer_maxent::clear` and `trainer_maxent::train` -/

/-- The arguments that `train` hands to `lbfgs_solve`, in the order of the
call (the third argument, `NULL`, is left out). -/
structure lbfgs_solve_args (α : Type) where
  n : Nat
  x : Nat → α
  num_memories : Int
  epsilon : α
  stop : Int
  delta : α
  maxiter : Int
  linesearch : String
  max_linesearch : Int
  c1 : α
  l1_start : Nat

section train

variable {α : Type} [LinearOrderedField α]

/-- Modelled from the spec: `parameter_exchange::init(name, &var, default, help)`
(`parameters.h` is not among the sources) registers a named parameter "with
default": the bound member `var` holds the default afterwards.  The result is
the new value of the member; the help text is left out. -/
def parameter_exchange.init {β : Type} (_name : String) (_var : β) (default : β) : β :=
  default

/-- Member `clear()` of `trainer_maxent`: the four buffers are freed and their
pointers nulled (a null buffer is the zero function here), `m_data` and `m_os`
are nulled, `m_holdout` is `-1` and the parameters are initialised.
`m_num_labels`, `m_regularization_start`, `m_c1` and `m_c2` are not touched. -/
def trainer_maxent.clear (t : trainer_maxent α) : trainer_maxent α :=
  { t with
    m_oexps := fun _ => 0
    m_mexps := fun _ => 0
    m_weights := fun _ => 0
    m_holdout := -1
    m_regularization :=
      parameter_exchange.init "regularization" t.m_regularization "L2"
    m_regularization_sigma :=
      parameter_exchange.init "regularization.sigma" t.m_regularization_sigma 5
    m_lbfgs_num_memories :=
      parameter_exchange.init "lbfgs.num_memories" t.m_lbfgs_num_memories 6
    m_lbfgs_epsilon :=
      parameter_exchange.init "lbfgs.epsilon" t.m_lbfgs_epsilon (1 / 100000)
    m_lbfgs_stop :=
      parameter_exchange.init "lbfgs.stop" t.m_lbfgs_stop 10
    m_lbfgs_delta :=
      parameter_exchange.init "lbfgs.delta" t.m_lbfgs_delta (1 / 100000)
    m_lbfgs_maxiter :=
      parameter_exchange.init "lbfgs.max_iterations" t.m_lbfgs_maxiter 2147483647
    m_lbfgs_linesearch :=
      parameter_exchange.init "lbfgs.linesearch" t.m_lbfgs_linesearch "MoreThuente"
    m_lbfgs_max_linesearch :=
      parameter_exchange.init "lbfgs.max_linesearch" t.m_lbfgs_max_linesearch 20 }

/-- The constructor of `trainer_maxent`: the buffers are null, `m_num_labels`
and `m_regularization_start` are `0`, then `clear()`.  The argument `t` is the
object before construction: the members that the constructor does not
initialise (`m_c1`, `m_c2`) keep what it holds. -/
def trainer_maxent.ctor (t : trainer_maxent α) : trainer_maxent α :=
  trainer_maxent.clear
    { t with
      m_oexps := fun _ => 0
      m_mexps := fun _ => 0
      m_weights := fun _ => 0
      m_num_labels := 0
      m_regularization_start := 0 }

/-- Modelled from the spec: the member `add_to(v, value)` of a candidate
(`instance.h` is not among the sources; the call site documents it as
`m_oexps[k] += 1.0 * (*itc)[k]`) is the gradient-contribution primitive of the
classifier applied to the attributes and the label of the candidate. -/
def Candidate.add_to (forward : Nat → Nat → Int) (c : Candidate α) (v : Nat → α)
    (value : α) : Nat → α :=
  linear_multi_classifier.add_to forward v c.attrs c.label value

/-- The loop over the candidates of one instance in the observation
expectation pass of `train`. -/
def train_oexps_candidates (forward : Nat → Nat → Int) (cands : List (Candidate α))
    (m_oexps : Nat → α) : Nat → α :=
  cands.foldl (fun v itc => if itc.truth then itc.add_to forward v 1 else v) m_oexps

/-- The body of the loop "Compute observation expectations of the features"
of `train`; the state is `m_oexps` and `m_num_labels`. -/
def train_oexps_instance (forward : Nat → Nat → Int) (m_holdout : Int)
    (st : (Nat → α) × Nat) (iti : Instance α) : (Nat → α) × Nat :=
  if iti.group = m_holdout then st
  else
    (train_oexps_candidates forward iti.candidates st.1,
     if st.2 < iti.candidates.length then iti.candidates.length else st.2)

/-- The statements of `train(data, os, holdout)` that precede the call of the
solver: the trainer as the solver finds it. -/
def trainer_maxent.train_prepare (t : trainer_maxent α) (data : data_type α)
    (holdout : Int) : trainer_maxent α :=
  let K := data.num_features
  let zero : Nat → α := (List.range K).foldl (fun m k => Function.update m k 0) (fun _ => 0)
  let t1 := { t with m_oexps := zero, m_mexps := zero, m_weights := zero, m_holdout := holdout }
  let t2 :=
    if t1.m_regularization = "L1" ∨ t1.m_regularization = "l1" then
      { t1 with m_c1 := 1 / t1.m_regularization_sigma, m_c2 := 0,
                m_lbfgs_linesearch := "Backtracking" }
    else if t1.m_regularization = "L2" ∨ t1.m_regularization = "l2" then
      { t1 with m_c1 := 0,
                m_c2 := 1 / (t1.m_regularization_sigma * t1.m_regularization_sigma) }
    else
      { t1 with m_c1 := 0, m_c2 := 0 }
  let t3 := { t2 with m_regularization_start := data.user_feature_start }
  let st := data.instances.foldl (train_oexps_instance data.forward t3.m_holdout)
    (t3.m_oexps, 0)
  { t3 with m_oexps := st.1, m_num_labels := st.2 }

/-- The argument list of the call `lbfgs_solve(...)` in `train`. -/
def trainer_maxent.train_args (t : trainer_maxent α) (data : data_type α) :
    lbfgs_solve_args α :=
  { n := data.num_features
    x := t.m_weights
    num_memories := t.m_lbfgs_num_memories
    epsilon := t.m_lbfgs_epsilon
    stop := t.m_lbfgs_stop
    delta := t.m_lbfgs_delta
    maxiter := t.m_lbfgs_maxiter
    linesearch := t.m_lbfgs_linesearch
    max_linesearch := t.m_lbfgs_max_linesearch
    c1 := t.m_c1
    l1_start := t.m_regularization_start }

/-- The state of `lbfgs_evaluate` when the loop over the instances is left:
the classifier, `m_mexps` and `loss` (the loss before any regularization
term). -/
def lbfgs_evaluate_sweep (exp log : α → α) (m_mexps : Nat → α) (m_num_labels : Nat)
    (m_holdout : Int) (data : data_type α) (x : Nat → α) (n : Nat) :
    linear_multi_classifier α × (Nat → α) × α :=
  data.instances.foldl (lbfgs_evaluate_instance exp log data.forward x m_holdout)
    ((linear_multi_classifier.ctor 0 : linear_multi_classifier α).resize m_num_labels,
     (List.range n).foldl (fun m i => Function.update m i 0) m_mexps, 0)

/-- Member `train(data, os, holdout)`: the status returned and the trainer
afterwards.  The solver `lbfgs_solve` of the base class (`lbfgs.h` is not among
the sources) is a parameter: it receives the argument list and the prepared
trainer, whose callbacks it invokes, and returns its status. -/
def trainer_maxent.train
    (lbfgs_solve : lbfgs_solve_args α → trainer_maxent α → Int × trainer_maxent α)
    (t : trainer_maxent α) (data : data_type α) (holdout : Int) :
    Int × trainer_maxent α :=
  let t1 := t.train_prepare data holdout
  lbfgs_solve (t1.train_args data) t1

end train

/-! ## Evaluation (`include/classias/evaluation.h`) and fold assignment
(`frontend/util.h`)

The `int` counters are integers; those of `accuracy` are kept within the 32
bits of an `int` by `int_wrap`.  A quotient of doubles is `double_div`, which
has no value for a zero divisor, so that a function that returns `some _`
performed no division by zero.  The local variable `recall` of the source is
`recall_` (the word is reserved). -/

/-- The members of `accuracy`: the number of matches and the total number of
instances. -/
structure accuracy where
  m_m : Int
  m_n : Int

/-- The counter `label_stat` of one label. -/
structure label_stat where
  num_match : Int
  num_reference : Int
  num_prediction : Int

/-- The constructor of `label_stat`, which is also the value that
`std::vector::resize` pads with. -/
instance : Zero label_stat :=
  ⟨{ num_match := 0, num_reference := 0, num_prediction := 0 }⟩

/-- The members of `precall`: the label-wise stats. -/
structure precall where
  m_stat : List label_stat

/-- The members of `option` (`frontend/train/option.h`), the three streams
left out; `negatives` is a `std::set`, kept as the list of its elements. -/
structure option where
  files : List String
  mode : Int
  type : Int
  model : String
  negatives : List String
  algorithm : String
  params : List String
  split : Int
  holdout : Int
  cross_validation : Bool
  generate_bias : Bool

section evaluation

variable {α : Type} [LinearOrderedField α]

/-- The quotient `a / b` of two doubles; a zero divisor has no quotient. -/
def double_div (a b : α) : Option α :=
  if b = 0 then none else some (a / b)

/-- The constructor `accuracy()`. -/
def accuracy.ctor : accuracy :=
  { m_m := 0, m_n := 0 }

/-- The value that a C++ `int` (32 bits, two's complement) holds for the
integer `z`: `z` itself inside `[-2^31, 2^31)`, wrapped around outside. -/
def int_wrap (z : Int) : Int :=
  (z + 2147483648) % 4294967296 - 2147483648

/-- Member `set(b)` of `accuracy`: `m_m += static_cast<int>(b); ++m_n;` on `int`
counters. -/
def accuracy.set (a : accuracy) (b : Bool) : accuracy :=
  { m_m := int_wrap (a.m_m + (if b then 1 else 0)), m_n := int_wrap (a.m_n + 1) }

/-- The conversion `operator double()` of `accuracy`. -/
def accuracy.operator_double (a : accuracy) : Option α :=
  if 0 < a.m_n then double_div (a.m_m : α) (a.m_n : α) else some 0

/-- Member `resize(N)` of `precall`. -/
def precall.resize (p : precall) (N : Nat) : precall :=
  { m_stat := vector_resize p.m_stat N }

/-- The constructor `precall(N)`. -/
def precall.ctor (N : Nat) : precall :=
  precall.resize { m_stat := [] } N

/-- Member `set(p, r)` of `precall`. -/
def precall.set (s : precall) (p r : Nat) : precall :=
  let st1 := s.m_stat.set r
    { s.m_stat.getD r 0 with num_reference := (s.m_stat.getD r 0).num_reference + 1 }
  let st2 := st1.set p
    { st1.getD p 0 with num_prediction := (st1.getD p 0).num_prediction + 1 }
  if r = p then
    { m_stat := st2.set p { st2.getD p 0 with num_match := (st2.getD p 0).num_match + 1 } }
  else { m_stat := st2 }

/-- The private `divide(a, b)` at `value_type = int`:
`(b != 0) ? (a / (double)b) : 0.`, the quotient being exact
(`precall.divide_int_rounded` rounds it). -/
def precall.divide_int (a b : Int) : Option α :=
  if b ≠ 0 then double_div (a : α) (b : α) else some 0

/-- The private `divide(a, b)` at `value_type = double`, the quotient being
exact (`precall.divide_double_rounded` rounds it). -/
def precall.divide_double (a b : α) : Option α :=
  if b ≠ 0 then double_div a b else some 0

/-- The body of the loop of `output_labelwise` for the label `l`: the
`precision`, `recall` and `f1score` that are printed. -/
def precall.output_labelwise_item (s : precall) (l : Nat) : Option (α × α × α) := do
  let num_match := (s.m_stat.getD l 0).num_match
  let num_prediction := (s.m_stat.getD l 0).num_prediction
  let num_reference := (s.m_stat.getD l 0).num_reference
  let precision ← precall.divide_int num_match num_prediction
  let recall_ ← precall.divide_int num_match num_reference
  let f1score ← precall.divide_double (2 * precision * recall_) (precision + recall_)
  pure (precision, recall_, f1score)

/-- Member `output_labelwise(os, labels, pb, pe)`: the scores printed for the
labels of `[pb, pe)`, in order. -/
def precall.output_labelwise (s : precall) (positive : List Nat) :
    Option (List (α × α × α)) :=
  positive.mapM (fun l => precall.output_labelwise_item s l)

/-- The body of the loop of `output_macro`; the state is `n`, `precision`,
`recall` and `f1`. -/
def precall.output_macro_step (s : precall) (acc : Option (Int × α × α × α)) (l : Nat) :
    Option (Int × α × α × α) := do
  let st ← acc
  if 0 < (s.m_stat.getD l 0).num_prediction ∨ 0 < (s.m_stat.getD l 0).num_reference then
    let p ← precall.divide_int (s.m_stat.getD l 0).num_match (s.m_stat.getD l 0).num_prediction
    let r ← precall.divide_int (s.m_stat.getD l 0).num_match (s.m_stat.getD l 0).num_reference
    let f ← precall.divide_double (2 * p * r) (p + r)
    pure (st.1 + 1, st.2.1 + p, st.2.2.1 + r, st.2.2.2 + f)
  else pure st

/-- Member `output_macro(os, pb, pe)`: the `precision`, `recall` and `f1` that
are printed. -/
def precall.output_macro (s : precall) (positive : List Nat) : Option (α × α × α) := do
  let st ← positive.foldl (precall.output_macro_step s) (some (0, 0, 0, 0))
  if 0 < st.1 then
    let precision ← double_div st.2.1 (st.1 : α)
    let recall_ ← double_div st.2.2.1 (st.1 : α)
    let f1 ← double_div st.2.2.2 (st.1 : α)
    pure (precision, recall_, f1)
  else pure (st.2.1, st.2.2.1, st.2.2.2)

/-- The constructor of `option`. -/
def option.ctor : option :=
  { files := [], mode := 0, type := 0, model := "", negatives := ["-1", "O"],
    algorithm := "maxent", params := [], split := 0, holdout := -1,
    cross_validation := false, generate_bias := false }

/-- The loop of `split_data` from instance index `i` on: `set_group(i % opt.split)`,
the remainder being that of C (truncated). -/
def split_data_loop (split : Int) : Nat → List (Instance α) → List (Instance α)
  | _, [] => []
  | i, it :: rest =>
      { it with group := Int.tmod (i : Int) split } :: split_data_loop split (i + 1) rest

/-- The function `split_data(data, opt)`: the data afterwards and the value
returned. -/
def split_data (data : data_type α) (opt : option) : data_type α × Int :=
  ({ data with instances := split_data_loop opt.split 0 data.instances }, opt.split)

end evaluation

section evaluation_specification

variable {α : Type} [LinearOrderedField α]

/-- The quotient `a / b` of two counts as the specification words it: `0` when
the denominator is `0`. -/
def spec_ratio (a b : Int) : α :=
  if b = 0 then 0 else (a : α) / (b : α)

/-- The F1 score of a precision and a recall as the specification words it:
`2 p r / (p + r)`, and `0` when `p + r = 0`. -/
def spec_f1 (p r : α) : α :=
  if p + r = 0 then 0 else 2 * p * r / (p + r)

/-- The arithmetic mean of a list of values, `0` for the empty list. -/
def spec_mean (xs : List α) : α :=
  if xs = [] then 0 else xs.sum / (xs.length : α)

end evaluation_specification

/-! ## The arithmetic of `double` in the scores of `precall`

The functions above compute with exact quotients.  Those below are the same
functions with the rounding of each `double` operation made explicit: `fl` is
the rounding function, and `round_binary64` is the one of IEEE 754 binary64
(round to nearest, ties to even).  The conversion of an `int` to `double` is
exact. -/

section rounded_evaluation

variable {α : Type} [LinearOrderedField α]

end rounded_evaluation

/-! ## The front end (`frontend/util.h`, `frontend/train/binary.cpp`,
`frontend/train/multi.cpp`, `frontend/main.cpp`)

A `std::string` is a `String`; the text algorithms work on its list of
characters.  A function that throws returns the exception next to the state it
has reached.  The library and the headers that are not among the sources are
parameters: `atof` (`std::atof`), `tokenize` (the `tokenizer` of `tokenize.h`:
the tokens of a line for a separator, in order), the regular expression
`opt.filter` (a predicate on names), the files that can be opened. -/

/-- The exception `invalid_data`, as the arguments of its constructor: the
message, and for the errors of a line the line and its number. -/
structure invalid_data where
  msg : String
  line : Option String
  lines : Option Int
deriving DecidableEq

/-- The exception `invalid_value` of the option parser, as its message. -/
structure invalid_value where
  msg : String
deriving DecidableEq

/-- Modelled from the spec: the interner (quark) of attribute and label names,
whose header is not among the sources.  It maps a string to a dense id: the
strings seen, in first-seen order, the id of a string being its position. -/
structure quark where
  items : List String
deriving DecidableEq

/-- Modelled from the spec: the size of a quark, the number of distinct
strings seen. -/
def quark.size (q : quark) : Nat :=
  q.items.length

/-- Modelled from the spec: `intern(name)` (the call `q(name)` of the source),
in growable mode: a string that was seen keeps its id, an unseen string is
inserted and gets the next sequential id.  The result is the quark afterwards
and the id. -/
def quark.call (q : quark) (name : String) : quark × Nat :=
  if name ∈ q.items then (q, q.items.indexOf name)
  else ({ items := q.items ++ [name] }, q.items.length)

/-- Modelled from the spec: `resolve(id)` (the call `to_item(id)` of the
source), the string of an id. -/
def quark.to_item (q : quark) (i : Nat) : String :=
  q.items.getD i ""

/-- The members of `option` that `train/binary.cpp` and `train/multi.cpp` read;
the `option.h` among the sources declares only `model` of them. -/
structure train_option (α : Type) where
  token_separator : Char
  value_separator : Char
  filter_string : String
  filter : String → Bool
  bias : α
  negative_labels : List String
  model : String

/-- An instance of the binary task as `train/binary.cpp` uses it (`set_label`,
`set_weight`, `append`, `set_group`). -/
structure binary_instance (α : Type) where
  label : Bool
  weight : α
  features : List (Nat × α)
  group : Int

/-- A data set of the binary task as `train/binary.cpp` uses it: the
instances, the quark `attributes` and the first user feature. -/
structure binary_data (α : Type) where
  instances : List (binary_instance α)
  attributes : quark
  user_feature_start : Int

/-- An instance of the multi-class task as `train/multi.cpp` uses it
(`set_label`, `set_weight`, `append`, `set_group`). -/
structure multi_instance (α : Type) where
  label : Nat
  weight : α
  attributes : List (Nat × α)
  group : Int

/-- A data set of the multi-class task as `train/multi.cpp` uses it: the
instances, the quarks `attributes` and `labels`, `positive_labels` and the
feature generator, whose type is a parameter. -/
structure multi_data (α γ : Type) where
  instances : List (multi_instance α)
  attributes : quark
  labels : quark
  positive_labels : List Nat
  feature_generator : γ

section frontend

variable {α : Type} [LinearOrderedField α]

/-- The position `str.rfind(c)` of the last `c` in a string, `none` for
`npos`. -/
def rfind (c : Char) : List Char → Option Nat
  | [] => none
  | x :: xs =>
      match rfind c xs with
      | some k => some (k + 1)
      | none => if x = c then some 0 else none

/-- Modelled from the spec: the four-argument `get_name_value(str, name, value,
separator)` that `read_line` calls is not among the sources; it is the
`get_name_value` of `util.h` with the separator in the place of the colon (the
rightmost separator splits the token, an absent value is `1.0`).  The result
is `(name, value)`. -/
def get_name_value_sep (atof : String → α) (str : String) (sep : Char) : String × α :=
  match rfind sep str.toList with
  | none => (str, 1)
  | some col => (String.mk (str.toList.take col), atof (String.mk (str.toList.drop (col + 1))))

/-- The function `get_name_value(str, name, value)` of `util.h`; the result is
`(name, value)`. -/
def get_name_value (atof : String → α) (str : String) : String × α :=
  match rfind ':' str.toList with
  | none => (str, 1)
  | some col => (String.mk (str.toList.take col), atof (String.mk (str.toList.drop (col + 1))))

/-- Modelled from the spec: a freshly created instance of the binary task
(`instance.h` is not among the sources): weight `1.0`, no feature, group `0`. -/
def binary_instance.ctor : binary_instance α :=
  { label := false, weight := 1, features := [], group := 0 }

/-- Modelled from the spec: a freshly created instance of the multi-class
task: weight `1.0`, no attribute, group `0`. -/
def multi_instance.ctor : multi_instance α :=
  { label := 0, weight := 1, attributes := [], group := 0 }

/-- The loop "Set featuress for the instance" of `read_line`, which is the
same in both tasks: the pairs appended and the quark afterwards. -/
def read_line_features (atof : String → α) (opt : train_option α) :
    List String → List (Nat × α) × quark → List (Nat × α) × quark
  | [], st => st
  | tok :: rest, st =>
      if tok ≠ "" then
        let nv := get_name_value_sep atof tok opt.value_separator
        if opt.filter_string = "" ∨ opt.filter nv.1 = true then
          read_line_features atof opt rest
            (st.1 ++ [((st.2.call nv.1).2, nv.2)], (st.2.call nv.1).1)
        else read_line_features atof opt rest st
      else read_line_features atof opt rest st

/-- The step "Include a bias feature if necessary" of `read_line`. -/
def read_line_bias (opt : train_option α) (st : List (Nat × α) × quark) :
    List (Nat × α) × quark :=
  if opt.bias ≠ 0 then
    (st.1 ++ [((st.2.call "__BIAS__").2, opt.bias)], (st.2.call "__BIAS__").1)
  else st

/-- The function `read_line(line, instance, features, opt, lines)` of
`train/binary.cpp`: the exception, or the instance and the quark afterwards.
Every `throw` precedes the first change of the instance and of the quark. -/
def binary.read_line (tokenize : String → Char → List String) (atof : String → α)
    (line : String) (inst : binary_instance α) (features : quark) (opt : train_option α)
    (lines : Int) : Except invalid_data (binary_instance α × quark) :=
  match tokenize line opt.token_separator with
  | [] =>
      Except.error { msg := "no field found in the line", line := some line, lines := some lines }
  | tok :: rest =>
      if tok = "" then
        Except.error { msg := "an empty label found", line := some line, lines := some lines }
      else
        let nv := get_name_value_sep atof tok opt.value_separator
        if nv.1 = "+1" ∨ nv.1 = "1" then
          let st := read_line_bias opt (read_line_features atof opt rest (inst.features, features))
          Except.ok ({ inst with label := true, weight := nv.2, features := st.1 }, st.2)
        else if nv.1 = "-1" then
          let st := read_line_bias opt (read_line_features atof opt rest (inst.features, features))
          Except.ok ({ inst with label := false, weight := nv.2, features := st.1 }, st.2)
        else
          Except.error
            { msg := "a class label must be either \x27+1\x27, \x271\x27, or \x27-1\x27",
              line := some line, lines := some lines }

/-- The function `read_line(line, instance, attributes, labels, opt, lines)` of
`train/multi.cpp`: the exception, or the instance and the two quarks
(`attributes`, `labels`) afterwards. -/
def multi.read_line (tokenize : String → Char → List String) (atof : String → α)
    (line : String) (inst : multi_instance α) (quarks : quark × quark)
    (opt : train_option α) (lines : Int) :
    Except invalid_data (multi_instance α × (quark × quark)) :=
  match tokenize line opt.token_separator with
  | [] =>
      Except.error { msg := "no field found in the line", line := some line, lines := some lines }
  | tok :: rest =>
      if tok = "" then
        Except.error { msg := "an empty label found", line := some line, lines := some lines }
      else
        let nv := get_name_value_sep atof tok opt.value_separator
        let st := read_line_bias opt
          (read_line_features atof opt rest (inst.attributes, quarks.1))
        Except.ok
          ({ inst with label := (quarks.2.call nv.1).2, weight := nv.2, attributes := st.1 },
           (st.2, (quarks.2.call nv.1).1))

/-- The lines that the successive calls `std::getline(is, line)` deliver before
`is.eof()` holds: a call that finds a newline delivers the characters before it;
the call that reaches the end of the input sets `eof`, whatever it has read
(`cur`), and the loop of `read_stream` is left. -/
def getline_lines : List Char → List Char → List String
  | [], _ => []
  | c :: cs, cur =>
      if c = '\n' then String.mk cur :: getline_lines cs []
      else getline_lines cs (cur ++ [c])

/-- The loop `for (;;)` of `read_stream`, which is the same in both tasks, over
the lines that `getline` delivers; `lines` is the counter, the state is the
instances and the quarks.  `new_element()` appends a fresh instance, whose
group is set, and `read_line` fills it in place; when `read_line` throws, the
appended instance stays as it is. -/
def read_stream_loop {ι σ : Type}
    (read_line : String → ι → σ → Int → Except invalid_data (ι × σ)) (fresh : ι) :
    List String → Int → List ι × σ → (List ι × σ) × Option invalid_data
  | [], _, data => (data, none)
  | line :: rest, lines, data =>
      if line = "" then read_stream_loop read_line fresh rest (lines + 1) data
      else if line.toList.take 1 = ['#'] then
        read_stream_loop read_line fresh rest (lines + 1) data
      else
        match read_line line fresh data.2 (lines + 1) with
        | Except.error e => ((data.1 ++ [fresh], data.2), some e)
        | Except.ok r =>
            read_stream_loop read_line fresh rest (lines + 1) (data.1 ++ [r.1], r.2)

/-- The function `read_stream(is, data, opt, group)` of `train/binary.cpp`:
the data afterwards and the exception thrown, if any. -/
def binary.read_stream (tokenize : String → Char → List String) (atof : String → α)
    (is : String) (data : binary_data α) (opt : train_option α) (group : Int) :
    binary_data α × Option invalid_data :=
  if opt.bias ≠ 0 then
    if ((data.attributes.call "__BIAS__").2 : Int) ≠ 0 then
      ({ data with attributes := (data.attributes.call "__BIAS__").1 },
       some { msg := "A bias attribute could not obtain #0", line := none, lines := none })
    else
      let r := read_stream_loop
        (fun line inst q lines => binary.read_line tokenize atof line inst q opt lines)
        { (binary_instance.ctor : binary_instance α) with group := group }
        (getline_lines is.toList []) 0
        (data.instances, (data.attributes.call "__BIAS__").1)
      ({ instances := r.1.1, attributes := r.1.2,
         user_feature_start := ((data.attributes.call "__BIAS__").2 : Int) + 1 }, r.2)
  else
    let r := read_stream_loop
      (fun line inst q lines => binary.read_line tokenize atof line inst q opt lines)
      { (binary_instance.ctor : binary_instance α) with group := group }
      (getline_lines is.toList []) 0 (data.instances, data.attributes)
    ({ data with instances := r.1.1, attributes := r.1.2 }, r.2)

/-- The function `read_stream(is, data, opt, group)` of `train/multi.cpp`: the
data afterwards and the exception thrown, if any. -/
def multi.read_stream {γ : Type} (tokenize : String → Char → List String)
    (atof : String → α) (is : String) (data : multi_data α γ) (opt : train_option α)
    (group : Int) : multi_data α γ × Option invalid_data :=
  if opt.bias ≠ 0 then
    if ((data.attributes.call "__BIAS__").2 : Int) ≠ 0 then
      ({ data with attributes := (data.attributes.call "__BIAS__").1 },
       some { msg := "A bias attribute could not obtain #0", line := none, lines := none })
    else
      let r := read_stream_loop
        (fun line inst q lines => multi.read_line tokenize atof line inst q opt lines)
        { (multi_instance.ctor : multi_instance α) with group := group }
        (getline_lines is.toList []) 0
        (data.instances, ((data.attributes.call "__BIAS__").1, data.labels))
      ({ data with instances := r.1.1, attributes := r.1.2.1, labels := r.1.2.2 }, r.2)
  else
    let r := read_stream_loop
      (fun line inst q lines => multi.read_line tokenize atof line inst q opt lines)
      { (multi_instance.ctor : multi_instance α) with group := group }
      (getline_lines is.toList []) 0 (data.instances, (data.attributes, data.labels))
    ({ data with instances := r.1.1, attributes := r.1.2.1, labels := r.1.2.2 }, r.2)

/-- Modelled from the spec: `data.num_labels()`, the number of distinct labels
of the data set. -/
def multi_data.num_labels {γ : Type} (data : multi_data α γ) : Nat :=
  data.labels.size

/-- Member `append_positive_label(l)` of `multi_data_base` (`data.h`). -/
def multi_data.append_positive_label {γ : Type} (data : multi_data α γ) (l : Nat) :
    multi_data α γ :=
  { data with positive_labels := data.positive_labels ++ [l] }

/-- The function `output_model(data, model, opt)` of `train/binary.cpp`: the
header line and, for each following line, the weight and the attribute name
that are written. -/
def binary.output_model (data : binary_data α) (model : Nat → α) (opt : train_option α) :
    String × List (α × String) :=
  ("@classias\tlinear\tbinary",
   (List.range data.attributes.size).foldl
     (fun os i =>
       if model i ≠ 0 then
         if data.attributes.to_item i = "__BIAS__" then
           os ++ [(model i * opt.bias, data.attributes.to_item i)]
         else os ++ [(model i, data.attributes.to_item i)]
       else os)
     [])

/-- The loop "Set positive labels" of `finalize_data`. -/
def finalize_data_positive {γ : Type} (opt : train_option α) (data : multi_data α γ) :
    multi_data α γ :=
  (List.range data.num_labels).foldl
    (fun d l =>
      if ¬ (d.labels.to_item l ∈ opt.negative_labels) then d.append_positive_label l else d)
    data

/-- The function `finalize_data(data, opt)` of `train/multi.cpp`: the data
afterwards and the exception thrown, if any.  The members
`generate_bias_features(aid)` and `generate_features()` of the data set are
not among the sources: they are parameters that yield the feature generator
afterwards. -/
def multi.finalize_data {γ : Type} (generate_bias_features : multi_data α γ → Int → γ)
    (generate_features : multi_data α γ → γ) (data : multi_data α γ)
    (opt : train_option α) : multi_data α γ × Option invalid_data :=
  if opt.bias ≠ 0 then
    if ((data.attributes.call "__BIAS__").2 : Int) ≠ 0 then
      ({ data with attributes := (data.attributes.call "__BIAS__").1 },
       some { msg := "A bias attribute could not obtain #0", line := none, lines := none })
    else
      let d1 : multi_data α γ := { data with attributes := (data.attributes.call "__BIAS__").1 }
      let d2 : multi_data α γ :=
        { d1 with feature_generator :=
            generate_bias_features d1 ((data.attributes.call "__BIAS__").2 : Int) }
      let d3 : multi_data α γ := { d2 with feature_generator := generate_features d2 }
      (finalize_data_positive opt d3, none)
  else
    let d3 : multi_data α γ := { data with feature_generator := generate_features data }
    (finalize_data_positive opt d3, none)

/-- The loop over the files of `read_data`, from file index `i` on: a file that
cannot be opened is passed over; an exception of `read_stream` ends the loop. -/
def read_data_loop {δ : Type} (open_file : String → Option String)
    (read_stream : String → δ → Int → δ × Option invalid_data) :
    Nat → List String → δ → δ × Option invalid_data
  | _, [], data => (data, none)
  | i, file :: rest, data =>
      match open_file file with
      | none => read_data_loop open_file read_stream (i + 1) rest data
      | some ifs =>
          match read_stream ifs data (i : Int) with
          | (d, some e) => (d, some e)
          | (d, none) => read_data_loop open_file read_stream (i + 1) rest d

/-- The function `read_data(data, opt)` of `util.h`: the data afterwards and
the exception thrown, if any.  The file system (`open_file`: the content of a
file that can be opened), the standard input `cin` and the `read_stream` of
the task are parameters. -/
def read_data {δ : Type} (open_file : String → Option String) (cin : String)
    (read_stream : String → δ → Int → δ × Option invalid_data) (data : δ) (opt : option) :
    δ × Option invalid_data :=
  if opt.files = [] then read_stream cin data 0
  else read_data_loop open_file read_stream 0 opt.files data

/-- The function `read_dataset(data, opt)` of `util.h`: the data afterwards and
the exception thrown or the value returned; the `split_data` of the data type
is a parameter. -/
def read_dataset {δ : Type} (open_file : String → Option String) (cin : String)
    (read_stream : String → δ → Int → δ × Option invalid_data)
    (split_data : δ → option → δ × Int) (data : δ) (opt : option) :
    δ × Except invalid_data Int :=
  match read_data open_file cin read_stream data opt with
  | (d, some e) => (d, Except.error e)
  | (d, none) =>
      if 0 < opt.split then ((split_data d opt).1, Except.ok opt.split)
      else (d, Except.ok (opt.files.length : Int))

/-- The handler of `-a` / `--algorithm` in the option map of `optionparser`
(`main.cpp`): the exception, or the options afterwards. -/
def optionparser.on_option_algorithm (opt : option) (arg : String) :
    Except invalid_value option :=
  if arg = "MaxEnt" then Except.ok { opt with algorithm := arg }
  else Except.error { msg := "unknown training algorithm specified: " ++ arg }

/-- The function `usage(os, argv0)` of `main.cpp`: the lines written. -/
def usage (argv0 : String) : List String :=
  ["USAGE: " ++ argv0 ++ " [OPTIONS] [DATA1] [DATA2] ...",
   "  DATA    file(s) corresponding to a data set for training or tagging;",
   "          if multiple N files are specified, this tool assumes a data set to",
   "          be split into N groups and assigns a group number (1...N) to the",
   "          instances in each file; if no file is specified, the tool reads a",
   "          data set from STDIN",
   "",
   "COMMANDS:",
   "  -l, --learn           train a model from the training set",
   "  -t, --tag             tag the data with the model (specified by -m option)",
   "  -h, --help            show the help message and exit",
   "",
   "COMMON OPTIONS:",
   "  -f, --task=TYPE       specify a task type (DEFAULT=\x27multiclass\x27):",
   "      b, binary             an instance is represented by an attribute vector,",
   "                            which is identical to a feature vector;",
   "                            an instance label is boolean, 0 or 1;",
   "      m, multiclass         an instance is represented by an attribute vector;",
   "                            an instance label is chosen from all of the labels",
   "                            found in the training set; features are represented",
   "                            by Cartesian products of attributes and labels",
   "      s, selection          this is identical to \x27multiclass\x27 except that",
   "                            an instance label is chosen from candidate labels",
   "                            specified for each instance",
   "      r, ranking            an instance consists of candidates each of which",
   "                            has an attribute vector; features are identical",
   "                            to attributes",
   "  -m, --model=FILE      store/load a model to/from FILE (DEFAULT=\x27\x27)",
   "  -n, --negative=LABELS assume LABELS as negative labels (DEFAULT=\x27-1 O\x27)",
   "",
   "TRAINING OPTIONS:",
   "  -a, --algorithm=NAME  specify a training algorithm (DEFAULT=\x27maxent\x27)",
   "      maxent                maximum entropy modeling (for MSR)",
   "      logress               logistic regression (for B)",
   "  -p, --set=NAME=VALUE  set the algorithm-specific parameter NAME to VALUE",
   "  -g, --split=N         split the instances into N groups; this option is",
   "                        useful for holdout evaluation and cross validation",
   "  -e, --holdout=M       use the M-th data for holdout evaluation and the rest",
   "                        for training",
   "  -x, --cross-validate  repeat holdout evaluations for M in \x7b1, ..., N\x7d",
   "                        (N-fold cross validation)",
   ""]

end frontend

/-! ## The trainer: holdout evaluation, progress report, bounds of the
classifier vectors (`include/classias/maxent.h`) -/

/-- Modelled from the spec: the confusion matrix (`confusion_matrix` is not
among the sources) is a `labels × labels` integer matrix, whose cells are
addressed by a pair of labels. -/
structure confusion_matrix where
  m_n : Nat
  m_matrix : Nat → Nat → Int

/-- Modelled from the spec: the constructor `confusion_matrix(N)`, every cell
being `0`. -/
def confusion_matrix.ctor (N : Nat) : confusion_matrix :=
  { m_n := N, m_matrix := fun _ _ => 0 }

/-- Modelled from the spec: the statement `matrix(x, y)++`, which increments
the cell addressed as `(x, y)`. -/
def confusion_matrix.increment (m : confusion_matrix) (x y : Nat) : confusion_matrix :=
  { m with
    m_matrix :=
      (Function.update m.m_matrix x (Function.update (m.m_matrix x) y (m.m_matrix x y + 1))) }

section holdout

variable {α : Type} [LinearOrderedField α]

/-- The body of the loop over instances of `holdout_evaluation`; the state is
the classifier, `acc` and `matrix`.  The loop over the candidates is, statement
for statement, the one of `lbfgs_evaluate` (`idx_true` for `itrue`).  The `int`
indices handed to `label` are read as naturals. -/
def holdout_evaluation_instance (exp : α → α) (forward : Nat → Nat → Int) (x : Nat → α)
    (m_holdout : Int) (st : linear_multi_classifier α × accuracy × confusion_matrix)
    (iti : Instance α) : linear_multi_classifier α × accuracy × confusion_matrix :=
  if iti.group ≠ m_holdout then st
  else
    let sc := lbfgs_evaluate_scores forward x 0 iti.candidates (st.1, -1)
    let cls := (sc.1.finalize exp false).2
    let idx_max := cls.argmax
    (cls, st.2.1.set (decide (sc.2 = idx_max)),
      if sc.2 ≠ -1 then
        st.2.2.increment (cls.label sc.2.toNat) (cls.label idx_max.toNat)
      else st.2.2)

/-- Member `holdout_evaluation()` on the data set that `m_data` points to: the
accuracy counter and the matrix when the loop is left (the report is left
out).  The local classifier is built by the constructor and never resized: its
vectors are empty; `a0` is what its uninitialised `m_argmax` holds;
`num_labels` is `data.labels.size()`. -/
def trainer_maxent.holdout_evaluation (exp : α → α) (a0 : Int) (t : trainer_maxent α)
    (data : data_type α) (num_labels : Nat) : accuracy × confusion_matrix :=
  (data.instances.foldl
    (holdout_evaluation_instance exp data.forward t.m_weights t.m_holdout)
    ((linear_multi_classifier.ctor a0 : linear_multi_classifier α), accuracy.ctor,
      confusion_matrix.ctor num_labels)).2

/-- Member `lbfgs_progress(x, g, fx, xnorm, gnorm, step, n, k, ls)`: the value
returned, the number of active features that is reported, and the result of
the holdout evaluation when one is run (the other report lines are left
out). -/
def trainer_maxent.lbfgs_progress (exp : α → α) (a0 : Int) (t : trainer_maxent α)
    (data : data_type α) (num_labels : Nat) (x : Nat → α) (n : Nat) :
    Int × Nat × Option (accuracy × confusion_matrix) :=
  (0, ((List.range n).filter (fun i => decide (x i ≠ 0))).length,
    if t.m_holdout ≠ -1 then some (t.holdout_evaluation exp a0 data num_labels) else none)

/-- Member `accumulate(i, first, last, label)` with the bounds of `operator[]`
made explicit: no result when slot `i` is outside `m_scores` or `m_labels`. -/
def linear_multi_classifier.accumulate_checked (forward : Nat → Nat → Int)
    (m_model : Nat → α) (c : linear_multi_classifier α) (i : Nat) (attrs : List (Nat × α))
    (label : Nat) : Option (linear_multi_classifier α) :=
  if i < c.m_scores.length ∧ i < c.m_labels.length then
    some (c.accumulate forward m_model i attrs label)
  else none

/-- Member `prob(i)` with the bounds of `operator[]` made explicit. -/
def linear_multi_classifier.prob_checked (c : linear_multi_classifier α) (i : Int) :
    Option α :=
  if 0 ≤ i ∧ i.toNat < c.m_probs.length then some (c.prob i) else none

/-- Member `label(i)` with the bounds of `operator[]` made explicit. -/
def linear_multi_classifier.label_checked (c : linear_multi_classifier α) (i : Int) :
    Option Nat :=
  if 0 ≤ i ∧ i.toNat < c.m_labels.length then some (c.label i.toNat) else none

/-- The loop "Compute score[i] for each candidate #i" with checked accesses. -/
def lbfgs_evaluate_scores_checked (forward : Nat → Nat → Int) (x : Nat → α) :
    Nat → List (Candidate α) → linear_multi_classifier α × Int →
      Option (linear_multi_classifier α × Int)
  | _, [], st => some st
  | i, itc :: rest, st =>
      match st.1.accumulate_checked forward x i itc.attrs itc.label with
      | none => none
      | some c =>
          lbfgs_evaluate_scores_checked forward x (i + 1) rest
            (c, if itc.truth then (i : Int) else st.2)

/-- The body of the loop over instances of `lbfgs_evaluate` with checked
accesses: no result when a candidate index handed to `accumulate` or to `prob`
is outside the vectors of the classifier. -/
def lbfgs_evaluate_instance_checked (exp log : α → α) (forward : Nat → Nat → Int)
    (x : Nat → α) (m_holdout : Int) (st : linear_multi_classifier α × (Nat → α) × α)
    (iti : Instance α) : Option (linear_multi_classifier α × (Nat → α) × α) :=
  if iti.group = m_holdout then some st
  else
    match lbfgs_evaluate_scores_checked forward x 0 iti.candidates (st.1, -1) with
    | none => none
    | some sc =>
        let cls := (sc.1.finalize exp true).2
        let mexps := lbfgs_evaluate_mexps forward 0 iti.candidates st.2.1
        match cls.prob_checked sc.2 with
        | none => none
        | some p => some (cls, mexps, st.2.2 - log p)

/-- The body of the loop over instances of `holdout_evaluation` with checked
accesses. -/
def holdout_evaluation_instance_checked (exp : α → α) (forward : Nat → Nat → Int)
    (x : Nat → α) (m_holdout : Int)
    (st : linear_multi_classifier α × accuracy × confusion_matrix) (iti : Instance α) :
    Option (linear_multi_classifier α × accuracy × confusion_matrix) :=
  if iti.group ≠ m_holdout then some st
  else
    match lbfgs_evaluate_scores_checked forward x 0 iti.candidates (st.1, -1) with
    | none => none
    | some sc =>
        let cls := (sc.1.finalize exp false).2
        let idx_max := cls.argmax
        if sc.2 ≠ -1 then
          match cls.label_checked sc.2, cls.label_checked idx_max with
          | some lt, some lm =>
              some (cls, st.2.1.set (decide (sc.2 = idx_max)), st.2.2.increment lt lm)
          | _, _ => none
        else some (cls, st.2.1.set (decide (sc.2 = idx_max)), st.2.2)

/-- Member `holdout_evaluation()` with checked accesses. -/
def trainer_maxent.holdout_evaluation_checked (exp : α → α) (a0 : Int)
    (t : trainer_maxent α) (data : data_type α) (num_labels : Nat) :
    Option (accuracy × confusion_matrix) :=
  (data.instances.foldl
    (fun st iti => st.bind (fun s =>
      holdout_evaluation_instance_checked exp data.forward t.m_weights t.m_holdout s iti))
    (some ((linear_multi_classifier.ctor a0 : linear_multi_classifier α), accuracy.ctor,
      confusion_matrix.ctor num_labels))).map (fun s => s.2)

end holdout

/-! ## Concrete inputs -/

section examples

variable {α : Type} [LinearOrderedField α]

/-- A classifier of size 3 whose slots hold the scores `2, 1, 0`. -/
def example_scores : linear_multi_classifier α :=
  { m_scores := [2, 1, 0], m_probs := [0, 0, 0], m_labels := [0, 1, 2],
    m_argmax := 0, m_norm := 0 }

/-- A classifier of size 1 whose only slot holds the score `1`. -/
def example_single : linear_multi_classifier α :=
  { m_scores := [1], m_probs := [0], m_labels := [0], m_argmax := 0, m_norm := 0 }

/-- A feature generator over two attributes: `(a, l) ↦ 2 l + a`; any other
attribute has no feature. -/
def example_forward (a l : Nat) : Int :=
  if a < 2 then 2 * (l : Int) + (a : Int) else -1

/-- The weight vector `1, 2, 3, 4`. -/
def example_weights : Nat → α :=
  fun k => [1, 2, 3, 4].getD k 0

/-- A sparse attribute vector with a repeated attribute and an attribute
without feature. -/
def example_attrs : List (Nat × α) :=
  [(0, 1), (5, 3), (1, 1), (0, 2)]

/-- A data set of one instance with two candidates, the first one true; each
candidate has the single attribute `0` with value `1`, and the feature of
`(attribute, label)` is the label. -/
def example_data_one : data_type α :=
  { instances :=
      [{ candidates := [{ attrs := [(0, 1)], label := 0, truth := true },
                        { attrs := [(0, 1)], label := 1, truth := false }],
         group := 0 }]
    forward := fun _ l => (l : Int)
    num_features := 2
    user_feature_start := 0 }

/-- The data set `example_data_one` followed by an instance that has a single
candidate, which is true. -/
def example_data_two : data_type α :=
  { instances :=
      [{ candidates := [{ attrs := [(0, 1)], label := 0, truth := true },
                        { attrs := [(0, 1)], label := 1, truth := false }],
         group := 0 },
       { candidates := [{ attrs := [(0, 1)], label := 0, truth := true }],
         group := 0 }]
    forward := fun _ l => (l : Int)
    num_features := 2
    user_feature_start := 0 }

/-- A trainer as `train` leaves it before the first call of the solver, for a
data set of two features whose largest instance has two candidates: no holdout
group, no regularization, observation expectations `oexps`. -/
def example_trainer (oexps : Nat → α) : trainer_maxent α :=
  { m_oexps := oexps
    m_mexps := fun _ => 0
    m_weights := fun _ => 0
    m_num_labels := 2
    m_holdout := -1
    m_regularization := ""
    m_regularization_sigma := 5
    m_regularization_start := 0
    m_lbfgs_num_memories := 6
    m_lbfgs_epsilon := 1 / 100000
    m_lbfgs_stop := 10
    m_lbfgs_delta := 1 / 100000
    m_lbfgs_maxiter := 2147483647
    m_lbfgs_linesearch := "MoreThuente"
    m_lbfgs_max_linesearch := 20
    m_c1 := 0
    m_c2 := 0 }

/-- The data set `example_data_two` followed by an instance of group `1`. -/
def example_data_holdout : data_type α :=
  { instances :=
      [{ candidates := [{ attrs := [(0, 1)], label := 0, truth := true },
                        { attrs := [(0, 1)], label := 1, truth := false }],
         group := 0 },
       { candidates := [{ attrs := [(0, 1)], label := 0, truth := true }],
         group := 0 },
       { candidates := [{ attrs := [(0, 3)], label := 0, truth := false },
                        { attrs := [(0, 2)], label := 1, truth := true }],
         group := 1 }]
    forward := fun _ l => (l : Int)
    num_features := 2
    user_feature_start := 0 }

/-- A data set of one instance of group `0` with two candidates, none of which
is marked true. -/
def example_data_untrue : data_type α :=
  { instances :=
      [{ candidates := [{ attrs := [(0, 1)], label := 0, truth := false },
                        { attrs := [(0, 1)], label := 1, truth := false }],
         group := 0 }]
    forward := fun _ l => (l : Int)
    num_features := 2
    user_feature_start := 0 }

/-- A `precall` over three labels after the calls `set(0, 0)`, `set(0, 1)`,
`set(1, 1)`, `set(1, 0)`: label `2` was neither predicted nor a reference. -/
def example_precall : precall :=
  ((((precall.ctor 3).set 0 0).set 0 1).set 1 1).set 1 0

/-- The fields of a line for a separator: the segments between separators. -/
def example_split (sep : Char) : List Char → List Char → List String
  | [], cur => [String.mk cur]
  | c :: cs, cur =>
      if c = sep then String.mk cur :: example_split sep cs []
      else example_split sep cs (cur ++ [c])

/-- A tokenizer: the fields of the line, none for the empty line. -/
def example_tokenize (line : String) (sep : Char) : List String :=
  if line = "" then [] else example_split sep line.toList []

/-- The options of the trainers with tab and colon as separators, no filter,
the negative labels `-1` and `O`, and the bias `b`. -/
def example_option (b : α) : train_option α :=
  { token_separator := '\t', value_separator := ':', filter_string := "",
    filter := fun _ => true, bias := b, negative_labels := ["-1", "O"], model := "" }

/-- An empty data set of the binary task. -/
def example_binary_data : binary_data α :=
  { instances := [], attributes := { items := [] }, user_feature_start := 0 }

/-- An empty data set of the multi-class task, without feature generator. -/
def example_multi_data : multi_data α Unit :=
  { instances := [], attributes := { items := [] }, labels := { items := [] },
    positive_labels := [], feature_generator := () }

/-- The data set `example_data_two` with its two instances in the other
order. -/
def example_data_two_swapped : data_type α :=
  { instances :=
      [{ candidates := [{ attrs := [(0, 1)], label := 0, truth := true }],
         group := 0 },
       { candidates := [{ attrs := [(0, 1)], label := 0, truth := true },
                        { attrs := [(0, 1)], label := 1, truth := false }],
         group := 0 }]
    forward := fun _ l => (l : Int)
    num_features := 2
    user_feature_start := 0 }

/-- The weight vector `0, 1`. -/
def example_weights_second : Nat → α :=
  fun k => [0, 1].getD k 0

/-- The holdout instance of `example_data_holdout`: group `1`, two candidates,
the second one true. -/
def example_holdout_instance : Instance α :=
  { candidates := [{ attrs := [(0, 3)], label := 0, truth := false },
                   { attrs := [(0, 2)], label := 1, truth := true }],
    group := 1 }

/-- The first instance of `example_data_holdout`: group `0`, two candidates,
the first one true. -/
def example_instance_pair : Instance α :=
  { candidates := [{ attrs := [(0, 1)], label := 0, truth := true },
                   { attrs := [(0, 1)], label := 1, truth := false }],
    group := 0 }

/-- The second instance of `example_data_holdout`: group `0`, a single
candidate, which is true. -/
def example_instance_single : Instance α :=
  { candidates := [{ attrs := [(0, 1)], label := 0, truth := true }],
    group := 0 }

end examples

/-! ## Lemmas on the loops of `finalize` -/

section finalize_lemmas

variable {α : Type} [LinearOrderedField α]

theorem ctor_eq (a0 : Int) :
    (linear_multi_classifier.ctor a0 : linear_multi_classifier α) =
      { m_scores := [], m_probs := [], m_labels := [], m_argmax := a0, m_norm := 0 } := by
  simp [linear_multi_classifier.ctor, linear_multi_classifier.clear,
    linear_multi_classifier.size]

theorem list_eq_of_getD {l₁ l₂ : List α} (hlen : l₁.length = l₂.length)
    (h : ∀ i, i < l₁.length → l₁.getD i 0 = l₂.getD i 0) : l₁ = l₂ := by
  apply List.ext_getElem hlen
  intro i h1 h2
  have := h i h1
  simpa [List.getD_eq_getElem?_getD, List.getElem?_eq_getElem h1, List.getElem?_eq_getElem h2] using this

theorem getD_set_eq (l : List α) (i j : Nat) (a : α) (hj : j < l.length) :
    (l.set i a).getD j 0 = if i = j then a else l.getD j 0 := by
  simp only [List.getD_eq_getElem?_getD, List.getElem?_set]
  split_ifs with h1 <;> simp_all

theorem foldl_set_range (f : Nat → α → α) (n : Nat) (p : List α) :
    ((List.range n).foldl (fun q i => q.set i (f i (q.getD i 0))) p).length = p.length ∧
    ∀ i, i < p.length →
      ((List.range n).foldl (fun q i => q.set i (f i (q.getD i 0))) p).getD i 0
        = if i < n then f i (p.getD i 0) else p.getD i 0 := by
  induction n with
  | zero => simp
  | succ n ih =>
    obtain ⟨ihl, ihg⟩ := ih
    rw [List.range_succ, List.foldl_append]
    simp only [List.foldl_cons, List.foldl_nil, List.length_set]
    refine ⟨ihl, ?_⟩
    intro i hi
    rw [getD_set_eq _ _ _ _ (by rw [ihl]; exact hi)]
    by_cases h : n = i
    · subst h
      rw [if_pos rfl, ihg n hi, if_neg (lt_irrefl _), if_pos (Nat.lt_succ_self _)]
    · rw [if_neg h, ihg i hi]
      by_cases h2 : i < n
      · simp [h2, Nat.lt_succ_of_lt h2]
      · have : ¬ i < n + 1 := by omega
        simp [h2, this]

theorem finalize_exps_eq (exp : α → α) (scores probs : List α)
    (h : probs.length = scores.length) :
    finalize_exps exp scores probs = scores.map exp := by
  unfold finalize_exps
  obtain ⟨hl, hg⟩ := foldl_set_range (fun i _ => exp (scores.getD i 0)) scores.length probs
  apply list_eq_of_getD
  · rw [hl, h, List.length_map]
  · intro i hi
    rw [hl] at hi
    rw [hg i hi, if_pos (h ▸ hi)]
    simp [List.getD_eq_getElem?_getD, List.getElem?_map]
    rcases hs : scores[i]? with _ | a <;> simp
    rw [List.getElem?_eq_none_iff] at hs
    omega

theorem finalize_normalize_eq (probs : List α) (nrm : α) :
    finalize_normalize probs.length probs nrm = probs.map (fun a => a / nrm) := by
  unfold finalize_normalize
  obtain ⟨hl, hg⟩ := foldl_set_range (fun _ a => a / nrm) probs.length probs
  apply list_eq_of_getD
  · rw [hl, List.length_map]
  · intro i hi
    rw [hl] at hi
    rw [hg i hi, if_pos hi]
    simp [List.getD_eq_getElem?_getD, List.getElem?_map]
    rcases hs : probs[i]? with _ | a <;> simp

theorem sum_range_getD (l : List α) :
    ((List.range l.length).map (fun i => l.getD i 0)).sum = l.sum := by
  induction l with
  | nil => simp
  | cons a t ih =>
    rw [List.length_cons, List.range_succ_eq_map, List.map_cons, List.sum_cons, List.map_map]
    simp only [List.sum_cons]
    congr 1

theorem finalize_norm_fold (probs : List α) (am n : Nat) (s0 : α) :
    (List.range n).foldl (fun nrm i => if i ≠ am then nrm + probs.getD i 0 else nrm) s0
      = s0 + ((List.range n).map (fun i => if i ≠ am then probs.getD i 0 else 0)).sum := by
  induction n generalizing s0 with
  | zero => simp
  | succ n ih =>
    rw [List.range_succ, List.foldl_append, ih, List.map_append, List.sum_append]
    simp only [List.foldl_cons, List.foldl_nil, List.map_cons, List.map_nil, List.sum_cons,
      List.sum_nil, add_zero]
    split_ifs <;> ring

theorem sum_range_skip (f : Nat → α) (am n : Nat) (h : am < n) :
    f am + ((List.range n).map (fun i => if i ≠ am then f i else 0)).sum
      = ((List.range n).map f).sum := by
  induction n with
  | zero => omega
  | succ n ih =>
    rw [List.range_succ, List.map_append, List.sum_append, List.map_append, List.sum_append]
    simp only [List.map_cons, List.map_nil, List.sum_cons, List.sum_nil, add_zero]
    by_cases hn : am = n
    · subst hn
      have : ((List.range am).map (fun i => if i ≠ am then f i else 0)) = (List.range am).map f := by
        apply List.map_congr_left
        intro i hi
        rw [List.mem_range] at hi
        rw [if_pos (by omega)]
      rw [this]
      simp
      ring
    · have h2 : am < n := by omega
      rw [if_pos (Ne.symm hn), ← ih h2]
      ring

theorem finalize_norm_eq (probs : List α) (am : Nat) (h : am < probs.length) :
    finalize_norm probs.length probs am = probs.sum := by
  unfold finalize_norm
  rw [finalize_norm_fold, sum_range_skip (fun i => probs.getD i 0) am _ h, sum_range_getD]

/-- Invariant of the argmax loop of `finalize` after `n` iterations. -/
theorem finalize_argmax_inv (scores : List α) (n : Nat) :
    let st := (List.range n).foldl
      (fun (st : Nat × α) i => if st.2 < scores.getD i 0 then (i, scores.getD i 0) else st)
      (0, scores.getD 0 0)
    st.2 = scores.getD st.1 0 ∧ (st.1 = 0 ∨ st.1 < n) ∧
      (∀ i, i < n → scores.getD i 0 ≤ st.2) ∧ (∀ j, j < st.1 → scores.getD j 0 < st.2) := by
  induction n with
  | zero => simp
  | succ n ih =>
    simp only [List.range_succ, List.foldl_append, List.foldl_cons, List.foldl_nil]
    simp only at ih
    generalize (List.range n).foldl
      (fun (st : Nat × α) i => if st.2 < scores.getD i 0 then (i, scores.getD i 0) else st)
      (0, scores.getD 0 0) = st at ih ⊢
    obtain ⟨h1, h2, h3, h4⟩ := ih
    by_cases hlt : st.2 < scores.getD n 0
    · rw [if_pos hlt]
      refine ⟨rfl, Or.inr (Nat.lt_succ_self _), ?_, ?_⟩
      · intro i hi
        rcases Nat.lt_succ_iff_lt_or_eq.mp hi with h | h
        · exact le_of_lt (lt_of_le_of_lt (h3 i h) hlt)
        · subst h; exact le_refl _
      · intro j hj
        exact lt_of_le_of_lt (h3 j hj) hlt
    · rw [if_neg hlt]
      refine ⟨h1, ?_, ?_, h4⟩
      · rcases h2 with h | h
        · exact Or.inl h
        · exact Or.inr (Nat.lt_succ_of_lt h)
      · intro i hi
        rcases Nat.lt_succ_iff_lt_or_eq.mp hi with h | h
        · exact h3 i h
        · subst h; exact not_lt.mp hlt

theorem finalize_argmax_spec (scores : List α) (hne : scores ≠ []) :
    (finalize_argmax scores).1 < scores.length ∧
    (∀ i, i < scores.length →
      scores.getD i 0 ≤ scores.getD (finalize_argmax scores).1 0) ∧
    (∀ j, j < (finalize_argmax scores).1 →
      scores.getD j 0 < scores.getD (finalize_argmax scores).1 0) := by
  have h := finalize_argmax_inv scores scores.length
  simp only at h
  unfold finalize_argmax
  obtain ⟨h1, h2, h3, h4⟩ := h
  have hpos : 0 < scores.length := List.length_pos.mpr hne
  refine ⟨?_, ?_, ?_⟩
  · rcases h2 with h | h
    · rw [h]; exact hpos
    · exact h
  · intro i hi
    rw [← h1]; exact h3 i hi
  · intro j hj
    rw [← h1]; exact h4 j hj

theorem finalize_true_eq (exp : α → α) (c : linear_multi_classifier α)
    (hwf : c.wf) (hne : c.m_scores ≠ []) :
    c.finalize exp true =
      (true, { c with
        m_argmax := ((finalize_argmax c.m_scores).1 : Int)
        m_norm := (c.m_scores.map exp).sum
        m_probs := (c.m_scores.map exp).map (fun a => a / (c.m_scores.map exp).sum) }) := by
  have hlen : c.m_scores.length ≠ 0 := by
    intro h; exact hne (List.length_eq_zero.mp h)
  have hexp := finalize_exps_eq exp c.m_scores c.m_probs hwf.1
  have ham : (finalize_argmax c.m_scores).1 < (c.m_scores.map exp).length := by
    rw [List.length_map]; exact (finalize_argmax_spec c.m_scores hne).1
  have hsz : c.size = (c.m_scores.map exp).length := by
    rw [List.length_map]; rfl
  unfold linear_multi_classifier.finalize
  rw [if_neg hlen]
  simp only [if_true, hexp]
  rw [hsz, finalize_norm_eq _ _ ham, finalize_normalize_eq]

theorem finalize_argmax_eq (exp : α → α) (c : linear_multi_classifier α) (prob : Bool)
    (hne : c.m_scores ≠ []) :
    (c.finalize exp prob).2.m_argmax = ((finalize_argmax c.m_scores).1 : Int) ∧
    (c.finalize exp prob).2.m_scores = c.m_scores := by
  have hlen : c.m_scores.length ≠ 0 := by
    intro h; exact hne (List.length_eq_zero.mp h)
  unfold linear_multi_classifier.finalize
  rw [if_neg hlen]
  cases prob <;> simp

theorem finalize_prob_apply (exp : α → α) (c : linear_multi_classifier α) (hwf : c.wf)
    (hne : c.m_scores ≠ []) (i : Nat) (hi : i < c.size) :
    (c.finalize exp true).2.prob (i : Int) =
      exp (c.score i) / (c.m_scores.map exp).sum := by
  rw [finalize_true_eq exp c hwf hne]
  have hi2 : i < c.m_scores.length := hi
  simp [linear_multi_classifier.prob, linear_multi_classifier.score,
    List.getD_eq_getElem?_getD, List.getElem?_eq_getElem hi2]

end finalize_lemmas

/-! ## The classifier: `finalize` -/

/-- C2: for a non-empty score vector, `finalize(true)` succeeds and sets
`prob[i] = exp(score[i]) / Σ_j exp(score[j])` for every slot `i`, over the
reals, the sum ranging over all slots of the classifier. -/
theorem finalize_prob_softmax (c : linear_multi_classifier ℝ) (hwf : c.wf)
    (hne : c.m_scores ≠ []) (i : Nat) (hi : i < c.size) :
    (c.finalize Real.exp true).1 = true ∧
    (c.finalize Real.exp true).2.prob (i : Int) =
      Real.exp (c.score i) / (c.m_scores.map Real.exp).sum := by
  refine ⟨?_, finalize_prob_apply Real.exp c hwf hne i hi⟩
  rw [finalize_true_eq Real.exp c hwf hne]

/-- The scores `2, 1, 0` and slot 1: the hypotheses hold and the slot gets its
softmax probability. -/
theorem finalize_prob_softmax_witness :
    (example_scores : linear_multi_classifier ℝ).wf ∧
    (example_scores : linear_multi_classifier ℝ).m_scores ≠ [] ∧
    1 < (example_scores : linear_multi_classifier ℝ).size ∧
    (((example_scores : linear_multi_classifier ℝ).finalize Real.exp true).1 = true ∧
     ((example_scores : linear_multi_classifier ℝ).finalize Real.exp true).2.prob ((1 : Nat) : Int) =
      Real.exp ((example_scores : linear_multi_classifier ℝ).score 1) /
        ((example_scores : linear_multi_classifier ℝ).m_scores.map Real.exp).sum) :=
  ⟨⟨rfl, rfl⟩, by simp [example_scores], by simp [example_scores, linear_multi_classifier.size],
    finalize_prob_softmax example_scores ⟨rfl, rfl⟩ (by simp [example_scores]) 1
      (by simp [example_scores, linear_multi_classifier.size])⟩

/-- C3: for a non-empty score vector, after `finalize(true)` every probability
is strictly positive and at most 1 and the probabilities sum to exactly 1 (over
the reals); for the scores `[2, 1, 0]` the argmax is 0. -/
theorem finalize_probs_distribution (c : linear_multi_classifier ℝ) (hwf : c.wf)
    (hne : c.m_scores ≠ []) :
    (∀ i : Nat, i < c.size →
      0 < (c.finalize Real.exp true).2.prob (i : Int) ∧
      (c.finalize Real.exp true).2.prob (i : Int) ≤ 1) ∧
    (c.finalize Real.exp true).2.m_probs.sum = 1 ∧
    (c.m_scores = [2, 1, 0] → (c.finalize Real.exp true).2.argmax = 0) := by
  have hne2 : c.m_scores.map Real.exp ≠ [] := by simpa using hne
  have hpos : 0 < (c.m_scores.map Real.exp).sum := by
    apply List.sum_pos _ _ hne2
    intro x hx
    obtain ⟨a, _, rfl⟩ := List.mem_map.mp hx
    exact Real.exp_pos a
  refine ⟨?_, ?_, ?_⟩
  · intro i hi
    rw [finalize_prob_apply Real.exp c hwf hne i hi]
    have hi2 : i < c.m_scores.length := hi
    refine ⟨div_pos (Real.exp_pos _) hpos, ?_⟩
    rw [div_le_one hpos]
    apply List.single_le_sum
    · intro x hx
      obtain ⟨a, _, rfl⟩ := List.mem_map.mp hx
      exact le_of_lt (Real.exp_pos a)
    · apply List.mem_map.mpr
      refine ⟨c.score i, ?_, rfl⟩
      simp [linear_multi_classifier.score, List.getD_eq_getElem?_getD,
        List.getElem?_eq_getElem hi2]
  · rw [finalize_true_eq Real.exp c hwf hne]
    simp only [div_eq_mul_inv, List.sum_map_mul_right, List.map_id_fun', id_eq]
    exact mul_inv_cancel₀ (ne_of_gt hpos)
  · intro hs
    have h := finalize_argmax_spec c.m_scores hne
    have ha := (finalize_argmax_eq Real.exp c true hne).1
    unfold linear_multi_classifier.argmax
    rw [ha]
    obtain ⟨h1, h2, _⟩ := h
    generalize (finalize_argmax c.m_scores).1 = a at h1 h2 ⊢
    rw [hs] at h1 h2
    have h0 := h2 0 (by simp)
    have h3 : a < 3 := h1
    interval_cases a
    · rfl
    · norm_num at h0
    · norm_num at h0

/-- The scores `2, 1, 0`: the hypotheses hold and the probabilities form a
distribution. -/
theorem finalize_probs_distribution_witness :
    (example_scores : linear_multi_classifier ℝ).wf ∧
    (example_scores : linear_multi_classifier ℝ).m_scores ≠ [] ∧
    ((∀ i : Nat, i < (example_scores : linear_multi_classifier ℝ).size →
      0 < ((example_scores : linear_multi_classifier ℝ).finalize Real.exp true).2.prob (i : Int) ∧
      ((example_scores : linear_multi_classifier ℝ).finalize Real.exp true).2.prob (i : Int) ≤ 1) ∧
     ((example_scores : linear_multi_classifier ℝ).finalize Real.exp true).2.m_probs.sum = 1 ∧
     ((example_scores : linear_multi_classifier ℝ).m_scores = [2, 1, 0] →
      ((example_scores : linear_multi_classifier ℝ).finalize Real.exp true).2.argmax = 0)) :=
  ⟨⟨rfl, rfl⟩, by simp [example_scores],
    finalize_probs_distribution example_scores ⟨rfl, rfl⟩ (by simp [example_scores])⟩

/-- C4 (as stated, refuted): on the single score `1` the first loop of
`finalize(true)` evaluates `exp 1`, which exceeds 1; `m_norm` is `exp 1`, which
is neither `Σ_j exp(score[j] - score[argmax]) = 1` nor at most the number of
candidates. -/
theorem finalize_norm_shifted_counterexample :
    finalize_exps Real.exp (example_single : linear_multi_classifier ℝ).m_scores
      (example_single : linear_multi_classifier ℝ).m_probs = [Real.exp 1] ∧
    1 < Real.exp 1 ∧
    ((example_single : linear_multi_classifier ℝ).finalize Real.exp true).2.m_norm = Real.exp 1 ∧
    ¬ (((example_single : linear_multi_classifier ℝ).finalize Real.exp true).2.m_norm =
        ((example_single : linear_multi_classifier ℝ).m_scores.map (fun s => Real.exp
          (s - (example_single : linear_multi_classifier ℝ).score
            ((example_single : linear_multi_classifier ℝ).finalize Real.exp true).2.argmax.toNat))).sum) ∧
    ¬ (((example_single : linear_multi_classifier ℝ).finalize Real.exp true).2.m_norm ≤
        ((example_single : linear_multi_classifier ℝ).size : ℝ)) := by
  have h1 : (1 : ℝ) < Real.exp 1 := Real.one_lt_exp_iff.mpr one_pos
  have hne : (example_single : linear_multi_classifier ℝ).m_scores ≠ [] := by
    simp [example_single]
  have hn : ((example_single : linear_multi_classifier ℝ).finalize Real.exp true).2.m_norm
      = Real.exp 1 := by
    rw [finalize_true_eq Real.exp _ ⟨rfl, rfl⟩ hne]
    simp [example_single]
  have ha : ((example_single : linear_multi_classifier ℝ).finalize Real.exp true).2.argmax = 0 := by
    unfold linear_multi_classifier.argmax
    rw [(finalize_argmax_eq Real.exp _ true hne).1]
    have := (finalize_argmax_spec _ hne).1
    have h3 : (finalize_argmax (example_single : linear_multi_classifier ℝ).m_scores).1 < 1 := this
    omega
  refine ⟨?_, h1, hn, ?_, ?_⟩
  · rw [finalize_exps_eq Real.exp example_single.m_scores example_single.m_probs rfl]
    simp [example_single]
  · rw [hn, ha]
    simp [example_single, linear_multi_classifier.score]
  · rw [hn]
    simp [example_single, linear_multi_classifier.size]

/-- C4 (amended): `finalize(true)` evaluates `exp(score[i])` itself for every
slot, without subtracting the maximum; `m_norm` is `Σ_j exp(score[j])`, that is
`exp(score[argmax]) * Σ_j exp(score[j] - score[argmax])`; every exponential is
at most `exp(score[argmax])`, and `m_norm` lies between `exp(score[argmax])`
and `size * exp(score[argmax])`. -/
theorem finalize_norm_unshifted (c : linear_multi_classifier ℝ) (hwf : c.wf)
    (hne : c.m_scores ≠ []) :
    finalize_exps Real.exp c.m_scores c.m_probs = c.m_scores.map Real.exp ∧
    (c.finalize Real.exp true).2.m_norm = (c.m_scores.map Real.exp).sum ∧
    (c.finalize Real.exp true).2.m_norm =
      Real.exp (c.score (c.finalize Real.exp true).2.argmax.toNat) *
        (c.m_scores.map (fun s => Real.exp
          (s - c.score (c.finalize Real.exp true).2.argmax.toNat))).sum ∧
    (∀ i : Nat, i < c.size →
      Real.exp (c.score i) ≤ Real.exp (c.score (c.finalize Real.exp true).2.argmax.toNat)) ∧
    Real.exp (c.score (c.finalize Real.exp true).2.argmax.toNat) ≤
      (c.finalize Real.exp true).2.m_norm ∧
    (c.finalize Real.exp true).2.m_norm ≤
      (c.size : ℝ) * Real.exp (c.score (c.finalize Real.exp true).2.argmax.toNat) := by
  have hn : (c.finalize Real.exp true).2.m_norm = (c.m_scores.map Real.exp).sum := by
    rw [finalize_true_eq Real.exp c hwf hne]
  have ha : (c.finalize Real.exp true).2.argmax.toNat = (finalize_argmax c.m_scores).1 := by
    unfold linear_multi_classifier.argmax
    rw [(finalize_argmax_eq Real.exp c true hne).1]
    simp
  obtain ⟨h1, h2, _⟩ := finalize_argmax_spec c.m_scores hne
  rw [ha, hn]
  generalize (finalize_argmax c.m_scores).1 = a at h1 h2
  have hmax : ∀ x ∈ c.m_scores.map Real.exp, x ≤ Real.exp (c.score a) := by
    intro x hx
    obtain ⟨s, hs, rfl⟩ := List.mem_map.mp hx
    obtain ⟨i, hi, rfl⟩ := List.getElem_of_mem hs
    have := h2 i hi
    rw [Real.exp_le_exp]
    simpa [linear_multi_classifier.score, List.getD_eq_getElem?_getD,
      List.getElem?_eq_getElem hi] using this
  refine ⟨finalize_exps_eq Real.exp _ _ hwf.1, rfl, ?_, ?_, ?_, ?_⟩
  · rw [← List.sum_map_mul_left]
    congr 1
    apply List.map_congr_left
    intro s _
    rw [← Real.exp_add]
    congr 1
    ring
  · intro i hi
    rw [Real.exp_le_exp]
    exact h2 i hi
  · apply List.single_le_sum
    · intro x hx
      obtain ⟨s, _, rfl⟩ := List.mem_map.mp hx
      exact le_of_lt (Real.exp_pos s)
    · apply List.mem_map.mpr
      refine ⟨c.score a, ?_, rfl⟩
      simp [linear_multi_classifier.score, List.getD_eq_getElem?_getD,
        List.getElem?_eq_getElem h1]
  · have := List.sum_le_card_nsmul _ _ hmax
    simpa [linear_multi_classifier.size] using this

/-- The scores `2, 1, 0`: the hypotheses hold and the partition factor is the
sum of the unshifted exponentials. -/
theorem finalize_norm_unshifted_witness :
    (example_scores : linear_multi_classifier ℝ).wf ∧
    (example_scores : linear_multi_classifier ℝ).m_scores ≠ [] ∧
    (finalize_exps Real.exp (example_scores : linear_multi_classifier ℝ).m_scores
        (example_scores : linear_multi_classifier ℝ).m_probs =
      (example_scores : linear_multi_classifier ℝ).m_scores.map Real.exp ∧
    ((example_scores : linear_multi_classifier ℝ).finalize Real.exp true).2.m_norm =
      ((example_scores : linear_multi_classifier ℝ).m_scores.map Real.exp).sum ∧
    ((example_scores : linear_multi_classifier ℝ).finalize Real.exp true).2.m_norm =
      Real.exp ((example_scores : linear_multi_classifier ℝ).score
        ((example_scores : linear_multi_classifier ℝ).finalize Real.exp true).2.argmax.toNat) *
        ((example_scores : linear_multi_classifier ℝ).m_scores.map (fun s => Real.exp
          (s - (example_scores : linear_multi_classifier ℝ).score
            ((example_scores : linear_multi_classifier ℝ).finalize Real.exp true).2.argmax.toNat))).sum ∧
    (∀ i : Nat, i < (example_scores : linear_multi_classifier ℝ).size →
      Real.exp ((example_scores : linear_multi_classifier ℝ).score i) ≤
        Real.exp ((example_scores : linear_multi_classifier ℝ).score
          ((example_scores : linear_multi_classifier ℝ).finalize Real.exp true).2.argmax.toNat)) ∧
    Real.exp ((example_scores : linear_multi_classifier ℝ).score
        ((example_scores : linear_multi_classifier ℝ).finalize Real.exp true).2.argmax.toNat) ≤
      ((example_scores : linear_multi_classifier ℝ).finalize Real.exp true).2.m_norm ∧
    ((example_scores : linear_multi_classifier ℝ).finalize Real.exp true).2.m_norm ≤
      ((example_scores : linear_multi_classifier ℝ).size : ℝ) *
        Real.exp ((example_scores : linear_multi_classifier ℝ).score
          ((example_scores : linear_multi_classifier ℝ).finalize Real.exp true).2.argmax.toNat)) :=
  ⟨⟨rfl, rfl⟩, by simp [example_scores],
    finalize_norm_unshifted example_scores ⟨rfl, rfl⟩ (by simp [example_scores])⟩

/-- C5: for a non-empty score vector, after `finalize` (with or without
probabilities) the argmax index is in `[0, size)`, `score[argmax] ≥ score[i]`
for every slot `i`, and `score[j] < score[argmax]` for every `j < argmax`:
ties are broken by first occurrence. -/
theorem finalize_argmax_first_max {α : Type} [LinearOrderedField α] (exp : α → α)
    (c : linear_multi_classifier α) (prob : Bool) (hne : c.m_scores ≠ []) :
    0 ≤ (c.finalize exp prob).2.argmax ∧
    (c.finalize exp prob).2.argmax < ((c.finalize exp prob).2.size : Int) ∧
    (∀ i : Nat, i < (c.finalize exp prob).2.size →
      (c.finalize exp prob).2.score i ≤
        (c.finalize exp prob).2.score (c.finalize exp prob).2.argmax.toNat) ∧
    (∀ j : Nat, (j : Int) < (c.finalize exp prob).2.argmax →
      (c.finalize exp prob).2.score j <
        (c.finalize exp prob).2.score (c.finalize exp prob).2.argmax.toNat) := by
  obtain ⟨ha, hs⟩ := finalize_argmax_eq exp c prob hne
  obtain ⟨h1, h2, h3⟩ := finalize_argmax_spec c.m_scores hne
  unfold linear_multi_classifier.argmax linear_multi_classifier.size
    linear_multi_classifier.score
  rw [ha, hs]
  simp only [Int.toNat_ofNat, Nat.cast_lt]
  exact ⟨Int.ofNat_nonneg _, h1, h2, h3⟩

/-- The scores `2, 1, 0`: the score vector is not empty and the argmax is the
first maximum. -/
theorem finalize_argmax_first_max_witness :
    (example_scores : linear_multi_classifier ℝ).m_scores ≠ [] ∧
    (0 ≤ ((example_scores : linear_multi_classifier ℝ).finalize Real.exp true).2.argmax ∧
    ((example_scores : linear_multi_classifier ℝ).finalize Real.exp true).2.argmax <
      (((example_scores : linear_multi_classifier ℝ).finalize Real.exp true).2.size : Int) ∧
    (∀ i : Nat, i < ((example_scores : linear_multi_classifier ℝ).finalize Real.exp true).2.size →
      ((example_scores : linear_multi_classifier ℝ).finalize Real.exp true).2.score i ≤
        ((example_scores : linear_multi_classifier ℝ).finalize Real.exp true).2.score
          ((example_scores : linear_multi_classifier ℝ).finalize Real.exp true).2.argmax.toNat) ∧
    (∀ j : Nat,
      (j : Int) < ((example_scores : linear_multi_classifier ℝ).finalize Real.exp true).2.argmax →
      ((example_scores : linear_multi_classifier ℝ).finalize Real.exp true).2.score j <
        ((example_scores : linear_multi_classifier ℝ).finalize Real.exp true).2.score
          ((example_scores : linear_multi_classifier ℝ).finalize Real.exp true).2.argmax.toNat)) :=
  ⟨by simp [example_scores],
    finalize_argmax_first_max Real.exp example_scores true (by simp [example_scores])⟩

/-- C6 (as stated, refuted): a classifier that was constructed and resized to
one slot, with no `accumulate` call, is finalized successfully: `finalize`
returns true, not false. -/
theorem finalize_unaccumulated_counterexample :
    (((linear_multi_classifier.ctor 0 : linear_multi_classifier ℝ).resize 1).finalize
      Real.exp true).1 = true ∧
    ¬ ((((linear_multi_classifier.ctor 0 : linear_multi_classifier ℝ).resize 1).finalize
      Real.exp true).1 = false) := by
  have h : (((linear_multi_classifier.ctor 0 : linear_multi_classifier ℝ).resize 1).finalize
      Real.exp true).1 = true := by
    simp [linear_multi_classifier.finalize, linear_multi_classifier.resize,
      ctor_eq, vector_resize]
  exact ⟨h, by rw [h]; exact Bool.noConfusion⟩

/-- C6 (amended): `finalize` returns false if and only if the classifier has no
slot (`size() == 0`), whether or not `accumulate` was called, and returns true
otherwise; in particular after `resize(n)` with `n > 0` it returns true. -/
theorem finalize_false_iff_empty {α : Type} [LinearOrderedField α] (exp : α → α)
    (c : linear_multi_classifier α) (prob : Bool) :
    ((c.finalize exp prob).1 = false ↔ c.size = 0) ∧
    ((c.finalize exp prob).1 = true ↔ c.size ≠ 0) ∧
    (∀ n : Nat, 0 < n → ((c.resize n).finalize exp prob).1 = true) := by
  have key : ∀ d : linear_multi_classifier α,
      (d.finalize exp prob).1 = decide (d.size ≠ 0) := by
    intro d
    unfold linear_multi_classifier.finalize linear_multi_classifier.size
    by_cases h : d.m_scores.length = 0
    · simp [h]
    · cases prob <;> simp [h]
  refine ⟨?_, ?_, ?_⟩
  · rw [key]; simp
  · rw [key]; simp
  · intro n hn
    rw [key]
    have : (c.resize n).size = n := by
      simp [linear_multi_classifier.resize, linear_multi_classifier.size, vector_resize]
      omega
    rw [this]
    simp
    omega

/-! ## The classifier: `accumulate` and `add_to` -/

section accumulate_lemmas

variable {α : Type} [LinearOrderedField α]

theorem set_getD_self (l : List α) (i : Nat) : l.set i (l.getD i 0) = l := by
  apply list_eq_of_getD (by simp)
  intro j hj
  rw [List.length_set] at hj
  rw [getD_set_eq _ _ _ _ hj]
  split_ifs with h
  · rw [h]
  · rfl

theorem call_fold (forward : Nat → Nat → Int) (m_model : Nat → α) (i label : Nat)
    (attrs : List (Nat × α)) (s : linear_multi_classifier α) (hi : i < s.m_scores.length) :
    attrs.foldl (fun s it => s.call forward m_model i it.1 label it.2) s =
      { s with m_scores := (s.m_scores.set i
          (attrs.foldl (fun a it => a +
            (if 0 ≤ forward it.1 label then m_model (forward it.1 label).toNat * it.2 else 0))
            (s.m_scores.getD i 0))) } := by
  induction attrs generalizing s with
  | nil =>
    simp only [List.foldl_nil]
    rw [set_getD_self]
  | cons it rest ih =>
    rw [List.foldl_cons, List.foldl_cons]
    by_cases hf : 0 ≤ forward it.1 label
    · have hc : s.call forward m_model i it.1 label it.2 =
          { s with m_scores := (s.m_scores.set i
            (s.m_scores.getD i 0 + m_model (forward it.1 label).toNat * it.2)) } := by
        simp [linear_multi_classifier.call, hf]
      rw [hc, ih _ (by simpa using hi)]
      simp [hf, List.getD_eq_getElem?_getD, List.getElem?_set, hi,
        List.getElem?_eq_getElem hi]
    · have hc : s.call forward m_model i it.1 label it.2 = s := by
        simp [linear_multi_classifier.call, hf]
      rw [hc, ih s hi]
      simp [hf]

theorem foldl_add_eq_sum (f : Nat × α → α) (attrs : List (Nat × α)) (a : α) :
    attrs.foldl (fun a it => a + f it) a = a + (attrs.map f).sum := by
  induction attrs generalizing a with
  | nil => simp
  | cons it rest ih =>
    rw [List.foldl_cons, ih, List.map_cons, List.sum_cons]
    ring

theorem add_to_apply (forward : Nat → Nat → Int) (attrs : List (Nat × α)) (label : Nat)
    (value : α) (v : Nat → α) (k : Nat) :
    linear_multi_classifier.add_to forward v attrs label value k =
      v k + value * (attrs.map (fun it =>
        if 0 ≤ forward it.1 label ∧ (forward it.1 label).toNat = k then it.2 else 0)).sum := by
  unfold linear_multi_classifier.add_to
  induction attrs generalizing v with
  | nil => simp
  | cons it rest ih =>
    rw [List.foldl_cons, ih, List.map_cons, List.sum_cons]
    by_cases hf : 0 ≤ forward it.1 label
    · by_cases hk : (forward it.1 label).toNat = k
      · subst hk
        simp [hf]
        ring
      · simp [hf, hk, Function.update_noteq (Ne.symm hk)]
    · simp [hf]

end accumulate_lemmas

/-- C7: for an in-range slot `i`, `accumulate(i, attrs, label)` sets `score[i]`
to the sum, taken in order over the `(attribute, value)` pairs of `attrs`
(duplicates counted separately), of `weight[forward(attribute, label)] * value`,
a pair with a negative lookup contributing 0; the result does not depend on the
previous value of `score[i]`, and `label(i)` becomes the given label. -/
theorem accumulate_score {α : Type} [LinearOrderedField α] (forward : Nat → Nat → Int)
    (m_model : Nat → α) (c : linear_multi_classifier α) (i : Nat) (attrs : List (Nat × α))
    (label : Nat) (hwf : c.wf) (hi : i < c.size) :
    (c.accumulate forward m_model i attrs label).score i =
      attrs.foldl (fun a it => a +
        (if 0 ≤ forward it.1 label then m_model (forward it.1 label).toNat * it.2 else 0)) 0 ∧
    (c.accumulate forward m_model i attrs label).score i =
      (attrs.map (fun it =>
        if 0 ≤ forward it.1 label then m_model (forward it.1 label).toNat * it.2 else 0)).sum ∧
    (∀ v : α,
      (linear_multi_classifier.accumulate forward m_model
        { c with m_scores := c.m_scores.set i v } i attrs label).score i =
      (c.accumulate forward m_model i attrs label).score i) ∧
    (c.accumulate forward m_model i attrs label).label i = label := by
  have hi2 : i < c.m_scores.length := hi
  have hil : i < c.m_labels.length := by rw [hwf.2]; exact hi2
  have key : ∀ d : linear_multi_classifier α, i < d.m_scores.length →
      (d.accumulate forward m_model i attrs label).score i =
      attrs.foldl (fun a it => a +
        (if 0 ≤ forward it.1 label then m_model (forward it.1 label).toNat * it.2 else 0)) 0 := by
    intro d hd
    unfold linear_multi_classifier.accumulate
    rw [call_fold forward m_model i label attrs _ (by simpa using hd)]
    simp [linear_multi_classifier.score, List.getD_eq_getElem?_getD, hd]
  refine ⟨key c hi2, ?_, ?_, ?_⟩
  · rw [key c hi2, foldl_add_eq_sum, zero_add]
  · intro v
    rw [key c hi2, key _ (by simpa using hi2)]
  · unfold linear_multi_classifier.accumulate
    rw [call_fold forward m_model i label attrs _ (by simpa using hi2)]
    simp [linear_multi_classifier.label, List.getD_eq_getElem?_getD, hil]

/-- Slot 1 of a classifier of size 3, label 1: the repeated attribute `0` counts
twice, attribute `5` has no feature, and the score is `3 + 0 + 4 + 6`. -/
theorem accumulate_score_witness :
    (example_scores : linear_multi_classifier ℚ).wf ∧
    1 < (example_scores : linear_multi_classifier ℚ).size ∧
    ((example_scores : linear_multi_classifier ℚ).accumulate example_forward example_weights 1
        example_attrs 1).score 1 = 3 * 1 + 0 + 4 * 1 + 3 * 2 ∧
    ((example_scores : linear_multi_classifier ℚ).accumulate example_forward example_weights 1
        example_attrs 1).label 1 = 1 :=
  ⟨⟨rfl, rfl⟩, by decide,
    ((accumulate_score example_forward example_weights
      (example_scores : linear_multi_classifier ℚ) 1 example_attrs 1 ⟨rfl, rfl⟩
      (by decide)).2.1).trans (by norm_num [example_attrs, example_forward, example_weights, Int.toNat]),
    (accumulate_score example_forward example_weights
      (example_scores : linear_multi_classifier ℚ) 1 example_attrs 1 ⟨rfl, rfl⟩
      (by decide)).2.2.2⟩

section trainer_lemmas

variable {α : Type} [LinearOrderedField α]

theorem lbfgs_evaluate_gradient_apply (m_oexps m_mexps g : Nat → α) (n k : Nat) :
    lbfgs_evaluate_gradient m_oexps m_mexps g n k =
      if k < n then -(m_oexps k - m_mexps k) else g k := by
  unfold lbfgs_evaluate_gradient
  induction n with
  | zero => simp
  | succ n ih =>
    rw [List.range_succ, List.foldl_append]
    simp only [List.foldl_cons, List.foldl_nil]
    by_cases hk : k = n
    · subst hk
      simp
    · rw [Function.update_noteq hk, ih]
      by_cases h2 : k < n
      · simp [h2, Nat.lt_succ_of_lt h2]
      · have : ¬ k < n + 1 := by omega
        simp [h2, this]

end trainer_lemmas

/-- C1 (the code at a failing input): on one instance with two candidates that
each carry attribute `0` with value `1`, at the weights `0`, `lbfgs_evaluate`
leaves `m_mexps = [0, 1]`: candidate `i` contributed `i * value` (the loop
counter is handed to `add_to`), whereas the probability-weighted sum of the
claim is `[1/2, 1/2]`. -/
theorem lbfgs_evaluate_mexps_counter_weighted :
    ((example_trainer (fun k => [1, 0].getD k 0) : trainer_maxent ℝ).lbfgs_evaluate
        Real.exp Real.log example_data_one (fun _ => 0) (fun _ => 0) 2 0).2.2.m_mexps 0 = 0 ∧
    ((example_trainer (fun k => [1, 0].getD k 0) : trainer_maxent ℝ).lbfgs_evaluate
        Real.exp Real.log example_data_one (fun _ => 0) (fun _ => 0) 2 0).2.2.m_mexps 1 = 1 ∧
    spec_model_expectation Real.exp (example_data_one : data_type ℝ).forward (fun _ => 0) (-1)
      (example_data_one : data_type ℝ).instances 0 = 1 / 2 ∧
    spec_model_expectation Real.exp (example_data_one : data_type ℝ).forward (fun _ => 0) (-1)
      (example_data_one : data_type ℝ).instances 1 = 1 / 2 := by
  refine ⟨?_, ?_, ?_, ?_⟩
  · simp [trainer_maxent.lbfgs_evaluate, example_trainer, example_data_one,
      lbfgs_evaluate_instance, lbfgs_evaluate_mexps, linear_multi_classifier.add_to,
      List.range_succ]
  · simp [trainer_maxent.lbfgs_evaluate, example_trainer, example_data_one,
      lbfgs_evaluate_instance, lbfgs_evaluate_mexps, linear_multi_classifier.add_to,
      List.range_succ]
  · simp [spec_model_expectation, example_data_one, spec_softmax, spec_score,
      spec_feature_value, List.range_succ]
    norm_num
  · simp [spec_model_expectation, example_data_one, spec_softmax, spec_score,
      spec_feature_value, List.range_succ]
    norm_num

/-- C9 (the code at a failing input): on an instance with two candidates
followed by an instance with one candidate, at the weights `0` and with L2
regularization off, `lbfgs_evaluate` returns `log 2 + log 2`: the single
candidate of the second instance is normalised over both slots of the
classifier, the second slot still holding the score left by the first
instance.  The loss of the claim, normalised over the candidates of each
instance, is `log 2`. -/
theorem lbfgs_evaluate_loss_stale_slot :
    (example_trainer (fun k => [2, 0].getD k 0) : trainer_maxent ℝ).m_c2 = 0 ∧
    ((example_trainer (fun k => [2, 0].getD k 0) : trainer_maxent ℝ).lbfgs_evaluate
        Real.exp Real.log example_data_two (fun _ => 0) (fun _ => 0) 2 0).1
      = Real.log 2 + Real.log 2 ∧
    spec_loss Real.exp Real.log (example_data_two : data_type ℝ).forward (fun _ => 0) (-1)
      (example_data_two : data_type ℝ).instances = Real.log 2 ∧
    ((example_trainer (fun k => [2, 0].getD k 0) : trainer_maxent ℝ).lbfgs_evaluate
        Real.exp Real.log example_data_two (fun _ => 0) (fun _ => 0) 2 0).1 ≠
      spec_loss Real.exp Real.log (example_data_two : data_type ℝ).forward (fun _ => 0) (-1)
        (example_data_two : data_type ℝ).instances := by
  have hcode : ((example_trainer (fun k => [2, 0].getD k 0) : trainer_maxent ℝ).lbfgs_evaluate
        Real.exp Real.log example_data_two (fun _ => 0) (fun _ => 0) 2 0).1
      = Real.log 2 + Real.log 2 := by
    simp [trainer_maxent.lbfgs_evaluate, example_trainer, example_data_two,
      lbfgs_evaluate_instance, lbfgs_evaluate_scores, linear_multi_classifier.accumulate,
      linear_multi_classifier.call, linear_multi_classifier.resize,
      ctor_eq, vector_resize, linear_multi_classifier.finalize,
      finalize_argmax, finalize_exps, finalize_norm, finalize_normalize,
      linear_multi_classifier.prob, linear_multi_classifier.size, List.range_succ]
    norm_num
  have hspec : spec_loss Real.exp Real.log (example_data_two : data_type ℝ).forward
      (fun _ => 0) (-1) (example_data_two : data_type ℝ).instances = Real.log 2 := by
    simp [spec_loss, example_data_two, spec_softmax, spec_score, spec_true_index,
      List.range_succ]
    norm_num
  have hlog : 0 < Real.log 2 := Real.log_pos (by norm_num)
  refine ⟨rfl, hcode, hspec, ?_⟩
  rw [hcode, hspec]
  intro h
  linarith

/-! ## The trainer: regularization -/

section regularization_lemmas

variable {α : Type} [LinearOrderedField α]

theorem lbfgs_evaluate_l2_fold (m_c2 : α) (x : Nat → α) (l : List Nat) (g : Nat → α)
    (nrm : α) :
    l.foldl (fun (st : (Nat → α) × α) i =>
        (Function.update st.1 i (st.1 i + m_c2 * x i), st.2 + x i * x i)) (g, nrm) =
      (fun k => g k + (l.count k : α) * (m_c2 * x k),
       nrm + (l.map (fun i => x i * x i)).sum) := by
  induction l generalizing g nrm with
  | nil => simp
  | cons i rest ih =>
    rw [List.foldl_cons, ih]
    refine Prod.ext ?_ ?_
    · funext k
      simp only [List.count_cons]
      by_cases hk : k = i
      · subst hk
        simp
        ring
      · have hik : ¬ (i == k) = true := by
          simpa using (Ne.symm hk)
        simp [Function.update_noteq hk, hik]
    · simp only [List.map_cons, List.sum_cons]
      ring

theorem lbfgs_evaluate_l2_apply (m_c2 : α) (x : Nat → α) (start n : Nat) (g : Nat → α) :
    (∀ k : Nat, (lbfgs_evaluate_l2 m_c2 x start n g).1 k =
      g k + (if start ≤ k ∧ k < n then m_c2 * x k else 0)) ∧
    (lbfgs_evaluate_l2 m_c2 x start n g).2 =
      ((List.range' start (n - start)).map (fun i => x i * x i)).sum := by
  unfold lbfgs_evaluate_l2
  rw [lbfgs_evaluate_l2_fold]
  refine ⟨?_, by simp⟩
  intro k
  simp only
  by_cases hk : start ≤ k ∧ k < n
  · have hmem : k ∈ List.range' start (n - start) := by
      rw [List.mem_range']
      exact ⟨k - start, by omega, by omega⟩
    rw [List.count_eq_one_of_mem (List.nodup_range' start (n - start)) hmem, if_pos hk]
    simp
  · have hmem : k ∉ List.range' start (n - start) := by
      rw [List.mem_range']
      rintro ⟨i, hi, rfl⟩
      apply hk
      omega
    rw [List.count_eq_zero_of_not_mem hmem, if_neg hk]
    simp

theorem lbfgs_evaluate_eq (exp log : α → α) (t : trainer_maxent α) (data : data_type α)
    (x g : Nat → α) (n : Nat) (step : α) :
    t.lbfgs_evaluate exp log data x g n step =
      if t.m_c2 ≠ 0 then
        ((lbfgs_evaluate_sweep exp log t.m_mexps t.m_num_labels t.m_holdout data x n).2.2 +
            t.m_c2 * (lbfgs_evaluate_l2 t.m_c2 x t.m_regularization_start n
              (lbfgs_evaluate_gradient t.m_oexps
                (lbfgs_evaluate_sweep exp log t.m_mexps t.m_num_labels t.m_holdout
                  data x n).2.1 g n)).2 * (1 / 2),
          (lbfgs_evaluate_l2 t.m_c2 x t.m_regularization_start n
            (lbfgs_evaluate_gradient t.m_oexps
              (lbfgs_evaluate_sweep exp log t.m_mexps t.m_num_labels t.m_holdout
                data x n).2.1 g n)).1,
          { t with m_mexps :=
              (lbfgs_evaluate_sweep exp log t.m_mexps t.m_num_labels t.m_holdout
                data x n).2.1 })
      else
        ((lbfgs_evaluate_sweep exp log t.m_mexps t.m_num_labels t.m_holdout data x n).2.2,
          lbfgs_evaluate_gradient t.m_oexps
            (lbfgs_evaluate_sweep exp log t.m_mexps t.m_num_labels t.m_holdout
              data x n).2.1 g n,
          { t with m_mexps :=
              (lbfgs_evaluate_sweep exp log t.m_mexps t.m_num_labels t.m_holdout
                data x n).2.1 }) := by
  rfl

end regularization_lemmas

section train_lemmas

variable {α : Type} [LinearOrderedField α]

theorem train_prepare_l1 (t : trainer_maxent α) (data : data_type α) (holdout : Int)
    (h : t.m_regularization = "L1" ∨ t.m_regularization = "l1") :
    (t.train_prepare data holdout).m_c1 = 1 / t.m_regularization_sigma ∧
    (t.train_prepare data holdout).m_c2 = 0 ∧
    (t.train_prepare data holdout).m_lbfgs_linesearch = "Backtracking" := by
  unfold trainer_maxent.train_prepare
  simp only [h, if_true]
  refine ⟨?_, ?_, ?_⟩ <;> first | rfl | trivial

theorem train_prepare_l2 (t : trainer_maxent α) (data : data_type α) (holdout : Int)
    (h : t.m_regularization = "L2" ∨ t.m_regularization = "l2") :
    (t.train_prepare data holdout).m_c1 = 0 ∧
    (t.train_prepare data holdout).m_c2 =
      1 / (t.m_regularization_sigma * t.m_regularization_sigma) ∧
    (t.train_prepare data holdout).m_lbfgs_linesearch = t.m_lbfgs_linesearch := by
  have h1 : ¬ (t.m_regularization = "L1" ∨ t.m_regularization = "l1") := by
    rcases h with h | h <;> rw [h] <;> decide
  unfold trainer_maxent.train_prepare
  simp only [h1, h, if_true, if_false]
  refine ⟨?_, ?_, ?_⟩ <;> first | rfl | trivial

theorem train_prepare_none (t : trainer_maxent α) (data : data_type α) (holdout : Int)
    (h1 : ¬ (t.m_regularization = "L1" ∨ t.m_regularization = "l1"))
    (h2 : ¬ (t.m_regularization = "L2" ∨ t.m_regularization = "l2")) :
    (t.train_prepare data holdout).m_c1 = 0 ∧
    (t.train_prepare data holdout).m_c2 = 0 ∧
    (t.train_prepare data holdout).m_lbfgs_linesearch = t.m_lbfgs_linesearch := by
  unfold trainer_maxent.train_prepare
  simp only [h1, h2, if_false]
  refine ⟨?_, ?_, ?_⟩ <;> first | rfl | trivial

theorem train_prepare_fields (t : trainer_maxent α) (data : data_type α) (holdout : Int) :
    (t.train_prepare data holdout).m_holdout = holdout ∧
    (t.train_prepare data holdout).m_regularization_start = data.user_feature_start ∧
    (t.train_prepare data holdout).m_regularization = t.m_regularization ∧
    (t.train_prepare data holdout).m_regularization_sigma = t.m_regularization_sigma := by
  unfold trainer_maxent.train_prepare
  simp only
  split_ifs <;> (refine ⟨?_, ?_, ?_, ?_⟩ <;> first | rfl | trivial)

end train_lemmas

/-- C11: when the regularization is L2 (`"L2"` or `"l2"`) with `sigma ≠ 0`,
`train` sets `c2 = 1 / sigma^2`, and `lbfgs_evaluate` on the prepared trainer
adds `c2 * x[k]` to `g[k]` for every `k` with `regularization_start ≤ k < n`
and `0.5 * c2 * Σ_{regularization_start ≤ k < n} x[k]^2` to the loss of the
sweep, while for `k < regularization_start` the gradient stays
`m_mexps[k] - m_oexps[k]` and `x[k]` is not in the penalty. -/
theorem lbfgs_evaluate_l2_penalty {α : Type} [LinearOrderedField α] (exp log : α → α)
    (t : trainer_maxent α) (data : data_type α) (holdout : Int) (x g : Nat → α) (n : Nat)
    (step : α) (hreg : t.m_regularization = "L2" ∨ t.m_regularization = "l2")
    (hsigma : t.m_regularization_sigma ≠ 0) :
    (t.train_prepare data holdout).m_c2 = 1 / t.m_regularization_sigma ^ 2 ∧
    (t.train_prepare data holdout).m_c2 ≠ 0 ∧
    (t.train_prepare data holdout).m_regularization_start = data.user_feature_start ∧
    (∀ k : Nat, (t.train_prepare data holdout).m_regularization_start ≤ k → k < n →
      ((t.train_prepare data holdout).lbfgs_evaluate exp log data x g n step).2.1 k =
        (((t.train_prepare data holdout).lbfgs_evaluate exp log data x g n step).2.2.m_mexps k -
          (t.train_prepare data holdout).m_oexps k) +
        (t.train_prepare data holdout).m_c2 * x k) ∧
    (∀ k : Nat, k < (t.train_prepare data holdout).m_regularization_start → k < n →
      ((t.train_prepare data holdout).lbfgs_evaluate exp log data x g n step).2.1 k =
        ((t.train_prepare data holdout).lbfgs_evaluate exp log data x g n step).2.2.m_mexps k -
          (t.train_prepare data holdout).m_oexps k) ∧
    ((t.train_prepare data holdout).lbfgs_evaluate exp log data x g n step).1 =
      (lbfgs_evaluate_sweep exp log (t.train_prepare data holdout).m_mexps
          (t.train_prepare data holdout).m_num_labels
          (t.train_prepare data holdout).m_holdout data x n).2.2 +
        (1 / 2) * (t.train_prepare data holdout).m_c2 *
          ((List.range' (t.train_prepare data holdout).m_regularization_start
              (n - (t.train_prepare data holdout).m_regularization_start)).map
            (fun k => x k ^ 2)).sum := by
  obtain ⟨_, hc2, _⟩ := train_prepare_l2 t data holdout hreg
  obtain ⟨_, hstart, _, _⟩ := train_prepare_fields t data holdout
  have hc2' : (t.train_prepare data holdout).m_c2 = 1 / t.m_regularization_sigma ^ 2 := by
    rw [hc2, pow_two]
  have hne : (t.train_prepare data holdout).m_c2 ≠ 0 := by
    rw [hc2']
    exact one_div_ne_zero (pow_ne_zero 2 hsigma)
  refine ⟨hc2', hne, hstart, ?_, ?_, ?_⟩
  · intro k hk hkn
    rw [lbfgs_evaluate_eq, if_pos hne]
    simp only
    rw [(lbfgs_evaluate_l2_apply _ _ _ _ _).1 k, if_pos ⟨hk, hkn⟩,
      lbfgs_evaluate_gradient_apply, if_pos hkn]
    ring
  · intro k hk hkn
    rw [lbfgs_evaluate_eq, if_pos hne]
    simp only
    rw [(lbfgs_evaluate_l2_apply _ _ _ _ _).1 k, if_neg (by omega),
      lbfgs_evaluate_gradient_apply, if_pos hkn]
    ring
  · rw [lbfgs_evaluate_eq, if_pos hne]
    simp only
    rw [(lbfgs_evaluate_l2_apply _ _ _ _ _).2]
    have : (fun k => x k ^ 2) = (fun i => x i * x i) := by
      funext k
      ring
    rw [this]
    ring

/-- A freshly constructed trainer (regularization `"L2"`, `sigma = 5`) on a data
set of two instances: `c2 = 1 / 5^2`, which is not zero. -/
theorem lbfgs_evaluate_l2_penalty_witness :
    ((trainer_maxent.ctor (example_trainer (fun _ => 0)) : trainer_maxent ℚ).m_regularization = "L2" ∨
      (trainer_maxent.ctor (example_trainer (fun _ => 0)) : trainer_maxent ℚ).m_regularization = "l2") ∧
    (trainer_maxent.ctor (example_trainer (fun _ => 0)) : trainer_maxent ℚ).m_regularization_sigma ≠ 0 ∧
    ((trainer_maxent.ctor (example_trainer (fun _ => 0)) : trainer_maxent ℚ).train_prepare
        example_data_two (-1)).m_c2 = 1 / 5 ^ 2 ∧
    ((trainer_maxent.ctor (example_trainer (fun _ => 0)) : trainer_maxent ℚ).train_prepare
        example_data_two (-1)).m_c2 ≠ 0 :=
  ⟨Or.inl rfl, by simp [trainer_maxent.ctor, trainer_maxent.clear, parameter_exchange.init],
    (lbfgs_evaluate_l2_penalty (fun q => 1 + q) (fun q => q - 1)
      (trainer_maxent.ctor (example_trainer (fun _ => 0))) example_data_two (-1)
      example_weights (fun _ => 0) 2 0 (Or.inl rfl)
      (by simp [trainer_maxent.ctor, trainer_maxent.clear, parameter_exchange.init])).1,
    (lbfgs_evaluate_l2_penalty (fun q => 1 + q) (fun q => q - 1)
      (trainer_maxent.ctor (example_trainer (fun _ => 0))) example_data_two (-1)
      example_weights (fun _ => 0) 2 0 (Or.inl rfl)
      (by simp [trainer_maxent.ctor, trainer_maxent.clear, parameter_exchange.init])).2.1⟩

/-- C12: when the regularization is not L2, `train` sets `c2 = 0`, so that
`lbfgs_evaluate` on the prepared trainer returns the loss of the sweep and the
gradient `m_mexps[k] - m_oexps[k]`, without penalty.  When it is L1 (`"L1"` or
`"l1"`), `c1 = 1 / sigma` is the L1 coefficient handed to the solver and the
line search handed to it is `"Backtracking"`; when it is neither L1 nor L2,
`c1 = c2 = 0` and the line search is the configured one. -/
theorem train_l1_or_unregularized {α : Type} [LinearOrderedField α] (exp log : α → α)
    (lbfgs_solve : lbfgs_solve_args α → trainer_maxent α → Int × trainer_maxent α)
    (t : trainer_maxent α) (data : data_type α) (holdout : Int) (x g : Nat → α) (n : Nat)
    (step : α) (hreg : ¬ (t.m_regularization = "L2" ∨ t.m_regularization = "l2")) :
    trainer_maxent.train lbfgs_solve t data holdout =
      lbfgs_solve ((t.train_prepare data holdout).train_args data)
        (t.train_prepare data holdout) ∧
    (t.train_prepare data holdout).m_c2 = 0 ∧
    ((t.train_prepare data holdout).lbfgs_evaluate exp log data x g n step).1 =
      (lbfgs_evaluate_sweep exp log (t.train_prepare data holdout).m_mexps
          (t.train_prepare data holdout).m_num_labels
          (t.train_prepare data holdout).m_holdout data x n).2.2 ∧
    (∀ k : Nat, k < n →
      ((t.train_prepare data holdout).lbfgs_evaluate exp log data x g n step).2.1 k =
        ((t.train_prepare data holdout).lbfgs_evaluate exp log data x g n step).2.2.m_mexps k -
          (t.train_prepare data holdout).m_oexps k) ∧
    ((t.m_regularization = "L1" ∨ t.m_regularization = "l1") →
      (t.train_prepare data holdout).m_c1 = 1 / t.m_regularization_sigma ∧
      ((t.train_prepare data holdout).train_args data).c1 = 1 / t.m_regularization_sigma ∧
      ((t.train_prepare data holdout).train_args data).linesearch = "Backtracking") ∧
    (¬ (t.m_regularization = "L1" ∨ t.m_regularization = "l1") →
      (t.train_prepare data holdout).m_c1 = 0 ∧
      ((t.train_prepare data holdout).train_args data).c1 = 0 ∧
      ((t.train_prepare data holdout).train_args data).linesearch = t.m_lbfgs_linesearch) := by
  have hc2 : (t.train_prepare data holdout).m_c2 = 0 := by
    by_cases h1 : t.m_regularization = "L1" ∨ t.m_regularization = "l1"
    · exact (train_prepare_l1 t data holdout h1).2.1
    · exact (train_prepare_none t data holdout h1 hreg).2.1
  have hnot : ¬ (t.train_prepare data holdout).m_c2 ≠ 0 := by
    rw [hc2]
    simp
  refine ⟨rfl, hc2, ?_, ?_, ?_, ?_⟩
  · rw [lbfgs_evaluate_eq, if_neg hnot]
  · intro k hk
    rw [lbfgs_evaluate_eq, if_neg hnot]
    simp only
    rw [lbfgs_evaluate_gradient_apply, if_pos hk]
    ring
  · intro h1
    obtain ⟨a, _, b⟩ := train_prepare_l1 t data holdout h1
    exact ⟨a, a, b⟩
  · intro h1
    obtain ⟨a, _, b⟩ := train_prepare_none t data holdout h1 hreg
    exact ⟨a, a, b⟩

/-- A trainer whose regularization is `"L1"` with `sigma = 5`: the solver
receives `c1 = 1 / 5` and the line search `"Backtracking"`. -/
theorem train_l1_or_unregularized_witness :
    ¬ (({ (example_trainer (fun _ => 0)) with m_regularization := "L1" } :
          trainer_maxent ℚ).m_regularization = "L2" ∨
       ({ (example_trainer (fun _ => 0)) with m_regularization := "L1" } :
          trainer_maxent ℚ).m_regularization = "l2") ∧
    (({ (example_trainer (fun _ => 0)) with m_regularization := "L1" } :
        trainer_maxent ℚ).train_prepare example_data_two (-1)).m_c2 = 0 ∧
    ((({ (example_trainer (fun _ => 0)) with m_regularization := "L1" } :
        trainer_maxent ℚ).train_prepare example_data_two (-1)).train_args
          example_data_two).c1 = 1 / 5 ∧
    ((({ (example_trainer (fun _ => 0)) with m_regularization := "L1" } :
        trainer_maxent ℚ).train_prepare example_data_two (-1)).train_args
          example_data_two).linesearch = "Backtracking" :=
  ⟨by decide,
    (train_l1_or_unregularized (fun q => 1 + q) (fun q => q - 1) (fun _ s => (0, s))
      { (example_trainer (fun _ => 0)) with m_regularization := "L1" } example_data_two (-1)
      example_weights (fun _ => 0) 2 0 (by decide)).2.1,
    ((train_l1_or_unregularized (fun q => 1 + q) (fun q => q - 1) (fun _ s => (0, s))
      { (example_trainer (fun _ => 0)) with m_regularization := "L1" } example_data_two (-1)
      example_weights (fun _ => 0) 2 0 (by decide)).2.2.2.2.1 (Or.inl rfl)).2.1,
    ((train_l1_or_unregularized (fun q => 1 + q) (fun q => q - 1) (fun _ s => (0, s))
      { (example_trainer (fun _ => 0)) with m_regularization := "L1" } example_data_two (-1)
      example_weights (fun _ => 0) 2 0 (by decide)).2.2.2.2.1 (Or.inl rfl)).2.2⟩

/-! ## The trainer: holdout instances -/

section holdout_lemmas

variable {α : Type} [LinearOrderedField α]

theorem foldl_filter_skip {σ ι : Type} (f : σ → ι → σ) (p : ι → Bool)
    (hskip : ∀ s a, p a = false → f s a = s) (l : List ι) (s : σ) :
    l.foldl f s = (l.filter p).foldl f s := by
  induction l generalizing s with
  | nil => rfl
  | cons a rest ih =>
    rw [List.foldl_cons]
    cases hp : p a
    · rw [List.filter_cons_of_neg (by simp [hp]), hskip s a hp]
      exact ih s
    · rw [List.filter_cons_of_pos hp, List.foldl_cons]
      exact ih (f s a)

theorem train_oexps_filter (forward : Nat → Nat → Int) (m_holdout : Int)
    (l : List (Instance α)) (st : (Nat → α) × Nat) :
    l.foldl (train_oexps_instance forward m_holdout) st =
      (l.filter (fun iti => decide (iti.group ≠ m_holdout))).foldl
        (train_oexps_instance forward m_holdout) st := by
  apply foldl_filter_skip
  intro s a ha
  have : a.group = m_holdout := by simpa using ha
  simp [train_oexps_instance, this]

theorem lbfgs_evaluate_sweep_filter (exp log : α → α) (forward : Nat → Nat → Int)
    (x : Nat → α) (m_holdout : Int) (l : List (Instance α))
    (st : linear_multi_classifier α × (Nat → α) × α) :
    l.foldl (lbfgs_evaluate_instance exp log forward x m_holdout) st =
      (l.filter (fun iti => decide (iti.group ≠ m_holdout))).foldl
        (lbfgs_evaluate_instance exp log forward x m_holdout) st := by
  apply foldl_filter_skip
  intro s a ha
  have : a.group = m_holdout := by simpa using ha
  simp [lbfgs_evaluate_instance, this]

theorem train_prepare_congr (t : trainer_maxent α) (data₁ data₂ : data_type α)
    (holdout : Int) (hfw : data₁.forward = data₂.forward)
    (hK : data₁.num_features = data₂.num_features)
    (hstart : data₁.user_feature_start = data₂.user_feature_start)
    (hsame : data₁.instances.filter (fun iti => decide (iti.group ≠ holdout)) =
      data₂.instances.filter (fun iti => decide (iti.group ≠ holdout))) :
    t.train_prepare data₁ holdout = t.train_prepare data₂ holdout := by
  unfold trainer_maxent.train_prepare
  simp only [hfw, hK, hstart]
  have hh : ∀ st : (Nat → α) × Nat,
      data₁.instances.foldl (train_oexps_instance data₂.forward holdout) st =
      data₂.instances.foldl (train_oexps_instance data₂.forward holdout) st := by
    intro st
    rw [train_oexps_filter, train_oexps_filter _ _ data₂.instances, hsame]
  split_ifs <;> simp only [hh]

theorem lbfgs_evaluate_congr (exp log : α → α) (t : trainer_maxent α)
    (data₁ data₂ : data_type α) (x g : Nat → α) (n : Nat) (step : α)
    (hfw : data₁.forward = data₂.forward)
    (hsame : data₁.instances.filter (fun iti => decide (iti.group ≠ t.m_holdout)) =
      data₂.instances.filter (fun iti => decide (iti.group ≠ t.m_holdout))) :
    t.lbfgs_evaluate exp log data₁ x g n step = t.lbfgs_evaluate exp log data₂ x g n step := by
  have hsweep : lbfgs_evaluate_sweep exp log t.m_mexps t.m_num_labels t.m_holdout data₁ x n =
      lbfgs_evaluate_sweep exp log t.m_mexps t.m_num_labels t.m_holdout data₂ x n := by
    unfold lbfgs_evaluate_sweep
    rw [lbfgs_evaluate_sweep_filter, lbfgs_evaluate_sweep_filter _ _ _ _ _ data₂.instances,
      hfw, hsame]
  rw [lbfgs_evaluate_eq, lbfgs_evaluate_eq, hsweep]

end holdout_lemmas

/-- C13: holdout instances do not influence training.  For two data sets with
the same traits whose non-holdout instances are the same, in the same order,
`train` prepares the same trainer, in particular the same observation
expectations, and `lbfgs_evaluate` returns the same loss and gradient for every
weight vector. -/
theorem holdout_instances_without_influence {α : Type} [LinearOrderedField α]
    (exp log : α → α) (t : trainer_maxent α) (data₁ data₂ : data_type α) (holdout : Int)
    (x g : Nat → α) (n : Nat) (step : α)
    (hfw : data₁.forward = data₂.forward)
    (hK : data₁.num_features = data₂.num_features)
    (hstart : data₁.user_feature_start = data₂.user_feature_start)
    (hsame : data₁.instances.filter (fun iti => decide (iti.group ≠ holdout)) =
      data₂.instances.filter (fun iti => decide (iti.group ≠ holdout))) :
    (t.train_prepare data₁ holdout).m_oexps = (t.train_prepare data₂ holdout).m_oexps ∧
    t.train_prepare data₁ holdout = t.train_prepare data₂ holdout ∧
    ((t.train_prepare data₁ holdout).lbfgs_evaluate exp log data₁ x g n step).1 =
      ((t.train_prepare data₂ holdout).lbfgs_evaluate exp log data₂ x g n step).1 ∧
    ((t.train_prepare data₁ holdout).lbfgs_evaluate exp log data₁ x g n step).2.1 =
      ((t.train_prepare data₂ holdout).lbfgs_evaluate exp log data₂ x g n step).2.1 := by
  have hprep := train_prepare_congr t data₁ data₂ holdout hfw hK hstart hsame
  have hhold : (t.train_prepare data₂ holdout).m_holdout = holdout :=
    (train_prepare_fields t data₂ holdout).1
  have hev := lbfgs_evaluate_congr exp log (t.train_prepare data₂ holdout) data₁ data₂
    x g n step hfw (by rw [hhold]; exact hsame)
  refine ⟨by rw [hprep], hprep, ?_, ?_⟩
  · rw [hprep, hev]
  · rw [hprep, hev]

/-- Two data sets that differ in one instance of the holdout group `1`. -/
theorem holdout_instances_without_influence_witness :
    (example_data_two : data_type ℚ).forward = (example_data_holdout : data_type ℚ).forward ∧
    (example_data_two : data_type ℚ).num_features =
      (example_data_holdout : data_type ℚ).num_features ∧
    (example_data_two : data_type ℚ).user_feature_start =
      (example_data_holdout : data_type ℚ).user_feature_start ∧
    (example_data_two : data_type ℚ).instances.filter (fun iti => decide (iti.group ≠ 1)) =
      (example_data_holdout : data_type ℚ).instances.filter
        (fun iti => decide (iti.group ≠ 1)) ∧
    (example_data_two : data_type ℚ).instances ≠
      (example_data_holdout : data_type ℚ).instances ∧
    ((example_trainer (fun _ => 0) : trainer_maxent ℚ).train_prepare example_data_two 1).m_oexps =
      ((example_trainer (fun _ => 0) : trainer_maxent ℚ).train_prepare
        example_data_holdout 1).m_oexps :=
  ⟨rfl, rfl, rfl, rfl, by simp [example_data_two, example_data_holdout],
    (holdout_instances_without_influence (fun q => 1 + q) (fun q => q - 1)
      (example_trainer (fun _ => 0)) example_data_two example_data_holdout 1
      example_weights (fun _ => 0) 2 0 rfl rfl rfl rfl).1⟩

/-! ## The trainer: instances without true candidate -/

section untrue_lemmas

variable {α : Type} [LinearOrderedField α]

theorem train_oexps_candidates_untrue (forward : Nat → Nat → Int)
    (cands : List (Candidate α)) (m_oexps : Nat → α)
    (h : ∀ c ∈ cands, c.truth = false) :
    train_oexps_candidates forward cands m_oexps = m_oexps := by
  unfold train_oexps_candidates
  induction cands generalizing m_oexps with
  | nil => rfl
  | cons c rest ih =>
    rw [List.foldl_cons, h c (List.mem_cons_self c rest)]
    simp only [Bool.false_eq_true, if_false]
    exact ih m_oexps (fun d hd => h d (List.mem_cons_of_mem c hd))

theorem train_oexps_instance_fst (forward : Nat → Nat → Int) (m_holdout : Int)
    (st : (Nat → α) × Nat) (iti : Instance α) :
    (train_oexps_instance forward m_holdout st iti).1 =
      if iti.group = m_holdout then st.1
      else train_oexps_candidates forward iti.candidates st.1 := by
  unfold train_oexps_instance
  split_ifs <;> rfl

theorem train_oexps_fold_true_only (forward : Nat → Nat → Int) (m_holdout : Int)
    (l : List (Instance α)) (st st' : (Nat → α) × Nat) (h : st.1 = st'.1) :
    (l.foldl (train_oexps_instance forward m_holdout) st).1 =
      ((l.filter (fun iti => iti.candidates.any (fun c => c.truth))).foldl
        (train_oexps_instance forward m_holdout) st').1 := by
  induction l generalizing st st' with
  | nil => exact h
  | cons a rest ih =>
    rw [List.foldl_cons]
    cases ha : a.candidates.any (fun c => c.truth)
    · rw [List.filter_cons_of_neg (by simp [ha])]
      apply ih
      rw [train_oexps_instance_fst, ← h]
      have hno : ∀ c ∈ a.candidates, c.truth = false := by
        intro c hc
        cases hct : c.truth
        · rfl
        · have : a.candidates.any (fun c => c.truth) = true :=
            List.any_eq_true.mpr ⟨c, hc, hct⟩
          rw [ha] at this
          exact absurd this (by decide)
      rw [train_oexps_candidates_untrue forward a.candidates st.1 hno]
      split_ifs <;> rfl
    · rw [List.filter_cons_of_pos (p := fun iti : Instance α =>
        iti.candidates.any (fun c => c.truth)) ha, List.foldl_cons]
      apply ih
      rw [train_oexps_instance_fst, train_oexps_instance_fst, h]

theorem train_prepare_oexps (t : trainer_maxent α) (data : data_type α) (holdout : Int) :
    (t.train_prepare data holdout).m_oexps =
      (data.instances.foldl (train_oexps_instance data.forward holdout)
        ((List.range data.num_features).foldl (fun m k => Function.update m k 0)
          (fun _ => 0), 0)).1 := by
  unfold trainer_maxent.train_prepare
  simp only
  split_ifs <;> rfl

end untrue_lemmas

/-- C14 (as stated, refuted): on a data set whose only instance is not in the
holdout group and has no candidate marked true, `train` reports nothing: with
a solver that returns the success status `0` it returns `0`, the observation
expectation pass leaves `m_oexps` at zero (the instance is passed over
silently), and `lbfgs_evaluate` does score the instance: the true index is
`-1` after the scoring loop and the candidates are added to `m_mexps`. -/
theorem train_untrue_instance_counterexample :
    (∃ iti ∈ (example_data_untrue : data_type ℝ).instances,
      iti.group ≠ -1 ∧ ∀ c ∈ iti.candidates, c.truth = false) ∧
    (trainer_maxent.train (fun _ s => (0, s)) (example_trainer (fun _ => 0) : trainer_maxent ℝ)
      example_data_untrue (-1)).1 = 0 ∧
    (∀ k : Nat, ((example_trainer (fun _ => 0) : trainer_maxent ℝ).train_prepare
      example_data_untrue (-1)).m_oexps k = 0) ∧
    (∀ iti ∈ (example_data_untrue : data_type ℝ).instances,
      (lbfgs_evaluate_scores (example_data_untrue : data_type ℝ).forward (fun _ => 0) 0
        iti.candidates
        ((linear_multi_classifier.ctor 0 : linear_multi_classifier ℝ).resize 2, -1)).2 = -1) ∧
    (((example_trainer (fun _ => 0) : trainer_maxent ℝ).train_prepare
      example_data_untrue (-1)).lbfgs_evaluate Real.exp Real.log example_data_untrue
        (fun _ => 0) (fun _ => 0) 2 0).2.2.m_mexps 1 = 1 := by
  refine ⟨?_, rfl, ?_, ?_, ?_⟩
  · refine ⟨_, List.mem_cons_self _ _, by decide, ?_⟩
    intro c hc
    simp at hc
    rcases hc with rfl | rfl <;> rfl
  · intro k
    rw [train_prepare_oexps]
    simp [example_data_untrue, train_oexps_instance, train_oexps_candidates, List.range_succ]
  · intro iti hiti
    simp [example_data_untrue] at hiti
    subst hiti
    simp [lbfgs_evaluate_scores]
  · simp [trainer_maxent.lbfgs_evaluate, trainer_maxent.train_prepare, example_trainer,
      example_data_untrue, lbfgs_evaluate_instance, lbfgs_evaluate_mexps,
      linear_multi_classifier.add_to, List.range_succ]

/-- C14 (amended): `train` reports no error of its own for an instance without
true candidate.  It returns the status of the solver applied to the prepared
trainer; in the observation expectation pass an instance none of whose
candidates is marked true adds nothing to `m_oexps`, so that the observation
expectations are those of the data set without such instances. -/
theorem train_passes_over_untrue_instances {α : Type} [LinearOrderedField α]
    (lbfgs_solve : lbfgs_solve_args α → trainer_maxent α → Int × trainer_maxent α)
    (t : trainer_maxent α) (data : data_type α) (holdout : Int) :
    trainer_maxent.train lbfgs_solve t data holdout =
      lbfgs_solve ((t.train_prepare data holdout).train_args data)
        (t.train_prepare data holdout) ∧
    (∀ (st : (Nat → α) × Nat) (iti : Instance α), (∀ c ∈ iti.candidates, c.truth = false) →
      (train_oexps_instance data.forward holdout st iti).1 = st.1) ∧
    (t.train_prepare data holdout).m_oexps =
      (t.train_prepare
        { data with instances :=
            data.instances.filter (fun iti => iti.candidates.any (fun c => c.truth)) }
        holdout).m_oexps := by
  refine ⟨rfl, ?_, ?_⟩
  · intro st iti h
    rw [train_oexps_instance_fst, train_oexps_candidates_untrue _ _ _ h]
    split_ifs <;> rfl
  · rw [train_prepare_oexps, train_prepare_oexps]
    exact train_oexps_fold_true_only _ _ _ _ _ rfl

/-! ## The trainer: configuration defaults -/

/-- C15: a cleared trainer, and hence a freshly constructed one, has the
defaults regularization `"L2"`, sigma `5.0`, `lbfgs.num_memories = 6`,
`lbfgs.epsilon = 1e-5`, `lbfgs.stop = 10`, `lbfgs.delta = 1e-5`,
`lbfgs.max_iterations = INT_MAX = 2^31 - 1`, `lbfgs.linesearch = "MoreThuente"`,
`lbfgs.max_linesearch = 20` and holdout `-1`. -/
theorem trainer_maxent_defaults {α : Type} [LinearOrderedField α] (t : trainer_maxent α) :
    (t.clear.m_regularization = "L2" ∧
     t.clear.m_regularization_sigma = 5 ∧
     t.clear.m_lbfgs_num_memories = 6 ∧
     t.clear.m_lbfgs_epsilon = 1e-5 ∧
     t.clear.m_lbfgs_stop = 10 ∧
     t.clear.m_lbfgs_delta = 1e-5 ∧
     t.clear.m_lbfgs_maxiter = 2 ^ 31 - 1 ∧
     t.clear.m_lbfgs_linesearch = "MoreThuente" ∧
     t.clear.m_lbfgs_max_linesearch = 20 ∧
     t.clear.m_holdout = -1) ∧
    (t.ctor.m_regularization = "L2" ∧
     t.ctor.m_regularization_sigma = 5 ∧
     t.ctor.m_lbfgs_num_memories = 6 ∧
     t.ctor.m_lbfgs_epsilon = 1e-5 ∧
     t.ctor.m_lbfgs_stop = 10 ∧
     t.ctor.m_lbfgs_delta = 1e-5 ∧
     t.ctor.m_lbfgs_maxiter = 2 ^ 31 - 1 ∧
     t.ctor.m_lbfgs_linesearch = "MoreThuente" ∧
     t.ctor.m_lbfgs_max_linesearch = 20 ∧
     t.ctor.m_holdout = -1) := by
  have he : (1 / 100000 : α) = 1e-5 := by norm_num
  refine ⟨⟨rfl, rfl, rfl, he, rfl, he, by norm_num [trainer_maxent.clear, parameter_exchange.init],
    rfl, rfl, rfl⟩, ⟨rfl, rfl, rfl, he, rfl, he,
    by norm_num [trainer_maxent.ctor, trainer_maxent.clear, parameter_exchange.init],
    rfl, rfl, rfl⟩⟩

/-! ## Evaluation: `accuracy` and `precall` -/

section evaluation_lemmas

variable {α : Type} [LinearOrderedField α]

theorem int_wrap_add (x y : Int) : int_wrap (int_wrap x + y) = int_wrap (x + y) := by
  unfold int_wrap
  omega

theorem int_wrap_of_range (z : Int) (h1 : -2147483648 ≤ z) (h2 : z < 2147483648) :
    int_wrap z = z := by
  unfold int_wrap
  omega

theorem accuracy_set_fold (calls : List Bool) (a : accuracy) :
    calls.foldl accuracy.set a =
      if calls = [] then a
      else { m_m := int_wrap (a.m_m + (calls.count true : Int)),
             m_n := int_wrap (a.m_n + (calls.length : Int)) } := by
  induction calls generalizing a with
  | nil => simp
  | cons b rest ih =>
    rw [List.foldl_cons, ih, if_neg (List.cons_ne_nil b rest)]
    by_cases hrest : rest = []
    · subst hrest
      cases b <;> simp [accuracy.set]
    · rw [if_neg hrest]
      cases b
      · simp only [accuracy.set, Bool.false_eq_true, if_false, add_zero, int_wrap_add,
          List.length_cons, Nat.cast_add, Nat.cast_one]
        have hc : List.count true (false :: rest) = List.count true rest := by simp
        rw [hc]
        have e : a.m_n + 1 + (rest.length : Int) = a.m_n + ((rest.length : Int) + 1) := by ring
        rw [e]
      · simp only [accuracy.set, if_true, int_wrap_add, List.length_cons, Nat.cast_add,
          Nat.cast_one]
        have hc : List.count true (true :: rest) = List.count true rest + 1 := by simp
        rw [hc]
        have e : a.m_n + 1 + (rest.length : Int) = a.m_n + ((rest.length : Int) + 1) := by ring
        have e3 : a.m_m + 1 + (List.count true rest : Int) =
            a.m_m + ((List.count true rest + 1 : Nat) : Int) := by
          push_cast
          ring
        rw [e, e3]

theorem divide_int_eq (a b : Int) :
    (precall.divide_int a b : Option α) = some (spec_ratio a b) := by
  unfold precall.divide_int spec_ratio double_div
  by_cases hb : b = 0
  · simp [hb]
  · have hb' : (b : α) ≠ 0 := Int.cast_ne_zero.mpr hb
    simp [hb, hb']

theorem divide_double_eq (p r : α) :
    precall.divide_double (2 * p * r) (p + r) = some (spec_f1 p r) := by
  unfold precall.divide_double spec_f1 double_div
  by_cases h : p + r = 0
  · simp [h]
  · simp [h]

theorem output_labelwise_item_eq (s : precall) (l : Nat) :
    (precall.output_labelwise_item s l : Option (α × α × α)) =
      some (spec_ratio (s.m_stat.getD l 0).num_match (s.m_stat.getD l 0).num_prediction,
            spec_ratio (s.m_stat.getD l 0).num_match (s.m_stat.getD l 0).num_reference,
            spec_f1
              (spec_ratio (s.m_stat.getD l 0).num_match (s.m_stat.getD l 0).num_prediction)
              (spec_ratio (s.m_stat.getD l 0).num_match (s.m_stat.getD l 0).num_reference)) := by
  unfold precall.output_labelwise_item
  simp only [divide_int_eq, divide_double_eq, Option.bind_eq_bind, Option.some_bind,
    Option.pure_def, bind_pure_comp, Option.map_some']

end evaluation_lemmas

/-- C16 (as stated, refuted): after `2^31` calls `set(true)` on a fresh
`accuracy` the `int` counter `m_n` has wrapped around to `-2^31`, the test
`0 < m_n` fails and the reported accuracy is `0`, whereas (number of calls with
`b = true`) / (number of calls) is `1`. -/
theorem accuracy_overflow_counterexample :
    ((List.replicate 2147483648 true).foldl accuracy.set accuracy.ctor).m_n = -2147483648 ∧
    (((List.replicate 2147483648 true).foldl accuracy.set accuracy.ctor).operator_double :
      Option ℚ) = some 0 ∧
    (((List.replicate 2147483648 true).count true : ℚ) /
      ((List.replicate 2147483648 true).length : ℚ)) = 1 := by
  have hne : List.replicate 2147483648 true ≠ [] := by
    intro h
    have := congrArg List.length h
    rw [List.length_replicate] at this
    exact absurd this (by decide)
  have hfold : (List.replicate 2147483648 true).foldl accuracy.set accuracy.ctor =
      { m_m := -2147483648, m_n := -2147483648 } := by
    rw [accuracy_set_fold, if_neg hne, List.count_replicate_self, List.length_replicate]
    rfl
  refine ⟨?_, ?_, ?_⟩
  · rw [hfold]
  · rw [hfold]
    unfold accuracy.operator_double
    rw [if_neg (by decide)]
  · rw [List.count_replicate_self, List.length_replicate]
    norm_num

/-- C16 (amended): for every sequence of fewer than `2^31` `set(b)` calls on a
fresh `accuracy`, the accuracy is (number of calls with `b = true`) / (number
of calls), and `0` when no call was made; 10 calls of which 7 are true give
`0.7`. -/
theorem accuracy_is_match_ratio {α : Type} [LinearOrderedField α] (calls : List Bool)
    (hlen : calls.length < 2147483648) :
    ((calls.foldl accuracy.set accuracy.ctor).operator_double : Option α) =
      some (if calls = [] then 0 else (calls.count true : α) / (calls.length : α)) ∧
    (calls.length = 10 → calls.count true = 7 →
      ((calls.foldl accuracy.set accuracy.ctor).operator_double : Option α) = some 0.7) := by
  have key : ((calls.foldl accuracy.set accuracy.ctor).operator_double : Option α) =
      some (if calls = [] then 0 else (calls.count true : α) / (calls.length : α)) := by
    rw [accuracy_set_fold]
    cases calls with
    | nil => simp [accuracy.operator_double, accuracy.ctor]
    | cons b rest =>
      rw [if_neg (List.cons_ne_nil b rest), if_neg (List.cons_ne_nil b rest)]
      have hcount : (b :: rest).count true ≤ (b :: rest).length := List.count_le_length _ _
      have hm : int_wrap (accuracy.ctor.m_m + (((b :: rest).count true : Nat) : Int)) =
          (((b :: rest).count true : Nat) : Int) := by
        rw [int_wrap_of_range] <;> simp only [accuracy.ctor] <;> omega
      have hn : int_wrap (accuracy.ctor.m_n + (((b :: rest).length : Nat) : Int)) =
          (((b :: rest).length : Nat) : Int) := by
        rw [int_wrap_of_range] <;> simp only [accuracy.ctor] <;> omega
      rw [hm, hn]
      unfold accuracy.operator_double double_div
      have hpos : (0 : Int) < (((b :: rest).length : Nat) : Int) := by
        simp only [List.length_cons]
        omega
      have hne : (((((b :: rest).length : Nat) : Int) : Int) : α) ≠ 0 := by
        exact Int.cast_ne_zero.mpr (ne_of_gt hpos)
      simp only [hpos, if_true, hne, if_false]
      simp
  refine ⟨key, ?_⟩
  intro hlen hcount
  rw [key, hlen, hcount]
  have hne : calls ≠ [] := by
    intro h
    rw [h] at hlen
    simp at hlen
  rw [if_neg hne]
  norm_num

/-- Ten calls of which seven are true, over the rationals. -/
theorem accuracy_is_match_ratio_witness :
    ([true, true, true, false, true, true, false, true, true, false] : List Bool).length <
      2147483648 ∧
    (([true, true, true, false, true, true, false, true, true, false].foldl accuracy.set
      accuracy.ctor).operator_double : Option ℚ) = some 0.7 :=
  ⟨by decide,
    (accuracy_is_match_ratio [true, true, true, false, true, true, false, true, true, false]
      (by decide)).2 rfl rfl⟩

section evaluation_lemmas2

variable {α : Type} [LinearOrderedField α]

theorem output_labelwise_eq (s : precall) (positive : List Nat) :
    (precall.output_labelwise s positive : Option (List (α × α × α))) =
      some (positive.map (fun l =>
        (spec_ratio (s.m_stat.getD l 0).num_match (s.m_stat.getD l 0).num_prediction,
         spec_ratio (s.m_stat.getD l 0).num_match (s.m_stat.getD l 0).num_reference,
         spec_f1
           (spec_ratio (s.m_stat.getD l 0).num_match (s.m_stat.getD l 0).num_prediction)
           (spec_ratio (s.m_stat.getD l 0).num_match (s.m_stat.getD l 0).num_reference)))) := by
  unfold precall.output_labelwise
  induction positive with
  | nil => rfl
  | cons l rest ih =>
    rw [List.mapM_cons, output_labelwise_item_eq, ih]
    rfl

end evaluation_lemmas2

/-- C18: for a label whose predicted-positive and reference-positive counts are
both zero, the precision, recall and F1 that `output_labelwise` computes are
all `0`; `output_labelwise` has a result for every state and label list, that
is, it performs no division by zero. -/
theorem output_labelwise_zero_support {α : Type} [LinearOrderedField α] (s : precall)
    (l : Nat) (hp : (s.m_stat.getD l 0).num_prediction = 0)
    (hr : (s.m_stat.getD l 0).num_reference = 0) :
    (precall.output_labelwise_item s l : Option (α × α × α)) = some (0, 0, 0) ∧
    (∀ positive : List Nat, ∃ out : List (α × α × α),
      precall.output_labelwise s positive = some out ∧
      out.length = positive.length ∧
      ∀ i : Nat, positive.get? i = some l → out.get? i = some (0, 0, 0)) := by
  have hitem : (precall.output_labelwise_item s l : Option (α × α × α)) = some (0, 0, 0) := by
    rw [output_labelwise_item_eq, hp, hr]
    simp [spec_ratio, spec_f1]
  refine ⟨hitem, ?_⟩
  intro positive
  refine ⟨_, output_labelwise_eq s positive, by simp, ?_⟩
  intro i hi
  rw [List.get?_eq_getElem?, List.getElem?_map]
  rw [List.get?_eq_getElem?] at hi
  rw [hi]
  have := hitem
  rw [output_labelwise_item_eq] at this
  simpa using this

/-- The label `2` of a `precall` in which it never occurred. -/
theorem output_labelwise_zero_support_witness :
    (example_precall.m_stat.getD 2 0).num_prediction = 0 ∧
    (example_precall.m_stat.getD 2 0).num_reference = 0 ∧
    (precall.output_labelwise_item example_precall 2 : Option (ℚ × ℚ × ℚ)) = some (0, 0, 0) :=
  ⟨by decide, by decide, (output_labelwise_zero_support example_precall 2 (by decide)
    (by decide)).1⟩

section evaluation_lemmas3

variable {α : Type} [LinearOrderedField α]

theorem output_macro_fold (s : precall) (positive : List Nat) (st : Int × α × α × α) :
    positive.foldl (precall.output_macro_step s) (some st) =
      some
        (st.1 + ((positive.filter (fun l =>
            decide (0 < (s.m_stat.getD l 0).num_prediction ∨
              0 < (s.m_stat.getD l 0).num_reference))).length : Int),
         st.2.1 + ((positive.filter (fun l =>
            decide (0 < (s.m_stat.getD l 0).num_prediction ∨
              0 < (s.m_stat.getD l 0).num_reference))).map (fun l =>
            spec_ratio (s.m_stat.getD l 0).num_match (s.m_stat.getD l 0).num_prediction)).sum,
         st.2.2.1 + ((positive.filter (fun l =>
            decide (0 < (s.m_stat.getD l 0).num_prediction ∨
              0 < (s.m_stat.getD l 0).num_reference))).map (fun l =>
            spec_ratio (s.m_stat.getD l 0).num_match (s.m_stat.getD l 0).num_reference)).sum,
         st.2.2.2 + ((positive.filter (fun l =>
            decide (0 < (s.m_stat.getD l 0).num_prediction ∨
              0 < (s.m_stat.getD l 0).num_reference))).map (fun l =>
            spec_f1
              (spec_ratio (s.m_stat.getD l 0).num_match (s.m_stat.getD l 0).num_prediction)
              (spec_ratio (s.m_stat.getD l 0).num_match
                (s.m_stat.getD l 0).num_reference))).sum) := by
  induction positive generalizing st with
  | nil => simp
  | cons l rest ih =>
    rw [List.foldl_cons]
    by_cases h : 0 < (s.m_stat.getD l 0).num_prediction ∨ 0 < (s.m_stat.getD l 0).num_reference
    · have hstep : precall.output_macro_step s (some st) l =
          some (st.1 + 1,
            st.2.1 + spec_ratio (s.m_stat.getD l 0).num_match (s.m_stat.getD l 0).num_prediction,
            st.2.2.1 + spec_ratio (s.m_stat.getD l 0).num_match
              (s.m_stat.getD l 0).num_reference,
            st.2.2.2 + spec_f1
              (spec_ratio (s.m_stat.getD l 0).num_match (s.m_stat.getD l 0).num_prediction)
              (spec_ratio (s.m_stat.getD l 0).num_match (s.m_stat.getD l 0).num_reference)) := by
        unfold precall.output_macro_step
        simp only [h, if_true, divide_int_eq, divide_double_eq, Option.bind_eq_bind,
          Option.some_bind, Option.pure_def]
      rw [hstep, ih, List.filter_cons_of_pos (by simpa using h)]
      simp only [List.length_cons, List.map_cons, List.sum_cons, Nat.cast_add, Nat.cast_one]
      refine congrArg some (Prod.ext ?_ (Prod.ext ?_ (Prod.ext ?_ ?_))) <;> simp only <;> ring
    · have hstep : precall.output_macro_step s (some st) l = some st := by
        unfold precall.output_macro_step
        simp only [h, if_false, Option.bind_eq_bind, Option.some_bind, Option.pure_def]
      rw [hstep, ih, List.filter_cons_of_neg (by simpa using h)]

end evaluation_lemmas3

/-- C19: for every `precall` state and list of positive labels, the precision,
recall and F1 of `output_macro` are the arithmetic means of the per-label
precision, recall and F1 over exactly the listed labels that have a prediction
or a reference; a listed label with neither is in neither the sum nor the
divisor, and the three values are `0` when no listed label has support. -/
theorem output_macro_spec {α : Type} [LinearOrderedField α] (s : precall)
    (positive : List Nat) :
    ( precall.output_macro s positive : Option (α × α × α)) =
      some
        (spec_mean ((positive.filter (fun l =>
            decide (0 < (s.m_stat.getD l 0).num_prediction ∨
              0 < (s.m_stat.getD l 0).num_reference))).map (fun l =>
            spec_ratio (s.m_stat.getD l 0).num_match (s.m_stat.getD l 0).num_prediction)),
         spec_mean ((positive.filter (fun l =>
            decide (0 < (s.m_stat.getD l 0).num_prediction ∨
              0 < (s.m_stat.getD l 0).num_reference))).map (fun l =>
            spec_ratio (s.m_stat.getD l 0).num_match (s.m_stat.getD l 0).num_reference)),
         spec_mean ((positive.filter (fun l =>
            decide (0 < (s.m_stat.getD l 0).num_prediction ∨
              0 < (s.m_stat.getD l 0).num_reference))).map (fun l =>
            spec_f1
              (spec_ratio (s.m_stat.getD l 0).num_match (s.m_stat.getD l 0).num_prediction)
              (spec_ratio (s.m_stat.getD l 0).num_match
                (s.m_stat.getD l 0).num_reference)))) ∧
    ((∀ l ∈ positive, ¬ (0 < (s.m_stat.getD l 0).num_prediction ∨
        0 < (s.m_stat.getD l 0).num_reference)) →
      ( precall.output_macro s positive : Option (α × α × α)) = some (0, 0, 0)) := by
  have key : ( precall.output_macro s positive : Option (α × α × α)) = some
        (spec_mean ((positive.filter (fun l =>
            decide (0 < (s.m_stat.getD l 0).num_prediction ∨
              0 < (s.m_stat.getD l 0).num_reference))).map (fun l =>
            spec_ratio (s.m_stat.getD l 0).num_match (s.m_stat.getD l 0).num_prediction)),
         spec_mean ((positive.filter (fun l =>
            decide (0 < (s.m_stat.getD l 0).num_prediction ∨
              0 < (s.m_stat.getD l 0).num_reference))).map (fun l =>
            spec_ratio (s.m_stat.getD l 0).num_match (s.m_stat.getD l 0).num_reference)),
         spec_mean ((positive.filter (fun l =>
            decide (0 < (s.m_stat.getD l 0).num_prediction ∨
              0 < (s.m_stat.getD l 0).num_reference))).map (fun l =>
            spec_f1
              (spec_ratio (s.m_stat.getD l 0).num_match (s.m_stat.getD l 0).num_prediction)
              (spec_ratio (s.m_stat.getD l 0).num_match
                (s.m_stat.getD l 0).num_reference)))) := by
    unfold precall.output_macro
    rw [output_macro_fold]
    generalize positive.filter (fun l =>
            decide (0 < (s.m_stat.getD l 0).num_prediction ∨
              0 < (s.m_stat.getD l 0).num_reference)) = sel
    cases sel with
    | nil => simp [spec_mean]
    | cons a rest =>
      have hpos : (0 : Int) < 0 + (((a :: rest).length : Nat) : Int) := by
        simp only [List.length_cons]
        omega
      have hne : (((0 : Int) + (((a :: rest).length : Nat) : Int) : Int) : α) ≠ 0 :=
        Int.cast_ne_zero.mpr (ne_of_gt hpos)
      simp only [Option.bind_eq_bind, Option.some_bind, hpos, if_true, double_div, hne,
        if_false, Option.pure_def]
      simp [spec_mean]
  refine ⟨key, ?_⟩
  intro hnone
  rw [key]
  have hsel : positive.filter (fun l =>
            decide (0 < (s.m_stat.getD l 0).num_prediction ∨
              0 < (s.m_stat.getD l 0).num_reference)) = [] := by
    rw [List.filter_eq_nil_iff]
    intro l hl
    simpa using hnone l hl
  rw [hsel]
  simp [spec_mean]

/-! ## Fold assignment: `split_data` -/

theorem split_data_loop_groups {α : Type} (split : Int) (hsplit : 1 ≤ split) (l : List (Instance α))
    (i : Nat) :
    (split_data_loop split i l).map (fun it => it.group) =
      (List.range' i l.length).map (fun (j : Nat) => (j : Int) % split) := by
  induction l generalizing i with
  | nil => rfl
  | cons it rest ih =>
    rw [split_data_loop, List.map_cons, ih, List.length_cons, List.range'_succ, List.map_cons]
    simp only
    rw [Int.tmod_eq_emod (Int.ofNat_nonneg i) (by omega)]

theorem split_data_loop_candidates {α : Type} (split : Int) (l : List (Instance α)) (i : Nat) :
    (split_data_loop split i l).map (fun it => it.candidates) =
      l.map (fun it => it.candidates) := by
  induction l generalizing i with
  | nil => rfl
  | cons it rest ih =>
    rw [split_data_loop, List.map_cons, ih, List.map_cons]

/-- C20: for every data set of `m` instances and every split count `N ≥ 1`,
`split_data` assigns to the instance at index `i` (in order, from 0) the group
`i mod N`, changes nothing else, and returns `N`; for `N = 3` and `m = 10` the
groups are `[0, 1, 2, 0, 1, 2, 0, 1, 2, 0]`. -/
theorem split_data_round_robin {α : Type} (data : data_type α)
    (opt : option) (hsplit : 1 ≤ opt.split) :
    (split_data data opt).2 = opt.split ∧
    (split_data data opt).1.instances.length = data.instances.length ∧
    (split_data data opt).1.instances.map (fun it => it.group) =
      (List.range data.instances.length).map (fun (i : Nat) => (i : Int) % opt.split) ∧
    (∀ i : Nat, i < data.instances.length →
      ((split_data data opt).1.instances.get? i).map (fun it => it.group) =
        some ((i : Int) % opt.split)) ∧
    (split_data data opt).1.instances.map (fun it => it.candidates) =
      data.instances.map (fun it => it.candidates) ∧
    (opt.split = 3 → data.instances.length = 10 →
      (split_data data opt).1.instances.map (fun it => it.group) =
        [0, 1, 2, 0, 1, 2, 0, 1, 2, 0]) := by
  have hgroups : (split_data data opt).1.instances.map (fun it => it.group) =
      (List.range data.instances.length).map (fun (i : Nat) => (i : Int) % opt.split) := by
    unfold split_data
    simp only
    rw [split_data_loop_groups opt.split hsplit, List.range_eq_range']
  have hlen : (split_data data opt).1.instances.length = data.instances.length := by
    have := congrArg List.length hgroups
    simpa using this
  refine ⟨rfl, hlen, hgroups, ?_, ?_, ?_⟩
  · intro i hi
    have h1 : ((split_data data opt).1.instances.map (fun it => it.group)).get? i =
        some ((i : Int) % opt.split) := by
      rw [hgroups, List.get?_eq_getElem?, List.getElem?_map,
        List.getElem?_range hi]
      rfl
    rw [List.get?_eq_getElem?, List.getElem?_map] at h1
    rw [List.get?_eq_getElem?]
    exact h1
  · unfold split_data
    simp only
    exact split_data_loop_candidates opt.split data.instances 0
  · intro h3 h10
    rw [hgroups, h3, h10]
    decide

/-- Ten instances split three ways. -/
theorem split_data_round_robin_witness :
    (1 : Int) ≤ ({ option.ctor with split := 3 } : option).split ∧
    (split_data
      ({ instances := List.replicate 10 { candidates := [], group := 7 },
         forward := fun _ _ => 0, num_features := 0, user_feature_start := 0 } : data_type ℚ)
      { option.ctor with split := 3 }).2 = 3 ∧
    (split_data
      ({ instances := List.replicate 10 { candidates := [], group := 7 },
         forward := fun _ _ => 0, num_features := 0, user_feature_start := 0 } : data_type ℚ)
      { option.ctor with split := 3 }).1.instances.map (fun it => it.group) =
        [0, 1, 2, 0, 1, 2, 0, 1, 2, 0] :=
  ⟨by decide,
    (split_data_round_robin
      ({ instances := List.replicate 10 { candidates := [], group := 7 },
         forward := fun _ _ => 0, num_features := 0, user_feature_start := 0 } : data_type ℚ)
      { option.ctor with split := 3 } (by decide)).1,
    (split_data_round_robin
      ({ instances := List.replicate 10 { candidates := [], group := 7 },
         forward := fun _ _ => 0, num_features := 0, user_feature_start := 0 } : data_type ℚ)
      { option.ctor with split := 3 } (by decide)).2.2.2.2.2 rfl rfl⟩

/-! ## The front end: tokens and lines -/

section token_lemmas

variable {α : Type} [LinearOrderedField α]

theorem rfind_none_iff (c : Char) (s : List Char) : rfind c s = none ↔ c ∉ s := by
  induction s with
  | nil => simp [rfind]
  | cons x xs ih =>
    rw [rfind]
    rcases h : rfind c xs with _ | k
    · have hc : c ∉ xs := ih.mp h
      by_cases hx : x = c
      · simp [hx]
      · have hx' : ¬ c = x := fun e => hx e.symm
        simp [hx, hc, hx']
    · have hc : c ∈ xs := by
        by_contra hn
        rw [ih.mpr hn] at h
        exact Option.noConfusion h
      simp [hc]

theorem rfind_some (c : Char) (s : List Char) (k : Nat) (h : rfind c s = some k) :
    s = s.take k ++ c :: s.drop (k + 1) ∧ c ∉ s.drop (k + 1) := by
  induction s generalizing k with
  | nil => simp [rfind] at h
  | cons x xs ih =>
    rw [rfind] at h
    rcases h' : rfind c xs with _ | j
    · rw [h'] at h
      by_cases hx : x = c
      · simp only [hx, if_true, Option.some.injEq] at h
        subst h
        subst hx
        simp only [List.take_zero, List.nil_append, zero_add, List.drop_succ_cons,
          List.drop_zero, true_and]
        exact (rfind_none_iff x xs).mp h'
      · simp [hx] at h
    · rw [h'] at h
      simp only [Option.some.injEq] at h
      subst h
      obtain ⟨h1, h2⟩ := ih j h'
      simp only [List.take_succ_cons, List.drop_succ_cons, List.cons_append]
      exact ⟨by rw [← h1], h2⟩

theorem get_name_value_sep_none (atof : String → α) (str : String) (sep : Char)
    (h : sep ∉ str.toList) : get_name_value_sep atof str sep = (str, 1) := by
  unfold get_name_value_sep
  rw [(rfind_none_iff sep str.toList).mpr h]

theorem get_name_value_sep_some (atof : String → α) (str : String) (sep : Char)
    (h : sep ∈ str.toList) :
    ∃ suffix : String,
      (get_name_value_sep atof str sep).1 ++ String.singleton sep ++ suffix = str ∧
      sep ∉ suffix.toList ∧
      (get_name_value_sep atof str sep).2 = atof suffix := by
  unfold get_name_value_sep
  rcases hr : rfind sep str.toList with _ | col
  · exact absurd h ((rfind_none_iff sep str.toList).mp hr)
  · obtain ⟨h1, h2⟩ := rfind_some sep str.toList col hr
    refine ⟨String.mk (str.toList.drop (col + 1)), ?_, h2, rfl⟩
    simp only
    apply String.ext
    simp only [String.append_assoc, String.data_append, String.singleton]
    simpa using h1.symm

theorem get_name_value_eq_sep (atof : String → α) (str : String) :
    get_name_value atof str = get_name_value_sep atof str ':' := rfl

end token_lemmas

/-- C21: for every token string, `get_name_value` returns the whole string as
name and the value `1.0` when the string contains no colon; otherwise the name
is the part before the rightmost colon (name, colon and the rest reproduce the
token, and the rest contains no colon) and the value is `atof` of the text
after that colon. -/
theorem get_name_value_spec {α : Type} [LinearOrderedField α] (atof : String → α)
    (str : String) :
    (':' ∉ str.toList → get_name_value atof str = (str, 1)) ∧
    (':' ∈ str.toList → ∃ suffix : String,
      (get_name_value atof str).1 ++ ":" ++ suffix = str ∧
      ':' ∉ suffix.toList ∧
      (get_name_value atof str).2 = atof suffix) := by
  rw [get_name_value_eq_sep]
  exact ⟨get_name_value_sep_none atof str ':', get_name_value_sep_some atof str ':'⟩

/-- C22: for every line whose first token is not empty, the binary `read_line`
sets the label to true when the name part of the token is `+1` or `1`, to
false when it is `-1`, and throws `invalid_data` if and only if the name part
is none of the three; the weight is the value of the token: `atof` of the text
after the rightmost separator (the colon), and `1.0` for a token without
separator. -/
theorem binary_read_line_label {α : Type} [LinearOrderedField α]
    (tokenize : String → Char → List String) (atof : String → α) (line : String)
    (inst : binary_instance α) (features : quark) (opt : train_option α) (lines : Int)
    (tok : String) (rest : List String)
    (htok : tokenize line opt.token_separator = tok :: rest) (hne : tok ≠ "") :
    ((get_name_value_sep atof tok opt.value_separator).1 = "+1" ∨
        (get_name_value_sep atof tok opt.value_separator).1 = "1" →
      ∃ r, binary.read_line tokenize atof line inst features opt lines = Except.ok r ∧
        r.1.label = true ∧
        r.1.weight = (get_name_value_sep atof tok opt.value_separator).2) ∧
    ((get_name_value_sep atof tok opt.value_separator).1 = "-1" →
      ∃ r, binary.read_line tokenize atof line inst features opt lines = Except.ok r ∧
        r.1.label = false ∧
        r.1.weight = (get_name_value_sep atof tok opt.value_separator).2) ∧
    ((∃ e, binary.read_line tokenize atof line inst features opt lines = Except.error e) ↔
      ¬ ((get_name_value_sep atof tok opt.value_separator).1 = "+1" ∨
         (get_name_value_sep atof tok opt.value_separator).1 = "1" ∨
         (get_name_value_sep atof tok opt.value_separator).1 = "-1")) ∧
    (opt.value_separator = ':' →
      get_name_value_sep atof tok opt.value_separator = get_name_value atof tok) ∧
    (opt.value_separator ∉ tok.toList →
      (get_name_value_sep atof tok opt.value_separator).1 = tok ∧
      (get_name_value_sep atof tok opt.value_separator).2 = 1) ∧
    (opt.value_separator ∈ tok.toList → ∃ suffix : String,
      (get_name_value_sep atof tok opt.value_separator).1 ++
        String.singleton opt.value_separator ++ suffix = tok ∧
      (get_name_value_sep atof tok opt.value_separator).2 = atof suffix) := by
  refine ⟨?_, ?_, ?_, ?_, ?_, ?_⟩
  · intro h
    unfold binary.read_line
    rw [htok]
    simp only [hne, if_false, h, if_true]
    exact ⟨_, rfl, rfl, rfl⟩
  · intro h
    have h1 : ¬ ((get_name_value_sep atof tok opt.value_separator).1 = "+1" ∨
        (get_name_value_sep atof tok opt.value_separator).1 = "1") := by
      rw [h]
      decide
    unfold binary.read_line
    rw [htok]
    simp only [hne, if_false, h1, h, if_true]
    exact ⟨_, rfl, rfl, rfl⟩
  · unfold binary.read_line
    rw [htok]
    simp only [hne, if_false]
    by_cases h1 : (get_name_value_sep atof tok opt.value_separator).1 = "+1" ∨
        (get_name_value_sep atof tok opt.value_separator).1 = "1"
    · simp only [h1, if_true]
      constructor
      · rintro ⟨e, he⟩
        exact Except.noConfusion he
      · intro hn
        exact absurd (by tauto) hn
    · by_cases h2 : (get_name_value_sep atof tok opt.value_separator).1 = "-1"
      · simp only [h1, if_false, h2, if_true]
        constructor
        · rintro ⟨e, he⟩
          exact Except.noConfusion he
        · intro hn
          exact absurd (by tauto) hn
      · simp only [h1, if_false, h2]
        constructor
        · intro _
          tauto
        · intro _
          exact ⟨_, rfl⟩
  · intro h
    rw [h, get_name_value_eq_sep]
  · intro h
    rw [get_name_value_sep_none atof tok _ h]
    exact ⟨rfl, rfl⟩
  · intro h
    obtain ⟨suffix, h1, _, h3⟩ := get_name_value_sep_some atof tok _ h
    exact ⟨suffix, h1, h3⟩

/-- The line `+1:2` followed by the attribute `A`: the label is true and the
weight is the value parsed after the colon. -/
theorem binary_read_line_label_witness :
    example_tokenize "+1:2\tA" (example_option (0 : ℚ)).token_separator = "+1:2" :: ["A"] ∧
    "+1:2" ≠ "" ∧
    (∃ r, binary.read_line example_tokenize (fun _ => (7 : ℚ)) "+1:2\tA"
        binary_instance.ctor { items := [] } (example_option 0) 1 = Except.ok r ∧
      r.1.label = true ∧
      r.1.weight = (get_name_value_sep (fun _ => (7 : ℚ)) "+1:2"
        (example_option (0 : ℚ)).value_separator).2) :=
  ⟨by decide, by decide,
    (binary_read_line_label example_tokenize (fun _ => (7 : ℚ)) "+1:2\tA" binary_instance.ctor
      { items := [] } (example_option 0) 1 "+1:2" ["A"] (by decide) (by decide)).1
      (Or.inl (by decide))⟩

/-! ## The front end: `read_stream` -/

section stream_lemmas

variable {α : Type} [LinearOrderedField α]

theorem read_stream_loop_append_ok {ι σ : Type}
    (rl : String → ι → σ → Int → Except invalid_data (ι × σ)) (fresh : ι)
    (pre post : List String) (n : Int) (data : List ι × σ)
    (h : (read_stream_loop rl fresh pre n data).2 = none) :
    read_stream_loop rl fresh (pre ++ post) n data =
      read_stream_loop rl fresh post (n + (pre.length : Int))
        (read_stream_loop rl fresh pre n data).1 := by
  induction pre generalizing n data with
  | nil => simp [read_stream_loop]
  | cons line rest ih =>
    have hn : n + ((line :: rest).length : Int) = n + 1 + (rest.length : Int) := by
      simp only [List.length_cons, Nat.cast_add, Nat.cast_one]
      ring
    rw [hn]
    simp only [List.cons_append, read_stream_loop] at h ⊢
    split_ifs at h ⊢ with h1 h2
    · exact ih _ _ h
    · exact ih _ _ h
    · rcases hr : rl line fresh data.2 (n + 1) with e | r
      · rw [hr] at h
        simp at h
      · rw [hr] at h
        simp only at h ⊢
        exact ih _ _ h

theorem read_stream_loop_reject {ι σ : Type}
    (rl : String → ι → σ → Int → Except invalid_data (ι × σ)) (fresh : ι)
    (line : String) (post : List String) (n : Int) (data : List ι × σ) (e : invalid_data)
    (h1 : line ≠ "") (h2 : ¬ line.toList.take 1 = ['#'])
    (he : rl line fresh data.2 (n + 1) = Except.error e) :
    read_stream_loop rl fresh (line :: post) n data = ((data.1 ++ [fresh], data.2), some e) := by
  simp only [read_stream_loop, h1, h2, if_false, he]

theorem binary_read_line_reject (tokenize : String → Char → List String) (atof : String → α)
    (line : String) (inst : binary_instance α) (features : quark) (opt : train_option α)
    (lines : Int)
    (h : tokenize line opt.token_separator = [] ∨
      ∃ rest, tokenize line opt.token_separator = "" :: rest) :
    ∃ msg, binary.read_line tokenize atof line inst features opt lines =
      Except.error { msg := msg, line := some line, lines := some lines } := by
  unfold binary.read_line
  rcases h with h | ⟨rest, h⟩
  · rw [h]
    exact ⟨_, rfl⟩
  · rw [h]
    simp only [if_true]
    exact ⟨_, rfl⟩

end stream_lemmas

/-- C23: when the binary `read_stream` has accepted the lines before it and
meets a line that is neither empty nor a comment and that has no field, or
whose first token is empty, it throws `invalid_data` carrying that line and its
1-based number, counted over all lines delivered so far (empty lines and
comments included); what follows the line in the input has no influence on the
result: no further line is read. -/
theorem read_stream_rejects_line {α : Type} [LinearOrderedField α]
    (tokenize : String → Char → List String) (atof : String → α)
    (before input input₂ : String) (data : binary_data α) (opt : train_option α) (group : Int)
    (pre post post₂ : List String) (line : String)
    (hbefore : getline_lines before.toList [] = pre)
    (hok : (binary.read_stream tokenize atof before data opt group).2 = none)
    (hinput : getline_lines input.toList [] = pre ++ line :: post)
    (hinput₂ : getline_lines input₂.toList [] = pre ++ line :: post₂)
    (hline : line ≠ "" ∧ ¬ line.toList.take 1 = ['#'])
    (hbad : tokenize line opt.token_separator = [] ∨
      ∃ rest, tokenize line opt.token_separator = "" :: rest) :
    (∃ msg, (binary.read_stream tokenize atof input data opt group).2 =
      some { msg := msg, line := some line, lines := some ((pre.length : Int) + 1) }) ∧
    binary.read_stream tokenize atof input₂ data opt group =
      binary.read_stream tokenize atof input data opt group := by
  unfold binary.read_stream at hok ⊢
  rw [hinput, hinput₂]
  rw [hbefore] at hok
  by_cases hb : opt.bias ≠ 0
  · by_cases hid : ((data.attributes.call "__BIAS__").2 : Int) ≠ 0
    · rw [if_pos hb, if_pos hid] at hok
      exact absurd hok (by simp)
    · rw [if_pos hb, if_neg hid] at hok
      rw [if_pos hb, if_neg hid, if_pos hb, if_neg hid]
      simp only at hok ⊢
      obtain ⟨msg, hmsg⟩ := binary_read_line_reject tokenize atof line
        { (binary_instance.ctor : binary_instance α) with group := group }
        (read_stream_loop
          (fun line inst q lines => binary.read_line tokenize atof line inst q opt lines)
          { (binary_instance.ctor : binary_instance α) with group := group } pre 0
          (data.instances, (data.attributes.call "__BIAS__").1)).1.2 opt
        (0 + (pre.length : Int) + 1) hbad
      rw [read_stream_loop_append_ok _ _ pre (line :: post) 0 _ hok,
        read_stream_loop_append_ok _ _ pre (line :: post₂) 0 _ hok,
        read_stream_loop_reject _ _ line post _ _ _ hline.1 hline.2 hmsg,
        read_stream_loop_reject _ _ line post₂ _ _ _ hline.1 hline.2 hmsg]
      refine ⟨⟨msg, ?_⟩, rfl⟩
      simp
  · rw [if_neg hb] at hok
    rw [if_neg hb, if_neg hb]
    simp only at hok ⊢
    obtain ⟨msg, hmsg⟩ := binary_read_line_reject tokenize atof line
      { (binary_instance.ctor : binary_instance α) with group := group }
      (read_stream_loop
        (fun line inst q lines => binary.read_line tokenize atof line inst q opt lines)
        { (binary_instance.ctor : binary_instance α) with group := group } pre 0
        (data.instances, data.attributes)).1.2 opt
      (0 + (pre.length : Int) + 1) hbad
    rw [read_stream_loop_append_ok _ _ pre (line :: post) 0 _ hok,
      read_stream_loop_append_ok _ _ pre (line :: post₂) 0 _ hok,
      read_stream_loop_reject _ _ line post _ _ _ hline.1 hline.2 hmsg,
      read_stream_loop_reject _ _ line post₂ _ _ _ hline.1 hline.2 hmsg]
    refine ⟨⟨msg, ?_⟩, rfl⟩
    simp

/-- A comment and an accepted line, then a line whose first token is empty:
the error carries the line number 3. -/
theorem read_stream_rejects_line_witness :
    getline_lines "1\tA\n# c\n".toList [] = ["1\tA", "# c"] ∧
    (binary.read_stream example_tokenize (fun _ => (7 : ℚ)) "1\tA\n# c\n" example_binary_data
      (example_option 0) 0).2 = none ∧
    getline_lines "1\tA\n# c\n\tB\n1\tC\n".toList [] = ["1\tA", "# c"] ++ "\tB" :: ["1\tC"] ∧
    getline_lines "1\tA\n# c\n\tB\n".toList [] = ["1\tA", "# c"] ++ "\tB" :: [] ∧
    ("\tB" ≠ "" ∧ ¬ "\tB".toList.take 1 = ['#']) ∧
    (example_tokenize "\tB" (example_option (0 : ℚ)).token_separator = [] ∨
      ∃ rest, example_tokenize "\tB" (example_option (0 : ℚ)).token_separator = "" :: rest) ∧
    ((∃ msg, (binary.read_stream example_tokenize (fun _ => (7 : ℚ)) "1\tA\n# c\n\tB\n1\tC\n"
        example_binary_data (example_option 0) 0).2 =
      some { msg := msg, line := some "\tB",
             lines := some (((["1\tA", "# c"] : List String).length : Int) + 1) }) ∧
     binary.read_stream example_tokenize (fun _ => (7 : ℚ)) "1\tA\n# c\n\tB\n"
        example_binary_data (example_option 0) 0 =
      binary.read_stream example_tokenize (fun _ => (7 : ℚ)) "1\tA\n# c\n\tB\n1\tC\n"
        example_binary_data (example_option 0) 0) :=
  ⟨by decide, rfl, by decide, by decide, ⟨by decide, by decide⟩,
    Or.inr ⟨["B"], by decide⟩,
    read_stream_rejects_line example_tokenize (fun _ => (7 : ℚ)) "1\tA\n# c\n"
      "1\tA\n# c\n\tB\n1\tC\n" "1\tA\n# c\n\tB\n" example_binary_data (example_option 0) 0
      ["1\tA", "# c"] ["1\tC"] [] "\tB" (by decide) rfl (by decide) (by decide)
      ⟨by decide, by decide⟩ (Or.inr ⟨["B"], by decide⟩)⟩

/-- C24 (the code at a failing input): the input `1 TAB A`, newline,
`-1 TAB B` has two lines that are neither empty nor comments, the second one
not terminated by a newline.  `read_stream` throws nothing and appends one
instance only, in the binary and in the multi-class task: the `getline` that
reads the last line reaches the end of the input and the loop is left on
`is.eof()` before the line is used.  With a final newline two instances are
appended. -/
theorem read_stream_drops_unterminated_line :
    getline_lines "1\tA\n-1\tB".toList [] = ["1\tA"] ∧
    (binary.read_stream example_tokenize (fun _ => (7 : ℚ)) "1\tA\n-1\tB" example_binary_data
      (example_option 0) 0).2 = none ∧
    (binary.read_stream example_tokenize (fun _ => (7 : ℚ)) "1\tA\n-1\tB" example_binary_data
      (example_option 0) 0).1.instances.map (fun i => (i.label, i.features)) =
        [(true, [(0, 1)])] ∧
    (binary.read_stream example_tokenize (fun _ => (7 : ℚ)) "1\tA\n-1\tB\n" example_binary_data
      (example_option 0) 0).1.instances.map (fun i => (i.label, i.features)) =
        [(true, [(0, 1)]), (false, [(1, 1)])] ∧
    (multi.read_stream example_tokenize (fun _ => (7 : ℚ)) "1\tA\n-1\tB" example_multi_data
      (example_option 0) 0).2 = none ∧
    (multi.read_stream example_tokenize (fun _ => (7 : ℚ)) "1\tA\n-1\tB" example_multi_data
      (example_option 0) 0).1.instances.map (fun i => (i.label, i.attributes)) =
        [(0, [(0, 1)])] ∧
    (multi.read_stream example_tokenize (fun _ => (7 : ℚ)) "1\tA\n-1\tB\n" example_multi_data
      (example_option 0) 0).1.instances.map (fun i => (i.label, i.attributes)) =
        [(0, [(0, 1)]), (1, [(1, 1)])] := by
  refine ⟨by decide, rfl, by decide, by decide, rfl, by decide, by decide⟩

/-! ## The front end: the bias feature -/

section bias_lemmas

variable {α : Type} [LinearOrderedField α]

theorem quark_call_head (q : quark) (name s : String) (h : q.items.head? = some s) :
    (q.call name).1.items.head? = some s := by
  unfold quark.call
  split_ifs
  · exact h
  · cases hq : q.items with
    | nil => rw [hq] at h; simp at h
    | cons a rest => rw [hq] at h; simpa using h

theorem quark_call_of_head (q : quark) (name : String) (h : q.items.head? = some name) :
    q.call name = (q, 0) := by
  cases hq : q.items with
  | nil => rw [hq] at h; simp at h
  | cons a rest =>
    rw [hq] at h
    have ha : a = name := by simpa using h
    unfold quark.call
    rw [hq, ha]
    simp

theorem quark_call_zero (q : quark) (name : String) (h : ((q.call name).2 : Int) = 0) :
    (q.call name).1.items.head? = some name := by
  unfold quark.call at h ⊢
  split_ifs at h ⊢ with hm
  · cases hq : q.items with
    | nil => rw [hq] at hm; simp at hm
    | cons a rest =>
      rw [hq] at h
      simp only [Nat.cast_eq_zero] at h
      by_cases ha : a = name
      · simp [ha]
      · have hne : ¬ (a == name) = true := by simpa using ha
        simp [List.indexOf_cons, hne] at h
  · simp only [Nat.cast_eq_zero, List.length_eq_zero] at h
    simp [h]

theorem read_line_features_head (atof : String → α) (opt : train_option α)
    (toks : List String) (st : List (Nat × α) × quark) (s : String)
    (h : st.2.items.head? = some s) :
    (read_line_features atof opt toks st).2.items.head? = some s := by
  induction toks generalizing st with
  | nil => exact h
  | cons tok rest ih =>
    rw [read_line_features]
    simp only
    split_ifs <;> first
      | exact ih _ h
      | exact ih (_, _) (quark_call_head _ _ _ h)

theorem read_line_bias_last (opt : train_option α) (st : List (Nat × α) × quark)
    (hb : opt.bias ≠ 0) (h : st.2.items.head? = some "__BIAS__") :
    (read_line_bias opt st).1.getLast? = some (0, opt.bias) ∧
    (read_line_bias opt st).2.items.head? = some "__BIAS__" := by
  unfold read_line_bias
  rw [if_pos hb, quark_call_of_head _ _ h]
  simp [h]

theorem binary_read_line_bias (tokenize : String → Char → List String) (atof : String → α)
    (line : String) (inst : binary_instance α) (features : quark) (opt : train_option α)
    (lines : Int) (hb : opt.bias ≠ 0) (h : features.items.head? = some "__BIAS__")
    (r : binary_instance α × quark)
    (hr : binary.read_line tokenize atof line inst features opt lines = Except.ok r) :
    r.1.features.getLast? = some (0, opt.bias) ∧ r.2.items.head? = some "__BIAS__" := by
  unfold binary.read_line at hr
  have key := read_line_bias_last opt
  rcases ht : tokenize line opt.token_separator with _ | ⟨tok, rest⟩
  · rw [ht] at hr
    cases hr
  · rw [ht] at hr
    simp only at hr
    split_ifs at hr <;> cases hr <;>
      exact key _ hb (read_line_features_head atof opt rest _ _ h)

theorem binary_read_line_error_lines (tokenize : String → Char → List String)
    (atof : String → α) (line : String) (inst : binary_instance α) (features : quark)
    (opt : train_option α) (lines : Int) (e : invalid_data)
    (he : binary.read_line tokenize atof line inst features opt lines = Except.error e) :
    e.lines = some lines := by
  unfold binary.read_line at he
  rcases ht : tokenize line opt.token_separator with _ | ⟨tok, rest⟩
  · rw [ht] at he
    cases he
    rfl
  · rw [ht] at he
    simp only at he
    split_ifs at he <;> cases he <;> rfl

theorem multi_read_line_bias (tokenize : String → Char → List String) (atof : String → α)
    (line : String) (inst : multi_instance α) (quarks : quark × quark)
    (opt : train_option α) (lines : Int) (hb : opt.bias ≠ 0)
    (h : quarks.1.items.head? = some "__BIAS__")
    (r : multi_instance α × (quark × quark))
    (hr : multi.read_line tokenize atof line inst quarks opt lines = Except.ok r) :
    r.1.attributes.getLast? = some (0, opt.bias) ∧ r.2.1.items.head? = some "__BIAS__" := by
  unfold multi.read_line at hr
  have key := read_line_bias_last opt
  rcases ht : tokenize line opt.token_separator with _ | ⟨tok, rest⟩
  · rw [ht] at hr
    cases hr
  · rw [ht] at hr
    simp only at hr
    split_ifs at hr
    cases hr
    exact key _ hb (read_line_features_head atof opt rest _ _ h)

theorem multi_read_line_error_lines (tokenize : String → Char → List String)
    (atof : String → α) (line : String) (inst : multi_instance α) (quarks : quark × quark)
    (opt : train_option α) (lines : Int) (e : invalid_data)
    (he : multi.read_line tokenize atof line inst quarks opt lines = Except.error e) :
    e.lines = some lines := by
  unfold multi.read_line at he
  rcases ht : tokenize line opt.token_separator with _ | ⟨tok, rest⟩
  · rw [ht] at he
    cases he
    rfl
  · rw [ht] at he
    simp only at he
    split_ifs at he
    cases he
    rfl

theorem read_stream_loop_inv {ι σ : Type}
    (rl : String → ι → σ → Int → Except invalid_data (ι × σ)) (fresh : ι)
    (Inv : σ → Prop) (Good : ι → Prop)
    (hok : ∀ line q n r, Inv q → rl line fresh q n = Except.ok r → Good r.1 ∧ Inv r.2)
    (herr : ∀ line q n e, rl line fresh q n = Except.error e → e.lines = some n)
    (lines : List String) (n : Int) (data : List ι × σ) (hinv : Inv data.2) :
    ∃ new : List ι,
      (read_stream_loop rl fresh lines n data).1.1 = data.1 ++ new ∧
      ((read_stream_loop rl fresh lines n data).2 = none → ∀ x ∈ new, Good x) ∧
      (∀ x ∈ new, Good x ∨ x = fresh) ∧
      (∀ e, (read_stream_loop rl fresh lines n data).2 = some e → e.lines ≠ none) := by
  induction lines generalizing n data with
  | nil =>
    refine ⟨[], by simp [read_stream_loop], ?_, ?_, ?_⟩
    · intro _ x hx
      simp at hx
    · intro x hx
      simp at hx
    · intro e he
      simp [read_stream_loop] at he
  | cons line rest ih =>
    simp only [read_stream_loop]
    split_ifs with h1 h2
    · exact ih _ _ hinv
    · exact ih _ _ hinv
    · rcases hr : rl line fresh data.2 (n + 1) with e | r
      · refine ⟨[fresh], rfl, ?_, ?_, ?_⟩
        · intro h
          simp at h
        · intro x hx
          right
          simpa using hx
        · intro e' he'
          simp only [Option.some.injEq] at he'
          rw [← he', herr _ _ _ _ hr]
          simp
      · obtain ⟨hg, hi⟩ := hok _ _ _ _ hinv hr
        obtain ⟨new, h1', h2', h3', h4'⟩ := ih (n + 1) (data.1 ++ [r.1], r.2) hi
        refine ⟨r.1 :: new, ?_, ?_, ?_, h4'⟩
        · simp only at h1' ⊢
          rw [h1']
          simp
        · intro h x hx
          rcases List.mem_cons.mp hx with rfl | hx
          · exact hg
          · exact h2' h x hx
        · intro x hx
          rcases List.mem_cons.mp hx with rfl | hx
          · exact Or.inl hg
          · exact h3' x hx

end bias_lemmas

/-- C25: with the bias enabled (`opt.bias ≠ 0`), `read_stream` throws the error
of the bias attribute, before any line is read, if and only if interning
`__BIAS__` yields an id other than 0; otherwise every instance that it appends
for an accepted line ends with the pair `(0, opt.bias)` (all of them when no
line is rejected; a rejected line leaves the fresh instance), and in the binary
task the first user feature is 1.  With the bias disabled `read_line` appends
no bias feature and the first user feature is not changed. -/
theorem read_stream_bias {α γ : Type} [LinearOrderedField α]
    (tokenize : String → Char → List String) (atof : String → α) (input : String)
    (bdata : binary_data α) (mdata : multi_data α γ) (opt : train_option α) (group : Int) :
    (opt.bias ≠ 0 →
      (((bdata.attributes.call "__BIAS__").2 : Int) ≠ 0 ↔
        (binary.read_stream tokenize atof input bdata opt group).2 =
          some { msg := "A bias attribute could not obtain #0", line := none, lines := none }) ∧
      (((bdata.attributes.call "__BIAS__").2 : Int) ≠ 0 →
        (binary.read_stream tokenize atof input bdata opt group).1.instances =
          bdata.instances) ∧
      (((bdata.attributes.call "__BIAS__").2 : Int) = 0 →
        (binary.read_stream tokenize atof input bdata opt group).1.user_feature_start = 1 ∧
        ∃ new : List (binary_instance α),
          (binary.read_stream tokenize atof input bdata opt group).1.instances =
            bdata.instances ++ new ∧
          ((binary.read_stream tokenize atof input bdata opt group).2 = none →
            ∀ x ∈ new, x.features.getLast? = some (0, opt.bias)) ∧
          (∀ x ∈ new, x.features.getLast? = some (0, opt.bias) ∨
            x = { (binary_instance.ctor : binary_instance α) with group := group })) ∧
      (((mdata.attributes.call "__BIAS__").2 : Int) ≠ 0 ↔
        (multi.read_stream tokenize atof input mdata opt group).2 =
          some { msg := "A bias attribute could not obtain #0", line := none, lines := none }) ∧
      (((mdata.attributes.call "__BIAS__").2 : Int) ≠ 0 →
        (multi.read_stream tokenize atof input mdata opt group).1.instances =
          mdata.instances) ∧
      (((mdata.attributes.call "__BIAS__").2 : Int) = 0 →
        ∃ new : List (multi_instance α),
          (multi.read_stream tokenize atof input mdata opt group).1.instances =
            mdata.instances ++ new ∧
          ((multi.read_stream tokenize atof input mdata opt group).2 = none →
            ∀ x ∈ new, x.attributes.getLast? = some (0, opt.bias)) ∧
          (∀ x ∈ new, x.attributes.getLast? = some (0, opt.bias) ∨
            x = { (multi_instance.ctor : multi_instance α) with group := group }))) ∧
    (opt.bias = 0 →
      (∀ st : List (Nat × α) × quark, read_line_bias opt st = st) ∧
      (binary.read_stream tokenize atof input bdata opt group).1.user_feature_start =
        bdata.user_feature_start) := by
  constructor
  · intro hb
    have hb_loop := read_stream_loop_inv
      (fun line inst q lines => binary.read_line tokenize atof line inst q opt lines)
      { (binary_instance.ctor : binary_instance α) with group := group }
      (fun q => q.items.head? = some "__BIAS__")
      (fun x => x.features.getLast? = some (0, opt.bias))
      (fun line q n r hq hr => binary_read_line_bias tokenize atof line _ q opt n hb hq r hr)
      (fun line q n e he => binary_read_line_error_lines tokenize atof line _ q opt n e he)
      (getline_lines input.toList []) 0
    have hm_loop := read_stream_loop_inv
      (fun line inst q lines => multi.read_line tokenize atof line inst q opt lines)
      { (multi_instance.ctor : multi_instance α) with group := group }
      (fun q => q.1.items.head? = some "__BIAS__")
      (fun x => x.attributes.getLast? = some (0, opt.bias))
      (fun line q n r hq hr => multi_read_line_bias tokenize atof line _ q opt n hb hq r hr)
      (fun line q n e he => multi_read_line_error_lines tokenize atof line _ q opt n e he)
      (getline_lines input.toList []) 0
    refine ⟨?_, ?_, ?_, ?_, ?_, ?_⟩
    · unfold binary.read_stream
      rw [if_pos hb]
      by_cases hid : ((bdata.attributes.call "__BIAS__").2 : Int) ≠ 0
      · rw [if_pos hid]
        exact ⟨fun _ => rfl, fun _ => hid⟩
      · rw [if_neg hid]
        constructor
        · intro h
          exact absurd h hid
        · intro h
          simp only at h
          obtain ⟨_, _, _, _, h4⟩ := hb_loop (bdata.instances, (bdata.attributes.call "__BIAS__").1)
            (quark_call_zero _ _ (not_not.mp hid))
          exact absurd rfl (h4 _ h)
    · intro hid
      unfold binary.read_stream
      rw [if_pos hb, if_pos hid]
    · intro hid
      have hid' : ¬ ((bdata.attributes.call "__BIAS__").2 : Int) ≠ 0 := not_not.mpr hid
      unfold binary.read_stream
      rw [if_pos hb, if_neg hid']
      simp only
      obtain ⟨new, h1, h2, h3, _⟩ := hb_loop (bdata.instances, (bdata.attributes.call "__BIAS__").1)
        (quark_call_zero _ _ hid)
      refine ⟨by rw [hid]; rfl, new, h1, h2, h3⟩
    · unfold multi.read_stream
      rw [if_pos hb]
      by_cases hid : ((mdata.attributes.call "__BIAS__").2 : Int) ≠ 0
      · rw [if_pos hid]
        exact ⟨fun _ => rfl, fun _ => hid⟩
      · rw [if_neg hid]
        constructor
        · intro h
          exact absurd h hid
        · intro h
          simp only at h
          obtain ⟨_, _, _, _, h4⟩ := hm_loop
            (mdata.instances, ((mdata.attributes.call "__BIAS__").1, mdata.labels))
            (quark_call_zero _ _ (not_not.mp hid))
          exact absurd rfl (h4 _ h)
    · intro hid
      unfold multi.read_stream
      rw [if_pos hb, if_pos hid]
    · intro hid
      have hid' : ¬ ((mdata.attributes.call "__BIAS__").2 : Int) ≠ 0 := not_not.mpr hid
      unfold multi.read_stream
      rw [if_pos hb, if_neg hid']
      simp only
      obtain ⟨new, h1, h2, h3, _⟩ := hm_loop
        (mdata.instances, ((mdata.attributes.call "__BIAS__").1, mdata.labels))
        (quark_call_zero _ _ hid)
      exact ⟨new, h1, h2, h3⟩
  · intro hb
    refine ⟨?_, ?_⟩
    · intro st
      unfold read_line_bias
      rw [if_neg (not_not.mpr hb)]
    · unfold binary.read_stream
      rw [if_neg (not_not.mpr hb)]

/-! ## The front end: `output_model`, `finalize_data`, `read_dataset`, options -/

/-- C26 (the code at a failing input): with the bias disabled (`opt.bias = 0`)
and a data set read from the line `1 TAB __BIAS__ TAB A`, whose attributes are
`__BIAS__` (id 0) and `A` (id 1), the model `[2, 3]` has no zero weight, and
the binary `output_model` writes after the header the line `0 TAB __BIAS__`:
the weight is tested before it is multiplied by `opt.bias`. -/
theorem output_model_writes_zero_weight :
    (binary.read_stream example_tokenize (fun _ => (7 : ℚ)) "1\t__BIAS__\tA\n"
      example_binary_data (example_option 0) 0).2 = none ∧
    (binary.read_stream example_tokenize (fun _ => (7 : ℚ)) "1\t__BIAS__\tA\n"
      example_binary_data (example_option 0) 0).1.attributes.items = ["__BIAS__", "A"] ∧
    (∀ k : Nat, k < 2 → ([2, 3] : List ℚ).getD k 0 ≠ 0) ∧
    binary.output_model
      (binary.read_stream example_tokenize (fun _ => (7 : ℚ)) "1\t__BIAS__\tA\n"
        example_binary_data (example_option 0) 0).1
      (fun k => ([2, 3] : List ℚ).getD k 0) (example_option 0) =
        ("@classias\tlinear\tbinary", [(0, "__BIAS__"), (3, "A")]) := by
  have hq : (binary.read_stream example_tokenize (fun _ => (7 : ℚ)) "1\t__BIAS__\tA\n"
      example_binary_data (example_option 0) 0).1.attributes =
        { items := ["__BIAS__", "A"] } := by
    decide
  refine ⟨rfl, by decide, ?_, ?_⟩
  · intro k hk
    interval_cases k <;> simp
  · unfold binary.output_model
    rw [hq]
    simp [quark.size, quark.to_item, List.range_succ, example_option]

theorem finalize_data_positive_fold {α γ : Type} (opt : train_option α) (ls : List Nat)
    (d : multi_data α γ) :
    ls.foldl
        (fun d l =>
          if ¬ (d.labels.to_item l ∈ opt.negative_labels) then d.append_positive_label l
          else d) d =
      { d with positive_labels := (d.positive_labels ++
          ls.filter (fun l => decide (¬ (d.labels.to_item l ∈ opt.negative_labels)))) } := by
  induction ls generalizing d with
  | nil => simp
  | cons l rest ih =>
    rw [List.foldl_cons]
    by_cases h : d.labels.to_item l ∈ opt.negative_labels
    · rw [if_neg (not_not.mpr h), ih, List.filter_cons_of_neg (by simpa using h)]
    · rw [if_pos h, ih, List.filter_cons_of_pos (by simpa using h)]
      simp [multi_data.append_positive_label]

theorem finalize_data_positive_eq {α γ : Type} (opt : train_option α) (d : multi_data α γ) :
    finalize_data_positive opt d =
      { d with positive_labels := (d.positive_labels ++
          (List.range d.num_labels).filter
            (fun l => decide (¬ (d.labels.to_item l ∈ opt.negative_labels)))) } := by
  unfold finalize_data_positive
  exact finalize_data_positive_fold opt _ d

theorem finalize_data_ok {α γ : Type} [LinearOrderedField α] (generate_bias_features : multi_data α γ → Int → γ)
    (generate_features : multi_data α γ → γ) (data : multi_data α γ) (opt : train_option α)
    (hok : (multi.finalize_data generate_bias_features generate_features data opt).2 = none) :
    (multi.finalize_data generate_bias_features generate_features data opt).1.positive_labels =
      data.positive_labels ++ (List.range data.num_labels).filter
        (fun l => decide (¬ (data.labels.to_item l ∈ opt.negative_labels))) ∧
    (multi.finalize_data generate_bias_features generate_features data opt).1.labels =
      data.labels ∧
    (multi.finalize_data generate_bias_features generate_features data opt).1.instances =
      data.instances ∧
    (multi.finalize_data generate_bias_features generate_features data opt).1.attributes =
      (if opt.bias ≠ 0 then (data.attributes.call "__BIAS__").1 else data.attributes) ∧
    (opt.bias ≠ 0 → ((data.attributes.call "__BIAS__").2 : Int) = 0) := by
  unfold multi.finalize_data at hok ⊢
  by_cases hb : opt.bias ≠ 0
  · by_cases hid : ((data.attributes.call "__BIAS__").2 : Int) ≠ 0
    · rw [if_pos hb, if_pos hid] at hok
      exact absurd hok (by simp)
    · rw [if_pos hb, if_neg hid, if_pos hb]
      simp only
      rw [finalize_data_positive_eq]
      exact ⟨rfl, rfl, rfl, rfl, fun _ => not_not.mp hid⟩
  · rw [if_neg hb, if_neg hb]
    simp only
    rw [finalize_data_positive_eq]
    exact ⟨rfl, rfl, rfl, rfl, fun h => absurd h hb⟩

/-- C27: after `finalize_data` has returned on a data set whose
`positive_labels` is empty (a freshly read one), `positive_labels` is the list
of the label ids of `[0, num_labels)` whose name is not a negative label, in
increasing order and without repetition. -/
theorem finalize_data_positive_labels {α γ : Type} [LinearOrderedField α]
    (generate_bias_features : multi_data α γ → Int → γ)
    (generate_features : multi_data α γ → γ) (data : multi_data α γ) (opt : train_option α)
    (hfresh : data.positive_labels = [])
    (hok : (multi.finalize_data generate_bias_features generate_features data opt).2 = none) :
    (multi.finalize_data generate_bias_features generate_features data opt).1.positive_labels =
      (List.range data.num_labels).filter
        (fun l => decide (¬ (data.labels.to_item l ∈ opt.negative_labels))) ∧
    (∀ l : Nat,
      l ∈ (multi.finalize_data generate_bias_features generate_features data
          opt).1.positive_labels ↔
        l < data.num_labels ∧ ¬ (data.labels.to_item l ∈ opt.negative_labels)) ∧
    (multi.finalize_data generate_bias_features generate_features data
      opt).1.positive_labels.Pairwise (fun a b => a < b) ∧
    (multi.finalize_data generate_bias_features generate_features data
      opt).1.positive_labels.Nodup := by
  have h := (finalize_data_ok generate_bias_features generate_features data opt hok).1
  rw [hfresh, List.nil_append] at h
  rw [h]
  refine ⟨rfl, ?_, ?_, ?_⟩
  · intro l
    simp [List.mem_filter, List.mem_range]
  · exact List.Pairwise.sublist (List.filter_sublist _) (List.pairwise_lt_range _)
  · exact List.Nodup.sublist (List.filter_sublist _) (List.nodup_range _)

/-- The labels `A`, `O`, `B` with the negative labels `-1` and `O`: the positive
labels are `0` and `2`. -/
theorem finalize_data_positive_labels_witness :
    ({ example_multi_data with labels := { items := ["A", "O", "B"] } } :
      multi_data ℚ Unit).positive_labels = [] ∧
    (multi.finalize_data (fun _ _ => ()) (fun _ => ())
      ({ example_multi_data with labels := { items := ["A", "O", "B"] } } : multi_data ℚ Unit)
      (example_option 0)).2 = none ∧
    (multi.finalize_data (fun _ _ => ()) (fun _ => ())
      ({ example_multi_data with labels := { items := ["A", "O", "B"] } } : multi_data ℚ Unit)
      (example_option 0)).1.positive_labels = [0, 2] :=
  ⟨rfl, by decide,
    ((finalize_data_positive_labels (fun _ _ => ()) (fun _ => ())
      ({ example_multi_data with labels := { items := ["A", "O", "B"] } } : multi_data ℚ Unit)
      (example_option 0) rfl (by decide)).1).trans (by decide)⟩

/-- C28 (as stated, refuted): on the labels `A`, `O`, `B` the first call of
`finalize_data` leaves the positive labels `[0, 2]` and the second call leaves
`[0, 2, 0, 2]`: every positive label is counted twice. -/
theorem finalize_data_twice_counterexample :
    (multi.finalize_data (fun _ _ => ()) (fun _ => ())
      ({ example_multi_data with labels := { items := ["A", "O", "B"] } } : multi_data ℚ Unit)
      (example_option 0)).1.positive_labels = [0, 2] ∧
    (multi.finalize_data (fun _ _ => ()) (fun _ => ())
      (multi.finalize_data (fun _ _ => ()) (fun _ => ())
        ({ example_multi_data with labels := { items := ["A", "O", "B"] } } : multi_data ℚ Unit)
        (example_option 0)).1
      (example_option 0)).1.positive_labels = [0, 2, 0, 2] ∧
    (multi.finalize_data (fun _ _ => ()) (fun _ => ())
      (multi.finalize_data (fun _ _ => ()) (fun _ => ())
        ({ example_multi_data with labels := { items := ["A", "O", "B"] } } : multi_data ℚ Unit)
        (example_option 0)).1
      (example_option 0)).1.positive_labels ≠
    (multi.finalize_data (fun _ _ => ()) (fun _ => ())
      ({ example_multi_data with labels := { items := ["A", "O", "B"] } } : multi_data ℚ Unit)
      (example_option 0)).1.positive_labels := by
  refine ⟨by decide, by decide, by decide⟩

/-- C28 (amended): a second call of `finalize_data` throws nothing and leaves
the instances, the attributes and the labels as the first call left them, but
it appends to `positive_labels` the positive labels once more; on a data set
whose `positive_labels` was empty the list after the second call is the list
after the first call twice over. -/
theorem finalize_data_twice {α γ : Type} [LinearOrderedField α]
    (generate_bias_features : multi_data α γ → Int → γ)
    (generate_features : multi_data α γ → γ) (data : multi_data α γ) (opt : train_option α)
    (hok : (multi.finalize_data generate_bias_features generate_features data opt).2 = none) :
    (multi.finalize_data generate_bias_features generate_features
      (multi.finalize_data generate_bias_features generate_features data opt).1 opt).2 = none ∧
    (multi.finalize_data generate_bias_features generate_features
      (multi.finalize_data generate_bias_features generate_features data opt).1
        opt).1.instances =
      (multi.finalize_data generate_bias_features generate_features data opt).1.instances ∧
    (multi.finalize_data generate_bias_features generate_features
      (multi.finalize_data generate_bias_features generate_features data opt).1
        opt).1.attributes =
      (multi.finalize_data generate_bias_features generate_features data opt).1.attributes ∧
    (multi.finalize_data generate_bias_features generate_features
      (multi.finalize_data generate_bias_features generate_features data opt).1
        opt).1.labels =
      (multi.finalize_data generate_bias_features generate_features data opt).1.labels ∧
    (multi.finalize_data generate_bias_features generate_features
      (multi.finalize_data generate_bias_features generate_features data opt).1
        opt).1.positive_labels =
      (multi.finalize_data generate_bias_features generate_features data
          opt).1.positive_labels ++
        (List.range data.num_labels).filter
          (fun l => decide (¬ (data.labels.to_item l ∈ opt.negative_labels))) ∧
    (data.positive_labels = [] →
      (multi.finalize_data generate_bias_features generate_features
        (multi.finalize_data generate_bias_features generate_features data opt).1
          opt).1.positive_labels =
        (multi.finalize_data generate_bias_features generate_features data
            opt).1.positive_labels ++
          (multi.finalize_data generate_bias_features generate_features data
            opt).1.positive_labels) := by
  obtain ⟨h1, h2, h3, h4, h5⟩ :=
    finalize_data_ok generate_bias_features generate_features data opt hok
  have hcall : opt.bias ≠ 0 →
      (multi.finalize_data generate_bias_features generate_features data
        opt).1.attributes.call "__BIAS__" =
      ((multi.finalize_data generate_bias_features generate_features data
        opt).1.attributes, 0) := by
    intro hb
    apply quark_call_of_head
    rw [h4, if_pos hb]
    exact quark_call_zero _ _ (h5 hb)
  have hok2 : (multi.finalize_data generate_bias_features generate_features
      (multi.finalize_data generate_bias_features generate_features data opt).1 opt).2 =
        none := by
    generalize multi.finalize_data generate_bias_features generate_features data opt = r
      at hcall
    unfold multi.finalize_data
    by_cases hb : opt.bias ≠ 0
    · rw [if_pos hb, hcall hb]
      simp
    · rw [if_neg hb]
  obtain ⟨k1, k2, k3, k4, _⟩ := finalize_data_ok generate_bias_features generate_features
    (multi.finalize_data generate_bias_features generate_features data opt).1 opt hok2
  have hnum : (multi.finalize_data generate_bias_features generate_features data
      opt).1.num_labels = data.num_labels := by
    unfold multi_data.num_labels
    rw [h2]
  refine ⟨hok2, k3, ?_, k2, ?_, ?_⟩
  · rw [k4]
    by_cases hb : opt.bias ≠ 0
    · rw [if_pos hb, hcall hb]
    · rw [if_neg hb]
  · rw [k1, hnum, h2]
  · intro hfresh
    rw [k1, hnum, h2]
    congr 1
    rw [h1, hfresh, List.nil_append]

/-- The labels `A`, `O`, `B`: the first call throws nothing, and the second
call doubles the positive labels. -/
theorem finalize_data_twice_witness :
    (multi.finalize_data (fun _ _ => ()) (fun _ => ())
      ({ example_multi_data with labels := { items := ["A", "O", "B"] } } : multi_data ℚ Unit)
      (example_option 0)).2 = none ∧
    (multi.finalize_data (fun _ _ => ()) (fun _ => ())
      (multi.finalize_data (fun _ _ => ()) (fun _ => ())
        ({ example_multi_data with labels := { items := ["A", "O", "B"] } } : multi_data ℚ Unit)
        (example_option 0)).1 (example_option 0)).2 = none :=
  ⟨by decide,
    (finalize_data_twice (fun _ _ => ()) (fun _ => ())
      ({ example_multi_data with labels := { items := ["A", "O", "B"] } } : multi_data ℚ Unit)
      (example_option 0) (by decide)).1⟩

/-- C29 (the code at a failing input): two files `a` and `b` of one line each,
no split count.  `read_dataset` returns 2, and the instance of the first file
has the group 0, that of the second file the group 1: `read_data` hands the
loop index `i`, which starts at 0, to `read_stream`, whereas the usage text
announces the group numbers `1...N`. -/
theorem read_dataset_groups_from_zero :
    "          be split into N groups and assigns a group number (1...N) to the" ∈
      usage "classias" ∧
    (read_dataset
      (fun file => if file = "a" then some "1\tA\n" else if file = "b" then some "-1\tB\n"
        else none) ""
      (fun input d g => binary.read_stream example_tokenize (fun _ => (7 : ℚ)) input d
        (example_option 0) g)
      (fun d _ => (d, 0)) example_binary_data
      { option.ctor with files := ["a", "b"] }).2 = Except.ok 2 ∧
    (read_dataset
      (fun file => if file = "a" then some "1\tA\n" else if file = "b" then some "-1\tB\n"
        else none) ""
      (fun input d g => binary.read_stream example_tokenize (fun _ => (7 : ℚ)) input d
        (example_option 0) g)
      (fun d _ => (d, 0)) example_binary_data
      { option.ctor with files := ["a", "b"] }).1.instances.map
        (fun i => (i.label, i.group)) = [(true, 0), (false, 1)] := by
  refine ⟨by decide, rfl, by decide⟩

/-- C30 (the code at a failing input): the usage text lists the algorithms
`maxent` (the default, which is also the value the option object starts with)
and `logress`, and the handler of `-a` throws `invalid_value` for both; the only
name it accepts is `MaxEnt`. -/
theorem option_algorithm_rejects_listed_names :
    "  -a, --algorithm=NAME  specify a training algorithm (DEFAULT=\x27maxent\x27)" ∈
      usage "classias" ∧
    "      maxent                maximum entropy modeling (for MSR)" ∈ usage "classias" ∧
    "      logress               logistic regression (for B)" ∈ usage "classias" ∧
    option.ctor.algorithm = "maxent" ∧
    optionparser.on_option_algorithm option.ctor "maxent" =
      Except.error { msg := "unknown training algorithm specified: maxent" } ∧
    optionparser.on_option_algorithm option.ctor "logress" =
      Except.error { msg := "unknown training algorithm specified: logress" } ∧
    optionparser.on_option_algorithm option.ctor "MaxEnt" =
      Except.ok { option.ctor with algorithm := "MaxEnt" } := by
  refine ⟨by decide, by decide, by decide, rfl, rfl, rfl, rfl⟩

/-! ## The trainer: determinism and order of the sweep -/

section sweep_lemmas

variable {α : Type} [LinearOrderedField α]

theorem zero_fold_apply (m : Nat → α) (n k : Nat) :
    (List.range n).foldl (fun m i => Function.update m i 0) m k =
      if k < n then 0 else m k := by
  induction n with
  | zero => simp
  | succ n ih =>
    rw [List.range_succ, List.foldl_append]
    simp only [List.foldl_cons, List.foldl_nil]
    by_cases hk : k = n
    · subst hk
      simp
    · rw [Function.update_noteq hk, ih]
      by_cases h2 : k < n
      · simp [h2, Nat.lt_succ_of_lt h2]
      · have : ¬ k < n + 1 := by omega
        simp [h2, this]

theorem lbfgs_evaluate_mexps_congr (forward : Nat → Nat → Int) (cands : List (Candidate α))
    (i k : Nat) (m m' : Nat → α) (h : m k = m' k) :
    lbfgs_evaluate_mexps forward i cands m k = lbfgs_evaluate_mexps forward i cands m' k := by
  induction cands generalizing i m m' with
  | nil => simpa [lbfgs_evaluate_mexps] using h
  | cons itc rest ih =>
    simp only [lbfgs_evaluate_mexps]
    apply ih
    rw [add_to_apply, add_to_apply, h]

/-- The relation between two states of the sweep that hold the same classifier
and loss and agree on the slots `K` of the model expectations. -/
theorem lbfgs_evaluate_instance_congr (exp log : α → α) (forward : Nat → Nat → Int)
    (x : Nat → α) (m_holdout : Int) (K : Nat → Prop) (iti : Instance α)
    (st st' : linear_multi_classifier α × (Nat → α) × α)
    (h : st.1 = st'.1 ∧ (∀ k, K k → st.2.1 k = st'.2.1 k) ∧ st.2.2 = st'.2.2) :
    (lbfgs_evaluate_instance exp log forward x m_holdout st iti).1 =
        (lbfgs_evaluate_instance exp log forward x m_holdout st' iti).1 ∧
    (∀ k, K k → (lbfgs_evaluate_instance exp log forward x m_holdout st iti).2.1 k =
        (lbfgs_evaluate_instance exp log forward x m_holdout st' iti).2.1 k) ∧
    (lbfgs_evaluate_instance exp log forward x m_holdout st iti).2.2 =
        (lbfgs_evaluate_instance exp log forward x m_holdout st' iti).2.2 := by
  obtain ⟨h1, h2, h3⟩ := h
  unfold lbfgs_evaluate_instance
  by_cases hg : iti.group = m_holdout
  · rw [if_pos hg, if_pos hg]
    exact ⟨h1, h2, h3⟩
  · rw [if_neg hg, if_neg hg]
    simp only [h1, h3]
    exact ⟨trivial, fun k hk => lbfgs_evaluate_mexps_congr forward _ 0 k _ _ (h2 k hk), trivial⟩

theorem lbfgs_evaluate_fold_congr (exp log : α → α) (forward : Nat → Nat → Int)
    (x : Nat → α) (m_holdout : Int) (K : Nat → Prop) (l : List (Instance α))
    (st st' : linear_multi_classifier α × (Nat → α) × α)
    (h : st.1 = st'.1 ∧ (∀ k, K k → st.2.1 k = st'.2.1 k) ∧ st.2.2 = st'.2.2) :
    (l.foldl (lbfgs_evaluate_instance exp log forward x m_holdout) st).1 =
        (l.foldl (lbfgs_evaluate_instance exp log forward x m_holdout) st').1 ∧
    (∀ k, K k → (l.foldl (lbfgs_evaluate_instance exp log forward x m_holdout) st).2.1 k =
        (l.foldl (lbfgs_evaluate_instance exp log forward x m_holdout) st').2.1 k) ∧
    (l.foldl (lbfgs_evaluate_instance exp log forward x m_holdout) st).2.2 =
        (l.foldl (lbfgs_evaluate_instance exp log forward x m_holdout) st').2.2 := by
  induction l generalizing st st' with
  | nil => exact h
  | cons iti rest ih =>
    rw [List.foldl_cons, List.foldl_cons]
    exact ih _ _ (lbfgs_evaluate_instance_congr exp log forward x m_holdout K iti st st' h)

/-- The sweep of `lbfgs_evaluate` does not depend on what `m_mexps` held: the
loss is the same, and so is every slot `k < n` of the model expectations. -/
theorem lbfgs_evaluate_sweep_history (exp log : α → α) (m m' : Nat → α) (L : Nat)
    (m_holdout : Int) (data : data_type α) (x : Nat → α) (n : Nat) :
    (lbfgs_evaluate_sweep exp log m L m_holdout data x n).2.2 =
      (lbfgs_evaluate_sweep exp log m' L m_holdout data x n).2.2 ∧
    ∀ k, k < n → (lbfgs_evaluate_sweep exp log m L m_holdout data x n).2.1 k =
      (lbfgs_evaluate_sweep exp log m' L m_holdout data x n).2.1 k := by
  unfold lbfgs_evaluate_sweep
  have h := lbfgs_evaluate_fold_congr exp log data.forward x m_holdout (fun k => k < n)
    data.instances
    ((linear_multi_classifier.ctor 0 : linear_multi_classifier α).resize L,
      (List.range n).foldl (fun m i => Function.update m i 0) m, 0)
    ((linear_multi_classifier.ctor 0 : linear_multi_classifier α).resize L,
      (List.range n).foldl (fun m i => Function.update m i 0) m', 0)
    ⟨rfl, fun k hk => by simp only [zero_fold_apply, if_pos hk], rfl⟩
  exact ⟨h.2.2, h.2.1⟩

theorem lbfgs_evaluate_history (exp log : α → α) (t : trainer_maxent α) (data : data_type α)
    (x : Nat → α) (n : Nat) (mexps : Nat → α) (g g' : Nat → α) (step step' : α) :
    (t.lbfgs_evaluate exp log data x g n step).1 =
      (({ t with m_mexps := mexps } : trainer_maxent α).lbfgs_evaluate
        exp log data x g' n step').1 ∧
    ∀ k, k < n → (t.lbfgs_evaluate exp log data x g n step).2.1 k =
      (({ t with m_mexps := mexps } : trainer_maxent α).lbfgs_evaluate
        exp log data x g' n step').2.1 k := by
  rw [lbfgs_evaluate_eq, lbfgs_evaluate_eq]
  obtain ⟨hl, hm⟩ := lbfgs_evaluate_sweep_history exp log t.m_mexps mexps t.m_num_labels
    t.m_holdout data x n
  simp only
  by_cases hc : t.m_c2 ≠ 0
  · rw [if_pos hc, if_pos hc]
    simp only
    refine ⟨?_, ?_⟩
    · rw [hl, (lbfgs_evaluate_l2_apply _ _ _ _ _).2, (lbfgs_evaluate_l2_apply _ _ _ _ _).2]
    · intro k hk
      rw [(lbfgs_evaluate_l2_apply _ _ _ _ _).1, (lbfgs_evaluate_l2_apply _ _ _ _ _).1,
        lbfgs_evaluate_gradient_apply, lbfgs_evaluate_gradient_apply, if_pos hk, if_pos hk,
        hm k hk]
  · rw [if_neg hc, if_neg hc]
    simp only
    refine ⟨hl, ?_⟩
    intro k hk
    rw [lbfgs_evaluate_gradient_apply, lbfgs_evaluate_gradient_apply, if_pos hk, if_pos hk,
      hm k hk]

theorem lbfgs_evaluate_trainer (exp log : α → α) (t : trainer_maxent α) (data : data_type α)
    (x g : Nat → α) (n : Nat) (step : α) :
    (t.lbfgs_evaluate exp log data x g n step).2.2 =
      { t with m_mexps :=
          (lbfgs_evaluate_sweep exp log t.m_mexps t.m_num_labels t.m_holdout data x n).2.1 } := by
  rw [lbfgs_evaluate_eq]
  split_ifs <;> rfl

end sweep_lemmas

/-- C31: `lbfgs_evaluate` is history-free.  A call returns the same loss and
writes the same gradient entries `g[0..n)` whatever `m_mexps` and the gradient
buffer held before (and whatever `step` is); and a second call with the same
weights on the trainer that a first call left, into the buffer that the first
call wrote, returns the loss and the gradient of the first call. -/
theorem lbfgs_evaluate_history_free {α : Type} [LinearOrderedField α] (exp log : α → α)
    (t : trainer_maxent α) (data : data_type α) (x : Nat → α) (n : Nat)
    (mexps g g' : Nat → α) (step step' : α) :
    ((t.lbfgs_evaluate exp log data x g n step).1 =
        (({ t with m_mexps := mexps } : trainer_maxent α).lbfgs_evaluate
          exp log data x g' n step').1 ∧
      ∀ k, k < n → (t.lbfgs_evaluate exp log data x g n step).2.1 k =
        (({ t with m_mexps := mexps } : trainer_maxent α).lbfgs_evaluate
          exp log data x g' n step').2.1 k) ∧
    (((t.lbfgs_evaluate exp log data x g n step).2.2.lbfgs_evaluate exp log data x
          (t.lbfgs_evaluate exp log data x g n step).2.1 n step).1 =
        (t.lbfgs_evaluate exp log data x g n step).1 ∧
      ∀ k, k < n →
        ((t.lbfgs_evaluate exp log data x g n step).2.2.lbfgs_evaluate exp log data x
          (t.lbfgs_evaluate exp log data x g n step).2.1 n step).2.1 k =
        (t.lbfgs_evaluate exp log data x g n step).2.1 k) := by
  refine ⟨lbfgs_evaluate_history exp log t data x n mexps g g' step step', ?_⟩
  rw [lbfgs_evaluate_trainer]
  obtain ⟨h1, h2⟩ := lbfgs_evaluate_history exp log t data x n
    (lbfgs_evaluate_sweep exp log t.m_mexps t.m_num_labels t.m_holdout data x n).2.1 g
    (t.lbfgs_evaluate exp log data x g n step).2.1 step step
  exact ⟨h1.symm, fun k hk => (h2 k hk).symm⟩

/-- C32 (the code at a failing input): a data set of an instance with two
candidates and an instance with one candidate, and the same two instances in
the other order, at the weights `0, 1` without regularization.  In the first
order `lbfgs_evaluate` returns `log (1 + e) + log (1 + e)`: the one-candidate
instance is normalised over both slots of the classifier, the second slot
still holding the score `1` that the instance before it left.  In the other
order it returns `log 2 + log (1 + e)`: the second slot holds the `0` that
`resize` put there.  The returned loss depends on the order of the
instances. -/
theorem lbfgs_evaluate_loss_depends_on_order :
    (example_data_two_swapped : data_type ℝ).instances.Perm
      (example_data_two : data_type ℝ).instances ∧
    ((example_trainer (fun k => [2, 0].getD k 0) : trainer_maxent ℝ).lbfgs_evaluate
        Real.exp Real.log example_data_two example_weights_second (fun _ => 0) 2 0).1
      = Real.log (1 + Real.exp 1) + Real.log (1 + Real.exp 1) ∧
    ((example_trainer (fun k => [2, 0].getD k 0) : trainer_maxent ℝ).lbfgs_evaluate
        Real.exp Real.log example_data_two_swapped example_weights_second (fun _ => 0) 2 0).1
      = Real.log 2 + Real.log (1 + Real.exp 1) ∧
    ((example_trainer (fun k => [2, 0].getD k 0) : trainer_maxent ℝ).lbfgs_evaluate
        Real.exp Real.log example_data_two example_weights_second (fun _ => 0) 2 0).1 ≠
      ((example_trainer (fun k => [2, 0].getD k 0) : trainer_maxent ℝ).lbfgs_evaluate
        Real.exp Real.log example_data_two_swapped example_weights_second (fun _ => 0) 2 0).1 := by
  have hget : ([1, Real.exp 1] : List ℝ)[1] = Real.exp 1 := rfl
  have h1 : ((example_trainer (fun k => [2, 0].getD k 0) : trainer_maxent ℝ).lbfgs_evaluate
        Real.exp Real.log example_data_two example_weights_second (fun _ => 0) 2 0).1
      = Real.log (1 + Real.exp 1) + Real.log (1 + Real.exp 1) := by
    simp [trainer_maxent.lbfgs_evaluate, example_trainer, example_data_two,
      lbfgs_evaluate_instance, lbfgs_evaluate_scores, linear_multi_classifier.accumulate,
      linear_multi_classifier.call, linear_multi_classifier.resize,
      ctor_eq, vector_resize, linear_multi_classifier.finalize,
      finalize_argmax, finalize_exps, finalize_norm, finalize_normalize,
      linear_multi_classifier.prob, linear_multi_classifier.size, List.range_succ,
      example_weights_second]
    rw [hget, add_comm (Real.exp 1) 1]
  have h2 : ((example_trainer (fun k => [2, 0].getD k 0) : trainer_maxent ℝ).lbfgs_evaluate
        Real.exp Real.log example_data_two_swapped example_weights_second (fun _ => 0) 2 0).1
      = Real.log 2 + Real.log (1 + Real.exp 1) := by
    simp [trainer_maxent.lbfgs_evaluate, example_trainer, example_data_two_swapped,
      lbfgs_evaluate_instance, lbfgs_evaluate_scores, linear_multi_classifier.accumulate,
      linear_multi_classifier.call, linear_multi_classifier.resize,
      ctor_eq, vector_resize, linear_multi_classifier.finalize,
      finalize_argmax, finalize_exps, finalize_norm, finalize_normalize,
      linear_multi_classifier.prob, linear_multi_classifier.size, List.range_succ,
      example_weights_second]
    rw [hget, add_comm (Real.exp 1) 1]
    norm_num
  have he : (2 : ℝ) < 1 + Real.exp 1 := by
    have := Real.add_one_lt_exp (one_ne_zero : (1 : ℝ) ≠ 0)
    linarith
  have hlog : Real.log 2 < Real.log (1 + Real.exp 1) :=
    Real.log_lt_log (by norm_num) he
  refine ⟨List.Perm.swap _ _ _, h1, h2, ?_⟩
  rw [h1, h2]
  intro h
  linarith

/-! ## The trainer: the classifier in the loops over candidates -/

section candidate_loop_lemmas

variable {α : Type} [LinearOrderedField α]

theorem call_fold_outside (forward : Nat → Nat → Int) (m_model : Nat → α) (i label : Nat)
    (attrs : List (Nat × α)) (s : linear_multi_classifier α) (hi : s.m_scores.length ≤ i) :
    attrs.foldl (fun s it => s.call forward m_model i it.1 label it.2) s = s := by
  induction attrs generalizing s with
  | nil => rfl
  | cons it rest ih =>
    rw [List.foldl_cons]
    have hc : s.call forward m_model i it.1 label it.2 = s := by
      unfold linear_multi_classifier.call
      simp only
      split_ifs
      · rw [List.set_eq_of_length_le hi]
      · rfl
    rw [hc]
    exact ih s hi

/-- What `accumulate(i, attrs, label)` does to the classifier, whether slot `i`
is inside the vectors or not. -/
theorem accumulate_eq (forward : Nat → Nat → Int) (m_model : Nat → α)
    (c : linear_multi_classifier α) (i : Nat) (attrs : List (Nat × α)) (label : Nat) :
    c.accumulate forward m_model i attrs label =
      { c with
        m_scores := c.m_scores.set i
          (spec_score forward m_model { attrs := attrs, label := label, truth := false })
        m_labels := c.m_labels.set i label } := by
  unfold linear_multi_classifier.accumulate
  by_cases hi : i < c.m_scores.length
  · rw [call_fold forward m_model i label attrs _ (by simpa using hi), foldl_add_eq_sum]
    simp [spec_score, List.getD_eq_getElem?_getD, hi]
  · rw [call_fold_outside forward m_model i label attrs _ (by simpa using hi)]
    rw [List.set_eq_of_length_le (le_of_not_lt hi), List.set_eq_of_length_le (le_of_not_lt hi)]

/-- The index `itrue` that the loop over the candidates leaves: the given one
when no candidate is marked true, otherwise the index of the last candidate
marked true. -/
theorem lbfgs_evaluate_scores_itrue (forward : Nat → Nat → Int) (x : Nat → α)
    (cands : List (Candidate α)) (i : Nat) (st : linear_multi_classifier α × Int) :
    ((∀ c ∈ cands, c.truth = false) →
      (lbfgs_evaluate_scores forward x i cands st).2 = st.2) ∧
    ((∃ c ∈ cands, c.truth = true) →
      ∃ k, k < cands.length ∧
        (lbfgs_evaluate_scores forward x i cands st).2 = ((i + k : Nat) : Int) ∧
        (cands.map (fun itc => itc.truth)).getD k false = true ∧
        ∀ j, k < j → (cands.map (fun itc => itc.truth)).getD j false = false) := by
  induction cands generalizing i st with
  | nil => simp [lbfgs_evaluate_scores]
  | cons itc rest ih =>
    simp only [lbfgs_evaluate_scores]
    obtain ⟨ih1, ih2⟩ := ih (i + 1)
      (st.1.accumulate forward x i itc.attrs itc.label, if itc.truth then (i : Int) else st.2)
    refine ⟨?_, ?_⟩
    · intro hall
      rw [ih1 (fun c hc => hall c (List.mem_cons_of_mem _ hc))]
      simp [hall itc (List.mem_cons_self _ _)]
    · intro hex
      by_cases hrest : ∃ c ∈ rest, c.truth = true
      · obtain ⟨k, hk, hr, ht, hlast⟩ := ih2 hrest
        refine ⟨k + 1, by simpa using hk, ?_, by simpa using ht, ?_⟩
        · rw [hr]
          push_cast
          ring
        · intro j hj
          cases j with
          | zero => omega
          | succ j =>
            simpa using hlast j (by omega)
      · have hall : ∀ c ∈ rest, c.truth = false := by
          intro c hc
          cases hct : c.truth
          · rfl
          · exact absurd ⟨c, hc, hct⟩ hrest
        have hitc : itc.truth = true := by
          obtain ⟨c, hc, hct⟩ := hex
          rcases List.mem_cons.mp hc with h | h
          · rw [← h]
            exact hct
          · rw [hall c h] at hct
            cases hct
        refine ⟨0, by simp, ?_, by simp [hitc], ?_⟩
        · rw [ih1 hall]
          simp [hitc]
        · intro j hj
          cases j with
          | zero => omega
          | succ j =>
            simp only [List.map_cons, List.getD_cons_succ]
            by_cases hjl : j < rest.length
            · rw [List.getD_eq_getElem?_getD, List.getElem?_eq_getElem (by simpa using hjl)]
              simp only [List.getElem_map, Option.getD_some]
              exact hall _ (List.getElem_mem _)
            · rw [List.getD_eq_getElem?_getD, List.getElem?_eq_none (by simpa using hjl)]
              rfl

theorem lbfgs_evaluate_scores_length (forward : Nat → Nat → Int) (x : Nat → α)
    (cands : List (Candidate α)) (i : Nat) (st : linear_multi_classifier α × Int) :
    (lbfgs_evaluate_scores forward x i cands st).1.m_scores.length = st.1.m_scores.length ∧
    (lbfgs_evaluate_scores forward x i cands st).1.m_labels.length = st.1.m_labels.length ∧
    (lbfgs_evaluate_scores forward x i cands st).1.m_probs = st.1.m_probs ∧
    (lbfgs_evaluate_scores forward x i cands st).1.m_argmax = st.1.m_argmax := by
  induction cands generalizing i st with
  | nil => simp [lbfgs_evaluate_scores]
  | cons itc rest ih =>
    simp only [lbfgs_evaluate_scores]
    obtain ⟨h1, h2, h3, h4⟩ := ih (i + 1)
      (st.1.accumulate forward x i itc.attrs itc.label, if itc.truth then (i : Int) else st.2)
    rw [h1, h2, h3, h4, accumulate_eq]
    simp

theorem finalize_length (exp : α → α) (c : linear_multi_classifier α) (prob : Bool) :
    (c.finalize exp prob).2.m_scores = c.m_scores ∧
    (c.finalize exp prob).2.m_labels = c.m_labels ∧
    (c.finalize exp prob).2.m_probs.length = c.m_probs.length := by
  unfold linear_multi_classifier.finalize
  by_cases h : c.m_scores.length = 0
  · rw [if_pos h]
    exact ⟨rfl, rfl, rfl⟩
  · rw [if_neg h]
    cases prob
    · exact ⟨rfl, rfl, rfl⟩
    · refine ⟨rfl, rfl, ?_⟩
      simp only [if_true]
      unfold finalize_normalize finalize_exps
      rw [(foldl_set_range (fun _ a => a / _) _ _).1,
        (foldl_set_range (fun i _ => exp (c.m_scores.getD i 0)) _ _).1]

end candidate_loop_lemmas

section precall_lemmas

end precall_lemmas

section score_bound_lemmas

variable {α : Type} [LinearOrderedField α]

end score_bound_lemmas


/-! ## The rounding of binary64 -/

section rounding_lemmas

end rounding_lemmas

section binary64_lemmas

end binary64_lemmas

section binary64_exact_lemmas

end binary64_exact_lemmas

section binary64_evaluation_lemmas

end binary64_evaluation_lemmas


/-! ## Evaluation: the rounded scores lie in `[0, 1]` -/

section rounded_score_lemmas

variable {α : Type} [LinearOrderedField α]

end rounded_score_lemmas

section range_lemmas

variable {α : Type} [LinearOrderedField α]

theorem train_prepare_num_labels (t : trainer_maxent α) (data : data_type α) (holdout : Int) :
    (t.train_prepare data holdout).m_num_labels =
      (data.instances.foldl (train_oexps_instance data.forward holdout)
        ((List.range data.num_features).foldl (fun m k => Function.update m k 0)
          (fun _ => 0), 0)).2 := by
  unfold trainer_maxent.train_prepare
  simp only
  split_ifs <;> rfl

/-- The second component of the observation pass is the largest candidate
count met among the instances that are not held out. -/
theorem train_oexps_fold_max (forward : Nat → Nat → Int) (m_holdout : Int)
    (l : List (Instance α)) (st : (Nat → α) × Nat) :
    st.2 ≤ (l.foldl (train_oexps_instance forward m_holdout) st).2 ∧
    (∀ iti ∈ l, iti.group ≠ m_holdout →
      iti.candidates.length ≤ (l.foldl (train_oexps_instance forward m_holdout) st).2) ∧
    ((l.foldl (train_oexps_instance forward m_holdout) st).2 = st.2 ∨
      ∃ iti ∈ l, iti.group ≠ m_holdout ∧
        iti.candidates.length = (l.foldl (train_oexps_instance forward m_holdout) st).2) := by
  induction l generalizing st with
  | nil => simp
  | cons a rest ih =>
    rw [List.foldl_cons]
    obtain ⟨h1, h2, h3⟩ := ih (train_oexps_instance forward m_holdout st a)
    have hstep : (train_oexps_instance forward m_holdout st a).2 =
        if a.group = m_holdout then st.2
        else if st.2 < a.candidates.length then a.candidates.length else st.2 := by
      unfold train_oexps_instance
      split_ifs <;> rfl
    refine ⟨?_, ?_, ?_⟩
    · refine le_trans ?_ h1
      rw [hstep]
      split_ifs <;> omega
    · intro iti hiti hg
      rcases List.mem_cons.mp hiti with h | h
      · subst h
        refine le_trans ?_ h1
        rw [hstep, if_neg hg]
        split_ifs <;> omega
      · exact h2 iti h hg
    · rcases h3 with h3 | ⟨iti, hiti, hg, hlen⟩
      · rw [h3, hstep]
        by_cases hg : a.group = m_holdout
        · left
          rw [if_pos hg]
        · rw [if_neg hg]
          by_cases hlt : st.2 < a.candidates.length
          · right
            refine ⟨a, List.mem_cons_self _ _, hg, ?_⟩
            rw [if_pos hlt]
          · left
            rw [if_neg hlt]
      · right
        exact ⟨iti, List.mem_cons_of_mem _ hiti, hg, hlen⟩

theorem resize_length (L : Nat) :
    ((linear_multi_classifier.ctor 0 : linear_multi_classifier α).resize L).m_scores.length = L ∧
    ((linear_multi_classifier.ctor 0 : linear_multi_classifier α).resize L).m_labels.length = L ∧
    ((linear_multi_classifier.ctor 0 : linear_multi_classifier α).resize L).m_probs.length = L := by
  rw [ctor_eq]
  simp [linear_multi_classifier.resize, vector_resize]

theorem lbfgs_evaluate_instance_length (exp log : α → α) (forward : Nat → Nat → Int)
    (x : Nat → α) (m_holdout : Int) (st : linear_multi_classifier α × (Nat → α) × α)
    (iti : Instance α) :
    (lbfgs_evaluate_instance exp log forward x m_holdout st iti).1.m_scores.length =
      st.1.m_scores.length ∧
    (lbfgs_evaluate_instance exp log forward x m_holdout st iti).1.m_labels.length =
      st.1.m_labels.length ∧
    (lbfgs_evaluate_instance exp log forward x m_holdout st iti).1.m_probs.length =
      st.1.m_probs.length := by
  unfold lbfgs_evaluate_instance
  by_cases hg : iti.group = m_holdout
  · rw [if_pos hg]
    exact ⟨rfl, rfl, rfl⟩
  · rw [if_neg hg]
    simp only
    obtain ⟨f1, f2, f3⟩ := finalize_length exp
      (lbfgs_evaluate_scores forward x 0 iti.candidates (st.1, -1)).1 true
    obtain ⟨s1, s2, s3, _⟩ := lbfgs_evaluate_scores_length forward x iti.candidates 0 (st.1, -1)
    rw [f1, f2, f3, s1, s2, s3]
    exact ⟨rfl, rfl, rfl⟩

theorem lbfgs_evaluate_fold_length (exp log : α → α) (forward : Nat → Nat → Int)
    (x : Nat → α) (m_holdout : Int) (l : List (Instance α))
    (st : linear_multi_classifier α × (Nat → α) × α) :
    (l.foldl (lbfgs_evaluate_instance exp log forward x m_holdout) st).1.m_scores.length =
      st.1.m_scores.length ∧
    (l.foldl (lbfgs_evaluate_instance exp log forward x m_holdout) st).1.m_labels.length =
      st.1.m_labels.length ∧
    (l.foldl (lbfgs_evaluate_instance exp log forward x m_holdout) st).1.m_probs.length =
      st.1.m_probs.length := by
  induction l generalizing st with
  | nil => exact ⟨rfl, rfl, rfl⟩
  | cons a rest ih =>
    rw [List.foldl_cons]
    obtain ⟨h1, h2, h3⟩ := ih (lbfgs_evaluate_instance exp log forward x m_holdout st a)
    obtain ⟨g1, g2, g3⟩ := lbfgs_evaluate_instance_length exp log forward x m_holdout st a
    rw [h1, h2, h3, g1, g2, g3]
    exact ⟨rfl, rfl, rfl⟩

/-- On a classifier that has a slot for each candidate, no access of the loop
over the candidates is outside the vectors. -/
theorem lbfgs_evaluate_scores_checked_eq (forward : Nat → Nat → Int) (x : Nat → α)
    (cands : List (Candidate α)) (i : Nat) (st : linear_multi_classifier α × Int)
    (hs : i + cands.length ≤ st.1.m_scores.length)
    (hl : i + cands.length ≤ st.1.m_labels.length) :
    lbfgs_evaluate_scores_checked forward x i cands st =
      some (lbfgs_evaluate_scores forward x i cands st) := by
  induction cands generalizing i st with
  | nil => rfl
  | cons itc rest ih =>
    simp only [List.length_cons] at hs hl
    simp only [lbfgs_evaluate_scores_checked, lbfgs_evaluate_scores,
      linear_multi_classifier.accumulate_checked]
    rw [if_pos ⟨by omega, by omega⟩]
    simp only
    apply ih
    · rw [accumulate_eq]
      simp only [List.length_set]
      omega
    · rw [accumulate_eq]
      simp only [List.length_set]
      omega

/-- The loop over the candidates meets slot `i` outside the vectors as soon as
there is a candidate and the classifier has no slot `i`. -/
theorem lbfgs_evaluate_scores_checked_none (forward : Nat → Nat → Int) (x : Nat → α)
    (itc : Candidate α) (rest : List (Candidate α)) (i : Nat)
    (st : linear_multi_classifier α × Int) (hs : st.1.m_scores.length ≤ i) :
    lbfgs_evaluate_scores_checked forward x i (itc :: rest) st = none := by
  simp only [lbfgs_evaluate_scores_checked, linear_multi_classifier.accumulate_checked]
  rw [if_neg (by omega)]

end range_lemmas

/-- C36: let `train` have prepared the trainer for a data set and a holdout
index, and let the sweep of `lbfgs_evaluate` have reached an instance that is
not held out and has a true candidate.  Then `m_num_labels` is at least the
number of candidates of the instance (it is the largest candidate count among
the instances not held out), the three vectors of the classifier have
`m_num_labels` slots, `itrue` is the index of a candidate, and the loop body
with checked accesses has a result, the one of the loop body: every index
handed to `accumulate` and the index handed to `prob` is inside the vectors
(`add_to` receives the candidate index as a value and indexes no vector of
the classifier with it). -/
theorem lbfgs_evaluate_indices_in_range {α : Type} [LinearOrderedField α] (exp log : α → α)
    (t : trainer_maxent α) (data : data_type α) (holdout : Int) (x : Nat → α) (n : Nat)
    (pre post : List (Instance α)) (iti : Instance α)
    (hdata : data.instances = pre ++ iti :: post)
    (hgroup : iti.group ≠ holdout)
    (htrue : ∃ c ∈ iti.candidates, c.truth = true) :
    (∀ it ∈ data.instances, it.group ≠ holdout →
      it.candidates.length ≤ (t.train_prepare data holdout).m_num_labels) ∧
    ((t.train_prepare data holdout).m_num_labels = 0 ∨
      ∃ it ∈ data.instances, it.group ≠ holdout ∧
        it.candidates.length = (t.train_prepare data holdout).m_num_labels) ∧
    (lbfgs_evaluate_sweep exp log (t.train_prepare data holdout).m_mexps
        (t.train_prepare data holdout).m_num_labels (t.train_prepare data holdout).m_holdout
        { data with instances := pre } x n).1.size =
      (t.train_prepare data holdout).m_num_labels ∧
    (lbfgs_evaluate_sweep exp log (t.train_prepare data holdout).m_mexps
        (t.train_prepare data holdout).m_num_labels (t.train_prepare data holdout).m_holdout
        { data with instances := pre } x n).1.m_labels.length =
      (t.train_prepare data holdout).m_num_labels ∧
    (lbfgs_evaluate_sweep exp log (t.train_prepare data holdout).m_mexps
        (t.train_prepare data holdout).m_num_labels (t.train_prepare data holdout).m_holdout
        { data with instances := pre } x n).1.m_probs.length =
      (t.train_prepare data holdout).m_num_labels ∧
    (∃ itrue : Nat, itrue < iti.candidates.length ∧
      (lbfgs_evaluate_scores data.forward x 0 iti.candidates
        ((lbfgs_evaluate_sweep exp log (t.train_prepare data holdout).m_mexps
          (t.train_prepare data holdout).m_num_labels (t.train_prepare data holdout).m_holdout
          { data with instances := pre } x n).1, -1)).2 = (itrue : Int)) ∧
    lbfgs_evaluate_instance_checked exp log data.forward x
        (t.train_prepare data holdout).m_holdout
        (lbfgs_evaluate_sweep exp log (t.train_prepare data holdout).m_mexps
          (t.train_prepare data holdout).m_num_labels (t.train_prepare data holdout).m_holdout
          { data with instances := pre } x n) iti =
      some (lbfgs_evaluate_instance exp log data.forward x
        (t.train_prepare data holdout).m_holdout
        (lbfgs_evaluate_sweep exp log (t.train_prepare data holdout).m_mexps
          (t.train_prepare data holdout).m_num_labels (t.train_prepare data holdout).m_holdout
          { data with instances := pre } x n) iti) := by
  have hh : (t.train_prepare data holdout).m_holdout = holdout :=
    (train_prepare_fields t data holdout).1
  obtain ⟨_, hmax, hatt⟩ := train_oexps_fold_max data.forward holdout data.instances
    ((List.range data.num_features).foldl (fun m k => Function.update m k 0) (fun _ => 0), 0)
  rw [← train_prepare_num_labels t data holdout] at hmax hatt
  generalize hL : (t.train_prepare data holdout).m_num_labels = L at hmax hatt ⊢
  generalize (t.train_prepare data holdout).m_mexps = m0
  rw [hh]
  have hmem : iti ∈ data.instances := by
    rw [hdata]
    simp
  have hlen : iti.candidates.length ≤ L := hmax iti hmem hgroup
  obtain ⟨r1, r2, r3⟩ := @resize_length α _ L
  obtain ⟨s1, s2, s3⟩ := lbfgs_evaluate_fold_length exp log data.forward x holdout pre
    ((linear_multi_classifier.ctor 0 : linear_multi_classifier α).resize L,
      (List.range n).foldl (fun m i => Function.update m i 0) m0, 0)
  simp only [r1, r2, r3] at s1 s2 s3
  have e1 : (lbfgs_evaluate_sweep exp log m0 L holdout
      { data with instances := pre } x n).1.m_scores.length = L := s1
  have e2 : (lbfgs_evaluate_sweep exp log m0 L holdout
      { data with instances := pre } x n).1.m_labels.length = L := s2
  have e3 : (lbfgs_evaluate_sweep exp log m0 L holdout
      { data with instances := pre } x n).1.m_probs.length = L := s3
  generalize lbfgs_evaluate_sweep exp log m0 L holdout
      { data with instances := pre } x n = st at e1 e2 e3 ⊢
  obtain ⟨k, hk, hit, _, _⟩ :=
    (lbfgs_evaluate_scores_itrue data.forward x iti.candidates 0 (st.1, -1)).2 htrue
  refine ⟨hmax, hatt, e1, e2, e3, ⟨k, hk, by simpa using hit⟩, ?_⟩
  unfold lbfgs_evaluate_instance_checked lbfgs_evaluate_instance
  rw [if_neg hgroup, if_neg hgroup,
    lbfgs_evaluate_scores_checked_eq data.forward x iti.candidates 0 (st.1, -1)
      (by simp only [zero_add]; omega) (by simp only [zero_add]; omega)]
  simp only
  have hp : ((lbfgs_evaluate_scores data.forward x 0 iti.candidates (st.1, -1)).1.finalize
      exp true).2.m_probs.length = L := by
    rw [(finalize_length exp _ true).2.2,
      (lbfgs_evaluate_scores_length data.forward x iti.candidates 0 (st.1, -1)).2.2.1]
    exact e3
  unfold linear_multi_classifier.prob_checked
  rw [hit, if_pos ⟨by omega, by rw [hp]; simp only [Int.toNat_ofNat]; omega⟩]

/-- The data set `example_data_holdout` with holdout group `1`, at its second
instance, over the rationals. -/
theorem lbfgs_evaluate_indices_in_range_witness :
    (example_data_holdout : data_type ℚ).instances =
      [example_instance_pair] ++ example_instance_single :: [example_holdout_instance] ∧
    (example_instance_single : Instance ℚ).group ≠ 1 ∧
    (∃ c ∈ (example_instance_single : Instance ℚ).candidates, c.truth = true) ∧
    (example_instance_single : Instance ℚ).candidates.length ≤
      ((example_trainer (fun _ => 0) : trainer_maxent ℚ).train_prepare
        example_data_holdout 1).m_num_labels ∧
    lbfgs_evaluate_instance_checked (fun q => 1 + q) (fun q => q - 1)
        (example_data_holdout : data_type ℚ).forward example_weights
        ((example_trainer (fun _ => 0) : trainer_maxent ℚ).train_prepare
          example_data_holdout 1).m_holdout
        (lbfgs_evaluate_sweep (fun q => 1 + q) (fun q => q - 1)
          ((example_trainer (fun _ => 0) : trainer_maxent ℚ).train_prepare
            example_data_holdout 1).m_mexps
          ((example_trainer (fun _ => 0) : trainer_maxent ℚ).train_prepare
            example_data_holdout 1).m_num_labels
          ((example_trainer (fun _ => 0) : trainer_maxent ℚ).train_prepare
            example_data_holdout 1).m_holdout
          { (example_data_holdout : data_type ℚ) with instances := [example_instance_pair] }
          example_weights 2)
        example_instance_single =
      some (lbfgs_evaluate_instance (fun q => 1 + q) (fun q => q - 1)
        (example_data_holdout : data_type ℚ).forward example_weights
        ((example_trainer (fun _ => 0) : trainer_maxent ℚ).train_prepare
          example_data_holdout 1).m_holdout
        (lbfgs_evaluate_sweep (fun q => 1 + q) (fun q => q - 1)
          ((example_trainer (fun _ => 0) : trainer_maxent ℚ).train_prepare
            example_data_holdout 1).m_mexps
          ((example_trainer (fun _ => 0) : trainer_maxent ℚ).train_prepare
            example_data_holdout 1).m_num_labels
          ((example_trainer (fun _ => 0) : trainer_maxent ℚ).train_prepare
            example_data_holdout 1).m_holdout
          { (example_data_holdout : data_type ℚ) with instances := [example_instance_pair] }
          example_weights 2)
        example_instance_single) :=
  ⟨rfl, by decide,
    ⟨{ attrs := [(0, 1)], label := 0, truth := true }, by simp [example_instance_single], rfl⟩,
    (lbfgs_evaluate_indices_in_range (fun q => 1 + q) (fun q => q - 1)
      (example_trainer (fun _ => 0) : trainer_maxent ℚ) example_data_holdout 1 example_weights 2
      [example_instance_pair] [example_holdout_instance] example_instance_single rfl
      (by decide)
      ⟨{ attrs := [(0, 1)], label := 0, truth := true }, by simp [example_instance_single],
        rfl⟩).1 example_instance_single (by simp [example_data_holdout, example_instance_single])
      (by decide),
    (lbfgs_evaluate_indices_in_range (fun q => 1 + q) (fun q => q - 1)
      (example_trainer (fun _ => 0) : trainer_maxent ℚ) example_data_holdout 1 example_weights 2
      [example_instance_pair] [example_holdout_instance] example_instance_single rfl
      (by decide)
      ⟨{ attrs := [(0, 1)], label := 0, truth := true }, by simp [example_instance_single],
        rfl⟩).2.2.2.2.2.2⟩

/-- C37 (the code at a failing input): the data set `example_data_holdout` with
holdout group `1` at the weights `1, 2, 3, 4`; the holdout instance has two
candidates, of scores `3` and `4`, the second one true, so that the argmax
candidate is the true candidate.  The classifier that `holdout_evaluation`
builds is never resized and has no slot: `accumulate(0, ...)` is outside its
vectors (the evaluation with checked accesses has no result), `finalize`
returns `false` for the holdout instance, `m_argmax` keeps what it held (here
`0`), and the instance is not counted as a match. -/
theorem holdout_evaluation_classifier_without_slots :
    (linear_multi_classifier.ctor 0 : linear_multi_classifier ℚ).size = 0 ∧
    (example_holdout_instance : Instance ℚ).group = 1 ∧
    (example_holdout_instance : Instance ℚ).candidates.length = 2 ∧
    (example_holdout_instance : Instance ℚ).candidates.map
      (spec_score (example_data_holdout : data_type ℚ).forward example_weights) = [3, 4] ∧
    (({ (example_trainer (fun _ => 0) : trainer_maxent ℚ) with
          m_weights := example_weights, m_holdout := 1 } : trainer_maxent ℚ).holdout_evaluation_checked
        (fun q => q) 0 example_data_holdout 2) = none ∧
    ((lbfgs_evaluate_scores (example_data_holdout : data_type ℚ).forward example_weights 0
        (example_holdout_instance : Instance ℚ).candidates
        ((linear_multi_classifier.ctor 0 : linear_multi_classifier ℚ), -1)).1.finalize
      (fun q => q) false).1 = false ∧
    (({ (example_trainer (fun _ => 0) : trainer_maxent ℚ) with
          m_weights := example_weights, m_holdout := 1 } : trainer_maxent ℚ).holdout_evaluation
        (fun q => q) 0 example_data_holdout 2).1.m_m = 0 ∧
    (({ (example_trainer (fun _ => 0) : trainer_maxent ℚ) with
          m_weights := example_weights, m_holdout := 1 } : trainer_maxent ℚ).holdout_evaluation
        (fun q => q) 0 example_data_holdout 2).1.m_n = 1 := by
  refine ⟨?_, rfl, rfl, ?_, ?_, ?_, ?_, ?_⟩
  · rw [ctor_eq]
    rfl
  · norm_num [example_holdout_instance, example_data_holdout, spec_score, example_weights]
  · simp [trainer_maxent.holdout_evaluation_checked, example_trainer, example_data_holdout,
      holdout_evaluation_instance_checked, lbfgs_evaluate_scores_checked,
      linear_multi_classifier.accumulate_checked, ctor_eq]
  · simp [example_holdout_instance, lbfgs_evaluate_scores, accumulate_eq, ctor_eq,
      linear_multi_classifier.finalize]
  · norm_num [trainer_maxent.holdout_evaluation, example_trainer, example_data_holdout,
      holdout_evaluation_instance, lbfgs_evaluate_scores, accumulate_eq, ctor_eq,
      linear_multi_classifier.finalize, linear_multi_classifier.argmax, accuracy.set,
      accuracy.ctor, int_wrap]
  · norm_num [trainer_maxent.holdout_evaluation, example_trainer, example_data_holdout,
      holdout_evaluation_instance, lbfgs_evaluate_scores, accumulate_eq, ctor_eq,
      linear_multi_classifier.finalize, linear_multi_classifier.argmax, accuracy.set,
      accuracy.ctor, int_wrap]

/-! ## Fold assignment: the sizes of the groups -/

section group_size_lemmas

theorem split_data_loop_group_range {α : Type} (split : Int) (hsplit : 1 ≤ split)
    (l : List (Instance α)) (i : Nat) :
    ∀ iti ∈ split_data_loop split i l, 0 ≤ iti.group ∧ iti.group < split := by
  intro iti hiti
  have hmem : iti.group ∈ (split_data_loop split i l).map (fun it => it.group) :=
    List.mem_map.mpr ⟨iti, hiti, rfl⟩
  rw [split_data_loop_groups split hsplit] at hmem
  obtain ⟨j, _, hj⟩ := List.mem_map.mp hmem
  rw [← hj]
  exact ⟨Int.emod_nonneg _ (by omega), Int.emod_lt_of_pos _ (by omega)⟩

theorem dvd_add_sub_iff (N g m : Nat) (hg : g < N) : N ∣ m + (N - g) ↔ m % N = g := by
  have hN : 0 < N := by omega
  have hr : m % N < N := Nat.mod_lt m hN
  rw [Nat.dvd_iff_mod_eq_zero, Nat.add_mod]
  have h2 : (N - g) % N = if g = 0 then 0 else N - g := by
    split_ifs with h0
    · subst h0
      simp
    · exact Nat.mod_eq_of_lt (by omega)
  rw [h2]
  generalize m % N = r at hr ⊢
  split_ifs with h0
  · subst h0
    rw [Nat.add_zero, Nat.mod_eq_of_lt hr]
  · by_cases hlt : r + (N - g) < N
    · rw [Nat.mod_eq_of_lt hlt]
      omega
    · rw [Nat.mod_eq_sub_mod (by omega), Nat.mod_eq_of_lt (by omega)]
      omega

/-- The number of indices below `m` that leave the remainder `g`. -/
theorem countP_mod_range (N g m : Nat) (hg : g < N) :
    (List.range m).countP (fun j => decide (j % N = g)) = (m + (N - 1 - g)) / N := by
  induction m with
  | zero =>
    simp only [List.range_zero, List.countP_nil, Nat.zero_add]
    exact (Nat.div_eq_of_lt (by omega)).symm
  | succ m ih =>
    rw [List.range_succ, List.countP_append, ih]
    have e : m + 1 + (N - 1 - g) = (m + (N - 1 - g)) + 1 := by omega
    rw [e, Nat.succ_div]
    have e2 : m + (N - 1 - g) + 1 = m + (N - g) := by omega
    rw [e2]
    by_cases h : m % N = g
    · rw [if_pos ((dvd_add_sub_iff N g m hg).mpr h)]
      simp [List.countP_cons, h]
    · rw [if_neg (fun hd => h ((dvd_add_sub_iff N g m hg).mp hd))]
      simp [List.countP_cons, h]

/-- The number of instances that `split_data` puts into group `g`. -/
theorem split_data_loop_count {α : Type} (N : Nat) (hN : 1 ≤ N) (l : List (Instance α))
    (g : Nat) (hg : g < N) :
    ((split_data_loop (N : Int) 0 l).filter (fun iti => decide (iti.group = (g : Int)))).length =
      (l.length + (N - 1 - g)) / N := by
  rw [← countP_mod_range N g l.length hg, ← List.countP_eq_length_filter]
  have h1 : (split_data_loop (N : Int) 0 l).countP (fun iti => decide (iti.group = (g : Int))) =
      ((split_data_loop (N : Int) 0 l).map (fun it => it.group)).countP
        (fun z => decide (z = (g : Int))) := by
    rw [List.countP_map]
    rfl
  rw [h1, split_data_loop_groups (N : Int) (by exact_mod_cast hN), ← List.range_eq_range',
    List.countP_map]
  apply List.countP_congr
  intro j _
  simp only [Function.comp, decide_eq_true_eq]
  rw [← Int.natCast_mod]
  exact Nat.cast_inj

theorem div_ceil_bounds (N k : Nat) (hN : 1 ≤ N) :
    k ≤ N * ((k + (N - 1)) / N) ∧ N * ((k + (N - 1)) / N) < k + N := by
  have h1 := Nat.div_add_mod (k + (N - 1)) N
  have h2 := Nat.mod_lt (k + (N - 1)) (by omega : 0 < N)
  generalize N * ((k + (N - 1)) / N) = q at h1 ⊢
  generalize (k + (N - 1)) % N = r at h1 h2
  omega

end group_size_lemmas

/-- C38: after `split_data` with `N = opt.split ≥ 1` on `m` instances, every
group lies in `[0, N)`; a group `g` of `[0, N)` holds `⌈(m - g) / N⌉` instances
when `g < m` (the count `c` with `m - g ≤ N c < m - g + N`) and none
otherwise, so that the sizes of two groups differ by at most 1.
`read_dataset` calls `split_data` only when `0 < opt.split`: what a
`split_data` would do for another split count has no influence on it. -/
theorem split_data_group_sizes {α : Type} (data : data_type α) (opt : option)
    (hsplit : 1 ≤ opt.split) :
    (∀ iti ∈ (split_data data opt).1.instances, 0 ≤ iti.group ∧ iti.group < opt.split) ∧
    (∀ g : Nat, (g : Int) < opt.split →
      (g < data.instances.length →
        ((((split_data data opt).1.instances.filter
            (fun iti => decide (iti.group = (g : Int)))).length : Nat) : Int) =
          ⌈((data.instances.length : ℚ) - (g : ℚ)) / (opt.split : ℚ)⌉) ∧
      (data.instances.length ≤ g →
        ((split_data data opt).1.instances.filter
          (fun iti => decide (iti.group = (g : Int)))).length = 0)) ∧
    (∀ g g' : Nat, (g : Int) < opt.split → (g' : Int) < opt.split →
      ((split_data data opt).1.instances.filter
          (fun iti => decide (iti.group = (g : Int)))).length ≤
        ((split_data data opt).1.instances.filter
          (fun iti => decide (iti.group = (g' : Int)))).length + 1) ∧
    (∀ (δ : Type) (open_file : String → Option String) (cin : String)
      (read_stream : String → δ → Int → δ × Option invalid_data)
      (sd sd' : δ → option → δ × Int) (d : δ) (o : option),
      (∀ d' o', 0 < o'.split → sd d' o' = sd' d' o') →
      read_dataset open_file cin read_stream sd d o =
        read_dataset open_file cin read_stream sd' d o) := by
  obtain ⟨N, hN⟩ : ∃ N : Nat, opt.split = (N : Int) := ⟨opt.split.toNat, by omega⟩
  have hN1 : 1 ≤ N := by omega
  have hcount : ∀ g : Nat, g < N →
      ((split_data data opt).1.instances.filter
          (fun iti => decide (iti.group = (g : Int)))).length =
        (data.instances.length + (N - 1 - g)) / N := by
    intro g hg
    unfold split_data
    simp only
    rw [hN]
    exact split_data_loop_count N hN1 data.instances g hg
  refine ⟨?_, ?_, ?_, ?_⟩
  · unfold split_data
    exact split_data_loop_group_range opt.split hsplit data.instances 0
  · intro g hg
    have hgN : g < N := by omega
    rw [hcount g hgN]
    refine ⟨?_, ?_⟩
    · intro hgm
      have e : data.instances.length + (N - 1 - g) = (data.instances.length - g) + (N - 1) := by
        omega
      obtain ⟨b1, b2⟩ := div_ceil_bounds N (data.instances.length - g) hN1
      rw [← e] at b1 b2
      symm
      rw [Int.ceil_eq_iff, hN]
      have hNq : (0 : ℚ) < (N : ℚ) := by exact_mod_cast hN1
      have c1 : ((data.instances.length - g : Nat) : ℚ) =
          (data.instances.length : ℚ) - (g : ℚ) := by
        rw [Nat.cast_sub (le_of_lt hgm)]
      have b1q : ((data.instances.length - g : Nat) : ℚ) ≤
          (N : ℚ) * (((data.instances.length + (N - 1 - g)) / N : Nat) : ℚ) := by
        exact_mod_cast b1
      have b2q : (N : ℚ) * (((data.instances.length + (N - 1 - g)) / N : Nat) : ℚ) <
          ((data.instances.length - g : Nat) : ℚ) + (N : ℚ) := by
        exact_mod_cast b2
      rw [c1] at b1q b2q
      simp only [Int.cast_natCast]
      refine ⟨?_, ?_⟩
      · rw [lt_div_iff₀ hNq]
        linarith
      · rw [div_le_iff₀ hNq]
        linarith
    · intro hmg
      exact Nat.div_eq_of_lt (by omega)
  · intro g g' hg hg'
    rw [hcount g (by omega), hcount g' (by omega)]
    have h1 := Nat.div_add_mod (data.instances.length + (N - 1 - g)) N
    have h2 := Nat.mod_lt (data.instances.length + (N - 1 - g)) (by omega : 0 < N)
    have h3 := Nat.div_add_mod (data.instances.length + (N - 1 - g')) N
    have h4 := Nat.mod_lt (data.instances.length + (N - 1 - g')) (by omega : 0 < N)
    have key : N * ((data.instances.length + (N - 1 - g)) / N) <
        N * ((data.instances.length + (N - 1 - g')) / N + 2) := by
      rw [Nat.mul_add]
      generalize N * ((data.instances.length + (N - 1 - g)) / N) = a at h1 ⊢
      generalize N * ((data.instances.length + (N - 1 - g')) / N) = b at h3 ⊢
      omega
    have := Nat.lt_of_mul_lt_mul_left key
    omega
  · intro δ open_file cin read_stream sd sd' d o hsame
    unfold read_dataset
    rcases read_data open_file cin read_stream d o with ⟨d1, e | _⟩
    · by_cases h : 0 < o.split
      · simp only [h, if_true, hsame d1 o h]
      · simp only [h, if_false]
    · rfl

/-- Ten instances split three ways: every group lies in `[0, 3)`, and the
sizes of two groups differ by at most 1. -/
theorem split_data_group_sizes_witness :
    (1 : Int) ≤ ({ option.ctor with split := 3 } : option).split ∧
    (∀ iti ∈ (split_data
        ({ instances := List.replicate 10 { candidates := [], group := 7 },
           forward := fun _ _ => 0, num_features := 0, user_feature_start := 0 } : data_type ℚ)
        { option.ctor with split := 3 }).1.instances,
      0 ≤ iti.group ∧ iti.group < ({ option.ctor with split := 3 } : option).split) ∧
    (∀ g g' : Nat, (g : Int) < ({ option.ctor with split := 3 } : option).split →
      (g' : Int) < ({ option.ctor with split := 3 } : option).split →
      ((split_data
        ({ instances := List.replicate 10 { candidates := [], group := 7 },
           forward := fun _ _ => 0, num_features := 0, user_feature_start := 0 } : data_type ℚ)
        { option.ctor with split := 3 }).1.instances.filter
          (fun iti => decide (iti.group = (g : Int)))).length ≤
        ((split_data
        ({ instances := List.replicate 10 { candidates := [], group := 7 },
           forward := fun _ _ => 0, num_features := 0, user_feature_start := 0 } : data_type ℚ)
        { option.ctor with split := 3 }).1.instances.filter
          (fun iti => decide (iti.group = (g' : Int)))).length + 1) :=
  ⟨by decide,
    (split_data_group_sizes
      ({ instances := List.replicate 10 { candidates := [], group := 7 },
         forward := fun _ _ => 0, num_features := 0, user_feature_start := 0 } : data_type ℚ)
      { option.ctor with split := 3 } (by decide)).1,
    (split_data_group_sizes
      ({ instances := List.replicate 10 { candidates := [], group := 7 },
         forward := fun _ _ => 0, num_features := 0, user_feature_start := 0 } : data_type ℚ)
      { option.ctor with split := 3 } (by decide)).2.2.1⟩

/-! ## The trainer: training sweep and holdout evaluation share the instances -/

section partition_lemmas

variable {α : Type} [LinearOrderedField α]

theorem holdout_evaluation_filter (exp : α → α) (forward : Nat → Nat → Int) (x : Nat → α)
    (m_holdout : Int) (l : List (Instance α))
    (st : linear_multi_classifier α × accuracy × confusion_matrix) :
    l.foldl (holdout_evaluation_instance exp forward x m_holdout) st =
      (l.filter (fun iti => decide (iti.group = m_holdout))).foldl
        (holdout_evaluation_instance exp forward x m_holdout) st := by
  apply foldl_filter_skip
  intro s a ha
  have : a.group ≠ m_holdout := by simpa using ha
  simp [holdout_evaluation_instance, this]

theorem filter_length_partition {ι : Type} (p : ι → Prop) [DecidablePred p] (l : List ι) :
    (l.filter (fun a => decide (¬ p a))).length + (l.filter (fun a => decide (p a))).length =
      l.length := by
  induction l with
  | nil => rfl
  | cons a rest ih =>
    by_cases h : p a
    · simp only [List.filter_cons, h, not_true_eq_false, decide_False, decide_True,
        Bool.false_eq_true, if_false, if_true, List.length_cons]
      omega
    · simp only [List.filter_cons, h, not_false_eq_true, decide_False, decide_True,
        Bool.false_eq_true, if_false, if_true, List.length_cons]
      omega

end partition_lemmas

/-- C39: let `train` have prepared the trainer for a data set and the holdout
index `holdout`.  Every instance is used by exactly one of the two loops: an
instance of another group is scored by the sweep of `lbfgs_evaluate` and passed
over by `holdout_evaluation`; an instance of the holdout group is passed over
by the sweep and evaluated by `holdout_evaluation`.  So the sweep is the sweep
over the instances of the other groups, `holdout_evaluation` is the evaluation
of the instances of the holdout group, and the two lists share out the data
set.  When `holdout = -1` and no group is negative, no instance is passed over
by the sweep, and `lbfgs_progress` runs no holdout evaluation.  The groups that
`split_data` assigns are not negative. -/
theorem instances_shared_by_holdout {α : Type} [LinearOrderedField α] (exp log : α → α)
    (a0 : Int) (t : trainer_maxent α) (data : data_type α) (holdout : Int) (x : Nat → α)
    (n num_labels : Nat) :
    (t.train_prepare data holdout).m_holdout = holdout ∧
    (∀ iti ∈ data.instances,
      ∀ (st : linear_multi_classifier α × (Nat → α) × α)
        (hst : linear_multi_classifier α × accuracy × confusion_matrix),
      (iti.group ≠ holdout ∧
        lbfgs_evaluate_instance exp log data.forward x
            (t.train_prepare data holdout).m_holdout st iti =
          (((lbfgs_evaluate_scores data.forward x 0 iti.candidates (st.1, -1)).1.finalize
              exp true).2,
            lbfgs_evaluate_mexps data.forward 0 iti.candidates st.2.1,
            st.2.2 - log
              (((lbfgs_evaluate_scores data.forward x 0 iti.candidates (st.1, -1)).1.finalize
                exp true).2.prob
                (lbfgs_evaluate_scores data.forward x 0 iti.candidates (st.1, -1)).2)) ∧
        holdout_evaluation_instance exp data.forward
            (t.train_prepare data holdout).m_weights
            (t.train_prepare data holdout).m_holdout hst iti = hst) ∨
      (iti.group = holdout ∧
        lbfgs_evaluate_instance exp log data.forward x
            (t.train_prepare data holdout).m_holdout st iti = st ∧
        (holdout_evaluation_instance exp data.forward
            (t.train_prepare data holdout).m_weights
            (t.train_prepare data holdout).m_holdout hst iti).2.1 =
          hst.2.1.set (decide
            ((lbfgs_evaluate_scores data.forward (t.train_prepare data holdout).m_weights 0
                iti.candidates (hst.1, -1)).2 =
              ((lbfgs_evaluate_scores data.forward (t.train_prepare data holdout).m_weights 0
                iti.candidates (hst.1, -1)).1.finalize exp false).2.argmax)))) ∧
    lbfgs_evaluate_sweep exp log (t.train_prepare data holdout).m_mexps
        (t.train_prepare data holdout).m_num_labels (t.train_prepare data holdout).m_holdout
        data x n =
      lbfgs_evaluate_sweep exp log (t.train_prepare data holdout).m_mexps
        (t.train_prepare data holdout).m_num_labels (t.train_prepare data holdout).m_holdout
        { data with instances :=
            data.instances.filter (fun iti => decide (¬ iti.group = holdout)) } x n ∧
    (t.train_prepare data holdout).holdout_evaluation exp a0 data num_labels =
      (t.train_prepare data holdout).holdout_evaluation exp a0
        { data with instances :=
            data.instances.filter (fun iti => decide (iti.group = holdout)) } num_labels ∧
    (data.instances.filter (fun iti => decide (¬ iti.group = holdout))).length +
        (data.instances.filter (fun iti => decide (iti.group = holdout))).length =
      data.instances.length ∧
    (holdout = -1 →
      ((t.train_prepare data holdout).lbfgs_progress exp a0 data num_labels x n).2.2 = none ∧
      ((∀ iti ∈ data.instances, 0 ≤ iti.group) →
        data.instances.filter (fun iti => decide (¬ iti.group = holdout)) = data.instances)) ∧
    (∀ opt : option, 1 ≤ opt.split →
      ∀ iti ∈ (split_data data opt).1.instances, 0 ≤ iti.group) := by
  have hh : (t.train_prepare data holdout).m_holdout = holdout :=
    (train_prepare_fields t data holdout).1
  refine ⟨hh, ?_, ?_, ?_, ?_, ?_, ?_⟩
  · intro iti _ st hst
    rw [hh]
    by_cases hg : iti.group = holdout
    · right
      refine ⟨hg, ?_, ?_⟩
      · unfold lbfgs_evaluate_instance
        rw [if_pos hg]
      · unfold holdout_evaluation_instance
        rw [if_neg (by simpa using hg)]
    · left
      refine ⟨hg, ?_, ?_⟩
      · unfold lbfgs_evaluate_instance
        rw [if_neg hg]
      · unfold holdout_evaluation_instance
        rw [if_pos hg]
  · rw [hh]
    unfold lbfgs_evaluate_sweep
    simp only
    rw [lbfgs_evaluate_sweep_filter]
  · unfold trainer_maxent.holdout_evaluation
    rw [hh]
    simp only
    rw [holdout_evaluation_filter]
  · exact filter_length_partition (fun iti : Instance α => iti.group = holdout) data.instances
  · intro hneg
    refine ⟨?_, ?_⟩
    · unfold trainer_maxent.lbfgs_progress
      simp only
      rw [hh, if_neg (by simpa using hneg)]
    · intro hall
      rw [List.filter_eq_self]
      intro iti hiti
      have := hall iti hiti
      simp only [decide_eq_true_eq]
      omega
  · intro opt hsplit iti hiti
    exact (split_data_loop_group_range opt.split hsplit data.instances 0 iti hiti).1

/-! ## The front end: the instance of a rejected line -/

/-- C40 (as stated, refuted): the second line of the input has the label `0`, which
the binary `read_line` rejects, and the second line of the other input has an
empty first token, which the multi-class `read_line` rejects.  `read_stream`
throws, and the data set holds two instances: the one of the accepted first
line and one more, without features, that `new_element()` appended for the
rejected line before `read_line` was called.  Reading the accepted line alone
leaves one instance. -/
theorem read_stream_not_atomic_counterexample :
    (binary.read_stream example_tokenize (fun _ => (7 : ℚ)) "1\tA\n0\tB\n" example_binary_data
      (example_option 0) 0).2 ≠ none ∧
    (binary.read_stream example_tokenize (fun _ => (7 : ℚ)) "1\tA\n0\tB\n" example_binary_data
      (example_option 0) 0).1.instances.map (fun i => i.features) = [[(0, 1)], []] ∧
    (binary.read_stream example_tokenize (fun _ => (7 : ℚ)) "1\tA\n" example_binary_data
      (example_option 0) 0).1.instances.map (fun i => i.features) = [[(0, 1)]] ∧
    (multi.read_stream example_tokenize (fun _ => (7 : ℚ)) "1\tA\n\tB\n" example_multi_data
      (example_option 0) 0).2 ≠ none ∧
    (multi.read_stream example_tokenize (fun _ => (7 : ℚ)) "1\tA\n\tB\n" example_multi_data
      (example_option 0) 0).1.instances.map (fun i => i.attributes) = [[(0, 1)], []] ∧
    (multi.read_stream example_tokenize (fun _ => (7 : ℚ)) "1\tA\n" example_multi_data
      (example_option 0) 0).1.instances.map (fun i => i.attributes) = [[(0, 1)]] := by
  refine ⟨by decide, by decide, by decide, by decide, by decide, by decide⟩

/-- C40 (amended): let `read_stream` accept the lines before a line that is
neither empty nor a comment and on which `read_line` throws `invalid_data`.
Then `read_stream` throws that exception, and the data set holds the instances
built from the lines accepted before, followed by one more instance: the one
that `new_element()` appended for the rejected line, in which only the group is
set; the quarks are as the accepted lines left them.  This holds for the
binary and for the multi-class task. -/
theorem read_stream_rejected_line_instance {α γ : Type} [LinearOrderedField α]
    (tokenize : String → Char → List String) (atof : String → α)
    (before input : String) (opt : train_option α) (group : Int)
    (pre post : List String) (line : String)
    (hbefore : getline_lines before.toList [] = pre)
    (hinput : getline_lines input.toList [] = pre ++ line :: post)
    (hline : line ≠ "" ∧ ¬ line.toList.take 1 = ['#']) :
    (∀ (data : binary_data α) (e : invalid_data),
      (binary.read_stream tokenize atof before data opt group).2 = none →
      binary.read_line tokenize atof line
          { (binary_instance.ctor : binary_instance α) with group := group }
          (binary.read_stream tokenize atof before data opt group).1.attributes opt
          ((pre.length : Int) + 1) = Except.error e →
      (binary.read_stream tokenize atof input data opt group).2 = some e ∧
      (binary.read_stream tokenize atof input data opt group).1.instances =
        (binary.read_stream tokenize atof before data opt group).1.instances ++
          [{ (binary_instance.ctor : binary_instance α) with group := group }] ∧
      (binary.read_stream tokenize atof input data opt group).1.attributes =
        (binary.read_stream tokenize atof before data opt group).1.attributes) ∧
    (∀ (data : multi_data α γ) (e : invalid_data),
      (multi.read_stream tokenize atof before data opt group).2 = none →
      multi.read_line tokenize atof line
          { (multi_instance.ctor : multi_instance α) with group := group }
          ((multi.read_stream tokenize atof before data opt group).1.attributes,
            (multi.read_stream tokenize atof before data opt group).1.labels) opt
          ((pre.length : Int) + 1) = Except.error e →
      (multi.read_stream tokenize atof input data opt group).2 = some e ∧
      (multi.read_stream tokenize atof input data opt group).1.instances =
        (multi.read_stream tokenize atof before data opt group).1.instances ++
          [{ (multi_instance.ctor : multi_instance α) with group := group }] ∧
      (multi.read_stream tokenize atof input data opt group).1.attributes =
        (multi.read_stream tokenize atof before data opt group).1.attributes ∧
      (multi.read_stream tokenize atof input data opt group).1.labels =
        (multi.read_stream tokenize atof before data opt group).1.labels) := by
  refine ⟨?_, ?_⟩
  · intro data e hok hrej
    by_cases hb : opt.bias ≠ 0
    · by_cases hid : ((data.attributes.call "__BIAS__").2 : Int) ≠ 0
      · unfold binary.read_stream at hok
        rw [if_pos hb, if_pos hid] at hok
        exact absurd hok (by simp)
      · have hB : binary.read_stream tokenize atof before data opt group =
            ({ instances := (read_stream_loop
                  (fun line inst q lines => binary.read_line tokenize atof line inst q opt lines)
                  { (binary_instance.ctor : binary_instance α) with group := group } pre 0
                  (data.instances, (data.attributes.call "__BIAS__").1)).1.1,
               attributes := (read_stream_loop
                  (fun line inst q lines => binary.read_line tokenize atof line inst q opt lines)
                  { (binary_instance.ctor : binary_instance α) with group := group } pre 0
                  (data.instances, (data.attributes.call "__BIAS__").1)).1.2,
               user_feature_start := ((data.attributes.call "__BIAS__").2 : Int) + 1 },
             (read_stream_loop
                (fun line inst q lines => binary.read_line tokenize atof line inst q opt lines)
                { (binary_instance.ctor : binary_instance α) with group := group } pre 0
                (data.instances, (data.attributes.call "__BIAS__").1)).2) := by
          unfold binary.read_stream
          rw [if_pos hb, if_neg hid, hbefore]
        rw [hB] at hok hrej ⊢
        simp only at hok hrej ⊢
        unfold binary.read_stream
        rw [if_pos hb, if_neg hid, hinput]
        simp only
        rw [read_stream_loop_append_ok _ _ pre (line :: post) 0 _ hok,
          read_stream_loop_reject _ _ line post _ _ e hline.1 hline.2
            (by simpa using hrej)]
        exact ⟨rfl, rfl, rfl⟩
    · have hB : binary.read_stream tokenize atof before data opt group =
          ({ data with
             instances := (read_stream_loop
                (fun line inst q lines => binary.read_line tokenize atof line inst q opt lines)
                { (binary_instance.ctor : binary_instance α) with group := group } pre 0
                (data.instances, data.attributes)).1.1,
             attributes := (read_stream_loop
                (fun line inst q lines => binary.read_line tokenize atof line inst q opt lines)
                { (binary_instance.ctor : binary_instance α) with group := group } pre 0
                (data.instances, data.attributes)).1.2 },
           (read_stream_loop
              (fun line inst q lines => binary.read_line tokenize atof line inst q opt lines)
              { (binary_instance.ctor : binary_instance α) with group := group } pre 0
              (data.instances, data.attributes)).2) := by
        unfold binary.read_stream
        rw [if_neg hb, hbefore]
      rw [hB] at hok hrej ⊢
      simp only at hok hrej ⊢
      unfold binary.read_stream
      rw [if_neg hb, hinput]
      simp only
      rw [read_stream_loop_append_ok _ _ pre (line :: post) 0 _ hok,
        read_stream_loop_reject _ _ line post _ _ e hline.1 hline.2
          (by simpa using hrej)]
      exact ⟨rfl, rfl, rfl⟩
  · intro data e hok hrej
    by_cases hb : opt.bias ≠ 0
    · by_cases hid : ((data.attributes.call "__BIAS__").2 : Int) ≠ 0
      · unfold multi.read_stream at hok
        rw [if_pos hb, if_pos hid] at hok
        exact absurd hok (by simp)
      · have hB : multi.read_stream tokenize atof before data opt group =
            ({ data with
               instances := (read_stream_loop
                  (fun line inst q lines => multi.read_line tokenize atof line inst q opt lines)
                  { (multi_instance.ctor : multi_instance α) with group := group } pre 0
                  (data.instances, ((data.attributes.call "__BIAS__").1, data.labels))).1.1,
               attributes := (read_stream_loop
                  (fun line inst q lines => multi.read_line tokenize atof line inst q opt lines)
                  { (multi_instance.ctor : multi_instance α) with group := group } pre 0
                  (data.instances, ((data.attributes.call "__BIAS__").1, data.labels))).1.2.1,
               labels := (read_stream_loop
                  (fun line inst q lines => multi.read_line tokenize atof line inst q opt lines)
                  { (multi_instance.ctor : multi_instance α) with group := group } pre 0
                  (data.instances, ((data.attributes.call "__BIAS__").1, data.labels))).1.2.2 },
             (read_stream_loop
                (fun line inst q lines => multi.read_line tokenize atof line inst q opt lines)
                { (multi_instance.ctor : multi_instance α) with group := group } pre 0
                (data.instances, ((data.attributes.call "__BIAS__").1, data.labels))).2) := by
          unfold multi.read_stream
          rw [if_pos hb, if_neg hid, hbefore]
        rw [hB] at hok hrej ⊢
        simp only at hok hrej ⊢
        unfold multi.read_stream
        rw [if_pos hb, if_neg hid, hinput]
        simp only
        rw [read_stream_loop_append_ok _ _ pre (line :: post) 0 _ hok,
          read_stream_loop_reject _ _ line post _ _ e hline.1 hline.2
            (by simpa using hrej)]
        exact ⟨rfl, rfl, rfl, rfl⟩
    · have hB : multi.read_stream tokenize atof before data opt group =
          ({ data with
             instances := (read_stream_loop
                (fun line inst q lines => multi.read_line tokenize atof line inst q opt lines)
                { (multi_instance.ctor : multi_instance α) with group := group } pre 0
                (data.instances, (data.attributes, data.labels))).1.1,
             attributes := (read_stream_loop
                (fun line inst q lines => multi.read_line tokenize atof line inst q opt lines)
                { (multi_instance.ctor : multi_instance α) with group := group } pre 0
                (data.instances, (data.attributes, data.labels))).1.2.1,
             labels := (read_stream_loop
                (fun line inst q lines => multi.read_line tokenize atof line inst q opt lines)
                { (multi_instance.ctor : multi_instance α) with group := group } pre 0
                (data.instances, (data.attributes, data.labels))).1.2.2 },
           (read_stream_loop
              (fun line inst q lines => multi.read_line tokenize atof line inst q opt lines)
              { (multi_instance.ctor : multi_instance α) with group := group } pre 0
              (data.instances, (data.attributes, data.labels))).2) := by
        unfold multi.read_stream
        rw [if_neg hb, hbefore]
      rw [hB] at hok hrej ⊢
      simp only at hok hrej ⊢
      unfold multi.read_stream
      rw [if_neg hb, hinput]
      simp only
      rw [read_stream_loop_append_ok _ _ pre (line :: post) 0 _ hok,
        read_stream_loop_reject _ _ line post _ _ e hline.1 hline.2
          (by simpa using hrej)]
      exact ⟨rfl, rfl, rfl, rfl⟩

/-- An accepted line, then a line with the label `0`, in the binary task: the
data set holds the instance of the first line and one more instance. -/
theorem read_stream_rejected_line_instance_witness :
    getline_lines "1\tA\n".toList [] = ["1\tA"] ∧
    getline_lines "1\tA\n0\tB\n".toList [] = ["1\tA"] ++ "0\tB" :: [] ∧
    ("0\tB" ≠ "" ∧ ¬ "0\tB".toList.take 1 = ['#']) ∧
    (binary.read_stream example_tokenize (fun _ => (7 : ℚ)) "1\tA\n" example_binary_data
      (example_option 0) 0).2 = none ∧
    (binary.read_stream example_tokenize (fun _ => (7 : ℚ)) "1\tA\n0\tB\n" example_binary_data
        (example_option 0) 0).2 =
      some { msg := "a class label must be either \x27+1\x27, \x271\x27, or \x27-1\x27",
             line := some "0\tB", lines := some (((["1\tA"] : List String).length : Int) + 1) } ∧
    (binary.read_stream example_tokenize (fun _ => (7 : ℚ)) "1\tA\n0\tB\n" example_binary_data
        (example_option 0) 0).1.instances =
      (binary.read_stream example_tokenize (fun _ => (7 : ℚ)) "1\tA\n" example_binary_data
        (example_option 0) 0).1.instances ++
        [{ (binary_instance.ctor : binary_instance ℚ) with group := 0 }] ∧
    (binary.read_stream example_tokenize (fun _ => (7 : ℚ)) "1\tA\n0\tB\n" example_binary_data
        (example_option 0) 0).1.attributes =
      (binary.read_stream example_tokenize (fun _ => (7 : ℚ)) "1\tA\n" example_binary_data
        (example_option 0) 0).1.attributes :=
  ⟨by decide, by decide, ⟨by decide, by decide⟩, rfl,
    (@read_stream_rejected_line_instance ℚ Unit _ example_tokenize (fun _ => (7 : ℚ))
      "1\tA\n" "1\tA\n0\tB\n" (example_option 0) 0 ["1\tA"] [] "0\tB" (by decide) (by decide)
      ⟨by decide, by decide⟩).1 example_binary_data
      { msg := "a class label must be either \x27+1\x27, \x271\x27, or \x27-1\x27",
        line := some "0\tB", lines := some (((["1\tA"] : List String).length : Int) + 1) }
      rfl rfl⟩

end classias
